import Mathlib

/-!
# A/B boot-slot selection (PayloadPkg/Library/AbSupportLib)

A shallow embedding of `AbSupportLib.c` / `AbSupport.h`:

* the binary scheme: `SlotBootable`, `ParseBootSlot`, `LoadMisc`;
* the text scheme: `LoadMenderConfig`, `LoadMender`, `ParseMenderConfig`;
* the dispatcher `GetBootSlot`.

Machine integers are natural numbers or integers with explicit reductions
where a C conversion can lose bits.  Memory that the C code reads through a
pointer is a list of bytes; a read outside the list is an explicit outcome.
-/

namespace AbSupport

/-! ## Status codes and outcomes -/

/-- An `EFI_STATUS` value: `err` is the most significant bit (`MAX_BIT`), which
`ENCODE_ERROR` sets, and `code` holds the remaining bits. -/
structure EFI_STATUS where
  err : Bool
  code : Nat
deriving DecidableEq, Repr

/-- The macro `EFI_ERROR (Status)`: the value is negative as an `INTN`. -/
def EFI_ERROR (Status : EFI_STATUS) : Bool := Status.err

def EFI_SUCCESS : EFI_STATUS := ⟨false, 0⟩
def EFI_LOAD_ERROR : EFI_STATUS := ⟨true, 1⟩
def EFI_INVALID_PARAMETER : EFI_STATUS := ⟨true, 2⟩
def EFI_OUT_OF_RESOURCES : EFI_STATUS := ⟨true, 9⟩
def RETURN_NOT_FOUND : EFI_STATUS := ⟨true, 14⟩

/-- Result of running code that walks a byte buffer through a raw pointer or
divides by a value it has not tested: it finishes with a value, or it reads
outside the buffer, or the iteration budget of the embedding is used up, or it
divides by zero.  Reading outside the buffer and dividing by zero are
undefined behaviour in C: the call produces no defined result. -/
inductive Outcome (α : Type) where
  | done (a : α)
  | outOfBounds
  | outOfFuel
  | divideByZero
deriving DecidableEq, Repr

/-- Conversion of an unsigned 32-bit value to `INT32` (two's complement). -/
def toINT32 (n : Nat) : Int :=
  if n % 2 ^ 32 < 2 ^ 31 then ((n % 2 ^ 32 : Nat) : Int) else ((n % 2 ^ 32 : Nat) : Int) - 2 ^ 32

/-! ## Binary scheme: data model (AbSupport.h) -/

/-- The value of `SIGNATURE_32 ('B', 'C', 'A', 'B')`. -/
def AB_MAGIC_SIGNATURE : Nat := 0x42414342

/-- One `AB_SLOT_DATA` entry, bit-fields unpacked. -/
structure AB_SLOT_DATA where
  Priority : Nat
  TriesRemaining : Nat
  SuccessBoot : Nat
  VerityCorrupted : Nat
  Reserved : Nat
deriving DecidableEq, Repr

/-- The memory image of one packed `AB_BOOT_INFO`: `sizeof (AB_BOOT_INFO)` is
32 bytes under `#pragma pack(1)`.  Offsets: `SlotSuffix` 0, `Magic` 4, `Major` 8,
the `NbSlot`/`RecoveryTriesRemaining`/`MergeStatus` bit-fields 9..10,
`Reserved1` 11, `SlotData[4]` 12..19 (two bytes each), `Reserved2` 20..27,
`Crc32` 28..31.  Multi-byte fields are little endian and bit-fields are
allocated from the least significant bit. -/
structure AB_BOOT_INFO where
  raw : List Nat
  size_eq : raw.length = 32
  byte_lt : ∀ b ∈ raw, b < 256

/-- The byte at an offset of the record. -/
def AB_BOOT_INFO.byte (r : AB_BOOT_INFO) (i : Nat) : Nat := r.raw.getD i 0

/-- A little-endian `UINT32` read from four bytes. -/
def le32 (b0 b1 b2 b3 : Nat) : Nat := b0 + 256 * b1 + 65536 * b2 + 16777216 * b3

def AB_BOOT_INFO.Magic (r : AB_BOOT_INFO) : Nat :=
  le32 (r.byte 4) (r.byte 5) (r.byte 6) (r.byte 7)

def AB_BOOT_INFO.Major (r : AB_BOOT_INFO) : Nat := r.byte 8

def AB_BOOT_INFO.NbSlot (r : AB_BOOT_INFO) : Nat := r.byte 9 % 8

def AB_BOOT_INFO.Crc32 (r : AB_BOOT_INFO) : Nat :=
  le32 (r.byte 28) (r.byte 29) (r.byte 30) (r.byte 31)

/-- The entry `SlotData[i]`: `Priority:4`, `TriesRemaining:3`, `SuccessBoot:1`
in the first byte, `VerityCorrupted:1`, `Reserved:7` in the second. -/
def AB_BOOT_INFO.SlotData (r : AB_BOOT_INFO) (i : Nat) : AB_SLOT_DATA :=
  { Priority := r.byte (12 + 2 * i) % 16
    TriesRemaining := r.byte (12 + 2 * i) / 16 % 8
    SuccessBoot := r.byte (12 + 2 * i) / 128 % 2
    VerityCorrupted := r.byte (13 + 2 * i) % 2
    Reserved := r.byte (13 + 2 * i) / 2 % 128 }

/-! ## CRC32 engine (Crc32Lib) -/

/-- One bit of the reflected CRC-32 shift register, polynomial `0xEDB88320`. -/
def Crc32Bit (c : Nat) : Nat :=
  if c % 2 = 1 then (c / 2) ^^^ 0xEDB88320 else c / 2

/-- One data byte: the table-driven update
`Crc = (Crc >> 8) ^ Table[(UINT8) Crc ^ Byte]`, computed bit by bit. -/
def Crc32Byte (c b : Nat) : Nat := Crc32Bit^[8] (c ^^^ b)

/-- Modelled from the spec: `CalculateCrc32WithType` with `Crc32TypeDefault`
(Crc32Lib is not among the sources at hand).  The spec names it a CRC32 engine
with the standard polynomial: initial value `0xFFFFFFFF`, reflected polynomial
`0xEDB88320`, final complement.  A request for zero bytes is refused, which is
the only failure the model has. -/
def CalculateCrc32WithType (Data : List Nat) : Option Nat :=
  if Data.length = 0 then none
  else some ((Data.foldl Crc32Byte 0xFFFFFFFF) ^^^ 0xFFFFFFFF)

/-! ## Binary scheme: slot arbitration (AbSupportLib.c) -/

/-- Function `SlotBootable`: check if slot is bootable. -/
def SlotBootable (SlotData : AB_SLOT_DATA) : Bool :=
  if decide (SlotData.Priority > 0) &&
      (decide (SlotData.SuccessBoot > 0) || decide (SlotData.TriesRemaining > 0)) then
    true
  else
    false

/-- Function `ParseBootSlot`: check which slot to boot.  `DataSize` is
`sizeof (AB_BOOT_INFO) - sizeof (UINT32)`, that is 28. -/
def ParseBootSlot (AbBootInfo : AB_BOOT_INFO) : Int :=
  if AbBootInfo.Magic ≠ AB_MAGIC_SIGNATURE then
    -1
  else
    match CalculateCrc32WithType (AbBootInfo.raw.take 28) with
    | none => -2
    | some CrcOut =>
      if CrcOut ≠ AbBootInfo.Crc32 then
        -2
      else if SlotBootable (AbBootInfo.SlotData 0) then
        if SlotBootable (AbBootInfo.SlotData 1) then
          if (AbBootInfo.SlotData 1).Priority > (AbBootInfo.SlotData 0).Priority then
            1
          else
            0
        else
          0
      else if SlotBootable (AbBootInfo.SlotData 1) then
        1
      else
        -3

/-- The record with bit `k % 8` of byte `k / 8` inverted (`k` counts the 256
bits of the record from the least significant bit of byte 0). -/
def AB_BOOT_INFO.flipBit (r : AB_BOOT_INFO) (k : Nat) : AB_BOOT_INFO :=
  { raw := r.raw.set (k / 8) (r.raw.getD (k / 8) 0 ^^^ 2 ^ (k % 8))
    size_eq := by rw [List.length_set]; exact r.size_eq
    byte_lt := by
      intro b hb
      rcases List.mem_or_eq_of_mem_set hb with h | h
      · exact r.byte_lt b h
      · have h1 : r.raw.getD (k / 8) 0 < 2 ^ 8 := by
          rw [List.getD_eq_getElem?_getD]
          cases hq : r.raw[k / 8]? with
          | none => simp
          | some x =>
            have := r.byte_lt x (List.getElem?_mem hq)
            simpa using this
        have h2 : 2 ^ (k % 8) < 2 ^ 8 := Nat.pow_lt_pow_right (by norm_num) (Nat.mod_lt _ (by norm_num))
        rw [h]
        exact Nat.xor_lt_two_pow h1 h2 }

/-- The value of `sizeof (MISC_PARTITION_DATA)` under `#pragma pack(1)`: the
2048 bytes of `LegacyData` and the 32 bytes of `AB_BOOT_INFO`. -/
def MISC_PARTITION_DATA_SIZE : Nat := 2048 + 32

/-- The storage stack as `LoadMisc` sees it.  `BlockSize` is the value
`MediaGetMediaInfo` leaves in `BlockInfo.BlockSize`; `AllocatePages` tells
whether a buffer for the given `ReadSize` is obtained and `MediaReadBlocks` is
the status of reading that many bytes; `AbBootInfo` is the `AbBootInfo` member
of the `MISC_PARTITION_DATA` block that `MediaReadBlocks` delivers (it follows
the 2048 bytes of `LegacyData`). -/
structure MiscIo where
  GetLogicalPartitionInfo : EFI_STATUS
  MediaGetMediaInfo : EFI_STATUS
  BlockSize : Nat
  AllocatePages : Nat → Bool
  MediaReadBlocks : Nat → EFI_STATUS
  AbBootInfo : AB_BOOT_INFO

/-- The block-aligned `ReadSize` of `LoadMisc`:
`((sizeof (MISC_PARTITION_DATA) % BlockSize) == 0) ? sizeof (MISC_PARTITION_DATA) :
((sizeof (MISC_PARTITION_DATA) / BlockSize) + 1) * BlockSize`.
Both `%` and `/` divide by `BlockSize`, which the code does not test, so no
value is defined for `BlockSize` 0.  For a 32-bit `BlockSize` the product is
below `2 ^ 33` and does not wrap as a `UINTN`. -/
def MiscReadSize (BlockSize : Nat) : Option Nat :=
  if BlockSize = 0 then
    none
  else if MISC_PARTITION_DATA_SIZE % BlockSize = 0 then
    some MISC_PARTITION_DATA_SIZE
  else
    some ((MISC_PARTITION_DATA_SIZE / BlockSize + 1) * BlockSize)

/-- Function `LoadMisc`: load AB boot information from the misc partition.  The `OUT`
parameter `AbBootInfo` is passed in and returned; it is overwritten only when
`MediaReadBlocks` reports no error.  `BlockSize` is a `UINT32` local. -/
def LoadMisc (io : MiscIo) (AbBootInfo : AB_BOOT_INFO) : Outcome (EFI_STATUS × AB_BOOT_INFO) :=
  if EFI_ERROR io.GetLogicalPartitionInfo then
    .done (io.GetLogicalPartitionInfo, AbBootInfo)
  else if EFI_ERROR io.MediaGetMediaInfo then
    .done (io.MediaGetMediaInfo, AbBootInfo)
  else
    match MiscReadSize (io.BlockSize % 2 ^ 32) with
    | none => .divideByZero
    | some ReadSize =>
      if io.AllocatePages ReadSize = false then
        .done (EFI_OUT_OF_RESOURCES, AbBootInfo)
      else if EFI_ERROR (io.MediaReadBlocks ReadSize) then
        .done (io.MediaReadBlocks ReadSize, AbBootInfo)
      else
        .done (io.MediaReadBlocks ReadSize, io.AbBootInfo)

/-! ## Text scheme: data model (AbSupport.h) -/

def MENDER_GRUBENV_MAX_SIZE : Nat := 1024

def MENDER_GRUBENV_1_INVALID : Nat := 1
def MENDER_GRUBENV_2_INVALID : Nat := 2

def MenderRootfsPartA : Nat := 2
def MenderRootfsPartB : Nat := 3

def MenderUpgradeNotAvail : Nat := 0
def MenderUpgradeAvailable : Nat := 1

/-- One `MENDER_ENV_CONFIG`.  `BootCount` and `ConfigInvalid` are `UINT8`, the
three enum fields are 32 bits wide. -/
structure MENDER_ENV_CONFIG where
  BootCount : Nat
  MenderBootPart : Nat
  UpgradeAvailable : Nat
  Editing : Nat
  ConfigInvalid : Nat
deriving DecidableEq, Repr

/-- The array `MENDER_ENV_CONFIG MenderEnvConfig[2]`. -/
structure MenderEnvPair where
  c0 : MENDER_ENV_CONFIG
  c1 : MENDER_ENV_CONFIG
deriving DecidableEq, Repr

/-- The element `MenderEnvConfig[i]`. -/
def MenderEnvPair.get (p : MenderEnvPair) (i : Fin 2) : MENDER_ENV_CONFIG :=
  if i = 0 then p.c0 else p.c1

/-- The array after an assignment to `MenderEnvConfig[i]`. -/
def MenderEnvPair.set (p : MenderEnvPair) (i : Fin 2) (c : MENDER_ENV_CONFIG) : MenderEnvPair :=
  if i = 0 then { p with c0 := c } else { p with c1 := c }

/-- The array after `ZeroMem (MenderEnvConfig, sizeof (MenderEnvConfig))`. -/
def MenderEnvPair.zero : MenderEnvPair :=
  ⟨⟨0, 0, 0, 0, 0⟩, ⟨0, 0, 0, 0, 0⟩⟩

/-! ## Text scheme: rollback policy (AbSupportLib.c) -/

/-- The first part of `ParseMenderConfig`: the `Index` of the copy it settles
on, or nothing when it takes the branch that rejects the boot. -/
def MenderSelectIndex (MenderEnvConfig : MenderEnvPair) : Option (Fin 2) :=
  if (MenderEnvConfig.get 0).Editing = 0 ∧
      (MenderEnvConfig.get 0).ConfigInvalid &&& MENDER_GRUBENV_1_INVALID = 0 then
    some 0
  else if (MenderEnvConfig.get 1).Editing = 0 ∧
      (MenderEnvConfig.get 1).ConfigInvalid &&& MENDER_GRUBENV_2_INVALID = 0 then
    some 1
  else
    none

/-- The second part of `ParseMenderConfig`, from
`BootSlot = MenderEnvConfig[Index].MenderBootPart` on, for the copy at `Index`.
`BootSlot` is an `INT32` and receives the 32-bit enum value by conversion. -/
def MenderBootTarget (c : MENDER_ENV_CONFIG) : Int :=
  if c.UpgradeAvailable = MenderUpgradeAvailable then
    if c.BootCount ≠ 0 then
      if c.MenderBootPart = MenderRootfsPartA then
        toINT32 MenderRootfsPartB
      else
        toINT32 MenderRootfsPartA
    else
      toINT32 c.MenderBootPart
  else
    toINT32 c.MenderBootPart

/-- Function `ParseMenderConfig`: -1 when no copy is selected, and the boot target of
the selected copy otherwise. -/
def ParseMenderConfig (MenderEnvConfig : MenderEnvPair) : Int :=
  match MenderSelectIndex MenderEnvConfig with
  | none => -1
  | some Index => MenderBootTarget (MenderEnvConfig.get Index)

/-- A copy is trusted when its `Editing` is 0 and its own invalid flag, the bit
`1 << i` of its `ConfigInvalid` that the parser sets for copy `i`, is clear. -/
def MenderTrusted (cfg : MenderEnvPair) (i : Fin 2) : Prop :=
  (cfg.get i).Editing = 0 ∧ (cfg.get i).ConfigInvalid &&& (1 <<< i.val) = 0

instance (cfg : MenderEnvPair) (i : Fin 2) : Decidable (MenderTrusted cfg i) := by
  unfold MenderTrusted
  infer_instance

/-! ## Text scheme: string helpers (StringSupportLib, BaseLib) -/

/-- The `CHAR8` codes of a string literal. -/
def ascii (s : String) : List Nat := s.toList.map Char.toNat

/-- The largest `UINTN` (64-bit build). -/
def MAX_UINTN : Nat := 2 ^ 64 - 1

/-- Walk from offset `p` to the first NUL or line feed of `s`, the bytes from
`p` on: the offset just behind a line feed (`some`), no next line at a NUL
(`some none`), and nothing at all when the bytes run out first. -/
def GetNextLineFrom : List Nat → Nat → Option (Option Nat)
  | [], _ => none
  | c :: s, p =>
    if c = 0 then some none
    else if c = 10 then some (some (p + 1))
    else GetNextLineFrom s (p + 1)

/-- Modelled from the spec: `GetNextLine` (StringSupportLib is not among the
sources at hand).  The spec reads the text as a sequence of lines, the last
one terminated or not: the next line starts behind the first line feed at or
after `CurrLine`, and there is none (`NULL`) when the terminating NUL comes
first.  The outer `none` is a read outside the buffer. -/
def GetNextLine (ConfigFile : List Nat) (CurrLine : Nat) : Option (Option Nat) :=
  GetNextLineFrom (ConfigFile.drop CurrLine) CurrLine

/-- Modelled from the spec: `MatchAssignment` (StringSupportLib is not among
the sources at hand).  The spec matches the portion of the line before `=`
case-sensitively against the key: the result is positive, namely the offset
of the value, when the line starts with the key followed by `=`, and 0
otherwise. -/
def MatchAssignment (ConfigFile : List Nat) (CurrLine : Nat) (Variable : String) : Nat :=
  if (ascii Variable ++ [61]).isPrefixOf (ConfigFile.drop CurrLine) then
    (ascii Variable).length + 1
  else
    0

/-- Skip blanks and tabs; nothing when the bytes run out. -/
def SkipPad : List Nat → Option (List Nat)
  | [] => none
  | c :: s => if c = 32 ∨ c = 9 then SkipPad s else some (c :: s)

/-- Accumulate decimal digits up to the first byte that is not a digit;
nothing when the bytes run out. -/
def DecimalDigits : List Nat → Nat → Option Nat
  | [], _ => none
  | c :: s, acc =>
    if 48 ≤ c ∧ c ≤ 57 then DecimalDigits s (acc * 10 + (c - 48)) else some acc

/-- Modelled from the spec: `AsciiStrDecimalToUintn` (BaseLib is not among the
sources at hand).  The spec speaks of the numeric value of an assignment: the
value of the decimal digits at the cursor, after optional blanks and tabs, up
to the first byte that is not a digit (0 when there is no digit), and
`MAX_UINTN` when the number does not fit in a `UINTN`.  `none` is a read
outside the buffer. -/
def AsciiStrDecimalToUintn (ConfigFile : List Nat) (LineCursor : Nat) : Option Nat :=
  match SkipPad (ConfigFile.drop LineCursor) with
  | none => none
  | some s =>
    match DecimalDigits s 0 with
    | none => none
    | some v => some (if v > MAX_UINTN then MAX_UINTN else v)

/-! ## Text scheme: parser (AbSupportLib.c) -/

/-- The inner loop of `LoadMenderConfig`,
`while ((LineCursor[0] != '=') && (LineCursor[0] != '\n')) LineCursor++`,
run over `s`, the bytes from offset `p` on: the offset it stops at, or nothing
when it walks off the buffer.  A NUL does not stop it. -/
def ScanAssignFrom : List Nat → Nat → Option Nat
  | [], _ => none
  | c :: s, p => if c = 61 ∨ c = 10 then some p else ScanAssignFrom s (p + 1)

def ScanAssign (ConfigFile : List Nat) (CurrLine : Nat) : Option Nat :=
  ScanAssignFrom (ConfigFile.drop CurrLine) CurrLine

/-- What one pass of the body of the outer loop leaves behind. -/
inductive LineStep where
  | next (Status : EFI_STATUS) (cfg : MenderEnvPair)
  | gotoDone (Status : EFI_STATUS) (cfg : MenderEnvPair)
  | outOfBounds
deriving DecidableEq, Repr

/-- The pair a pass leaves behind, when it leaves one. -/
def LineStep.cfg? : LineStep → Option MenderEnvPair
  | .next _ cfg => some cfg
  | .gotoDone _ cfg => some cfg
  | .outOfBounds => none

/-- Every copy records 0 (never assigned), RootfsA or RootfsB. -/
def PartInv (cfg : MenderEnvPair) : Prop :=
  ∀ i : Fin 2, (cfg.get i).MenderBootPart = 0 ∨
    (cfg.get i).MenderBootPart = MenderRootfsPartA ∨
    (cfg.get i).MenderBootPart = MenderRootfsPartB

instance (cfg : MenderEnvPair) : Decidable (PartInv cfg) := by
  unfold PartInv
  infer_instance

/-- The statement `MenderEnvConfig[DirIdx].ConfigInvalid |= (1 << DirIdx)`. -/
def MarkInvalid (cfg : MenderEnvPair) (DirIdx : Fin 2) : MenderEnvPair :=
  cfg.set DirIdx
    { cfg.get DirIdx with
      ConfigInvalid := ((cfg.get DirIdx).ConfigInvalid ||| (1 <<< DirIdx.val)) % 256 }

/-- The body of the outer loop of `LoadMenderConfig` from
`if (LineCursor[0] == '=')` on, for the line at `CurrLine` with the scan
stopped at `LineCursor`. -/
def LoadMenderConfigLine (ConfigFile : List Nat) (DirIdx : Fin 2) (CurrLine LineCursor : Nat)
    (Status : EFI_STATUS) (cfg : MenderEnvPair) : LineStep :=
  if ConfigFile.getD LineCursor 0 = 61 then
    if MatchAssignment ConfigFile CurrLine "bootcount" > 0 then
      match AsciiStrDecimalToUintn ConfigFile (LineCursor + 1) with
      | none => .outOfBounds
      | some n =>
        let BootCount := n % 2 ^ 32 % 256
        if BootCount ≠ 0 ∧ BootCount ≠ 1 then
          .gotoDone EFI_INVALID_PARAMETER (MarkInvalid cfg DirIdx)
        else
          .next Status (cfg.set DirIdx { cfg.get DirIdx with BootCount := BootCount })
    else if MatchAssignment ConfigFile CurrLine "mender_boot_part" > 0 then
      match AsciiStrDecimalToUintn ConfigFile (LineCursor + 1) with
      | none => .outOfBounds
      | some n =>
        let RootfsPart := n % 2 ^ 32
        if RootfsPart ≠ MenderRootfsPartA ∧ RootfsPart ≠ MenderRootfsPartB then
          .gotoDone EFI_INVALID_PARAMETER (MarkInvalid cfg DirIdx)
        else
          .next Status (cfg.set DirIdx { cfg.get DirIdx with MenderBootPart := RootfsPart })
    else if MatchAssignment ConfigFile CurrLine "upgrade_available" > 0 then
      match AsciiStrDecimalToUintn ConfigFile (LineCursor + 1) with
      | none => .outOfBounds
      | some n =>
        let UpgradeAvail := n % 2 ^ 32
        if UpgradeAvail ≠ 0 ∧ UpgradeAvail ≠ 1 then
          .gotoDone EFI_INVALID_PARAMETER (MarkInvalid cfg DirIdx)
        else
          .next Status (cfg.set DirIdx { cfg.get DirIdx with UpgradeAvailable := UpgradeAvail })
    else if MatchAssignment ConfigFile CurrLine "editing" > 0 then
      match AsciiStrDecimalToUintn ConfigFile (LineCursor + 1) with
      | none => .outOfBounds
      | some n => .next Status (cfg.set DirIdx { cfg.get DirIdx with Editing := n % 2 ^ 32 })
    else if MatchAssignment ConfigFile CurrLine "mender_boot_part_hex" > 0 ∨
        MatchAssignment ConfigFile CurrLine "mender_uboot_separator" > 0 ∨
        MatchAssignment ConfigFile CurrLine "systemd_machine_id" > 0 ∨
        MatchAssignment ConfigFile CurrLine "mender_systemd_machine_id" > 0 then
      .next Status cfg
    else
      .next EFI_INVALID_PARAMETER cfg
  else
    .next Status cfg

/-- The outer loop `while (CurrLine != NULL)` of `LoadMenderConfig`, entered
with a non-`NULL` `CurrLine`; the first argument bounds the number of passes. -/
def LoadMenderConfigLoop (ConfigFile : List Nat) (DirIdx : Fin 2) :
    Nat → Nat → EFI_STATUS → MenderEnvPair → Outcome (EFI_STATUS × MenderEnvPair)
  | 0, _, _, _ => .outOfFuel
  | fuel + 1, CurrLine, Status, cfg =>
    match GetNextLine ConfigFile CurrLine with
    | none => .outOfBounds
    | some NextLine =>
      match ScanAssign ConfigFile CurrLine with
      | none => .outOfBounds
      | some LineCursor =>
        match LoadMenderConfigLine ConfigFile DirIdx CurrLine LineCursor Status cfg with
        | .outOfBounds => .outOfBounds
        | .gotoDone Status1 cfg1 => .done (Status1, cfg1)
        | .next Status1 cfg1 =>
          match NextLine with
          | none => .done (Status1, cfg1)
          | some CurrLine1 => LoadMenderConfigLoop ConfigFile DirIdx fuel CurrLine1 Status1 cfg1

/-- Function `LoadMenderConfig`.  `ConfigFile` holds the bytes of the buffer the pointer
refers to.  Every pass moves `CurrLine` forward, so one pass per byte and one
more is a budget the loop cannot use up. -/
def LoadMenderConfig (ConfigFile : List Nat) (DirIdx : Fin 2) (MenderEnvConfig : MenderEnvPair) :
    Outcome (EFI_STATUS × MenderEnvPair) :=
  LoadMenderConfigLoop ConfigFile DirIdx (ConfigFile.length + 1) 0 EFI_SUCCESS MenderEnvConfig

/-- What the file-system calls of `LoadMender` report for one of the four
files of `mMenderConfigFile`; `ConfigFile` holds the bytes of the pool buffer
of `ConfigFileSize + 1` bytes once `ReadFile` has filled it. -/
structure MenderFile where
  OpenFile : EFI_STATUS
  GetFileSize : EFI_STATUS
  ConfigFileSize : Nat
  AllocatePool : Bool
  ReadFile : EFI_STATUS
  ConfigFile : List Nat

/-- The file system as `LoadMender` sees it. -/
structure MenderIo where
  InitFileSystem : EFI_STATUS
  File : Fin 4 → MenderFile

/-- The `for` loop of `LoadMender` over the remaining indices; the status
passed in is the one of the last call made so far. -/
def LoadMenderFiles (io : MenderIo) :
    List (Fin 4) → EFI_STATUS → MenderEnvPair → Outcome (EFI_STATUS × MenderEnvPair)
  | [], Status, cfg => .done (Status, cfg)
  | Index :: rest, _, cfg =>
    if EFI_ERROR (io.File Index).OpenFile then
      .done ((io.File Index).OpenFile, cfg)
    else if EFI_ERROR (io.File Index).GetFileSize then
      .done ((io.File Index).GetFileSize, cfg)
    else if (io.File Index).ConfigFileSize = 0 ∨
        (io.File Index).ConfigFileSize > MENDER_GRUBENV_MAX_SIZE then
      .done (EFI_LOAD_ERROR, cfg)
    else if (io.File Index).AllocatePool = false then
      .done (EFI_OUT_OF_RESOURCES, cfg)
    else if EFI_ERROR (io.File Index).ReadFile then
      .done ((io.File Index).ReadFile, cfg)
    else
      match LoadMenderConfig (io.File Index).ConfigFile ⟨Index.val / 2, by omega⟩ cfg with
      | .outOfBounds => .outOfBounds
      | .outOfFuel => .outOfFuel
      | .divideByZero => .divideByZero
      | .done (Status, cfg1) =>
        if EFI_ERROR Status then .done (Status, cfg1) else LoadMenderFiles io rest Status cfg1

/-- Function `LoadMender`: the four files in the order of `mMenderConfigFile`, the
copy index of file `Index` being `Index / 2`. -/
def LoadMender (io : MenderIo) (MenderEnvConfig : MenderEnvPair) :
    Outcome (EFI_STATUS × MenderEnvPair) :=
  if EFI_ERROR io.InitFileSystem then
    .done (io.InitFileSystem, MenderEnvConfig)
  else
    LoadMenderFiles io [0, 1, 2, 3] io.InitFileSystem MenderEnvConfig

/-! ## Dispatcher (AbSupportLib.c) -/

/-- Modelled from the spec: the mode-flag mask `BOOT_FLAGS_MISC` of
`OsBootOptionGuid.h`, which is not among the sources at hand; the spec has one
flag for the binary-metadata mode. -/
def BOOT_FLAGS_MISC : Nat := 1

/-- Modelled from the spec: the mode-flag mask `BOOT_FLAGS_MENDER` of
`OsBootOptionGuid.h`, which is not among the sources at hand; the spec has one
flag for the redundant-text mode. -/
def BOOT_FLAGS_MENDER : Nat := 16

/-- The part of `OS_BOOT_OPTION` that `GetBootSlot` looks at. -/
structure OS_BOOT_OPTION where
  BootFlags : Nat

/-- The `INT32` result of an arithmetic expression (two's complement). -/
def wrapINT32 (z : Int) : Int := (z + 2 ^ 31) % 2 ^ 32 - 2 ^ 31

/-- Function `GetBootSlot`: check which slot to boot.  `AbBootInfo` is whatever the
local variable of that name holds before `LoadMisc` is called. -/
def GetBootSlot (BootOption : OS_BOOT_OPTION) (misc : MiscIo) (mender : MenderIo)
    (AbBootInfo : AB_BOOT_INFO) : Outcome Int :=
  if BootOption.BootFlags &&& BOOT_FLAGS_MISC ≠ 0 then
    match LoadMisc misc AbBootInfo with
    | .outOfBounds => .outOfBounds
    | .outOfFuel => .outOfFuel
    | .divideByZero => .divideByZero
    | .done (Status, AbBootInfo1) =>
      if EFI_ERROR Status = false then
        if ParseBootSlot AbBootInfo1 < 0 then
          .done 0
        else
          .done (ParseBootSlot AbBootInfo1)
      else
        .done 0
  else if BootOption.BootFlags &&& BOOT_FLAGS_MENDER ≠ 0 then
    match LoadMender mender MenderEnvPair.zero with
    | .outOfBounds => .outOfBounds
    | .outOfFuel => .outOfFuel
    | .divideByZero => .divideByZero
    | .done (Status, MenderEnvConfig) =>
      if EFI_ERROR Status = false then
        .done (wrapINT32 (ParseMenderConfig MenderEnvConfig - 2))
      else
        .done 0
  else
    .done 0

/-! ## Sample inputs -/

/-- A sample record: suffix `_a`, two slots, slot 0 with priority 15 and slot 1
with priority 14, seven tries each, and a matching checksum. -/
def sampleBootInfo : AB_BOOT_INFO :=
  ⟨[95, 97, 0, 0, 66, 67, 65, 66, 1, 58, 0, 0, 127, 0, 126, 0,
    0, 0, 0, 0, 0, 0, 0, 0, 0, 0, 0, 0, 202, 94, 119, 147], by decide, by decide⟩

/-- A sample record in which slot 1 (priority 7) outranks slot 0 (priority 5),
three tries each, with a matching checksum. -/
def sampleBootInfoB : AB_BOOT_INFO :=
  ⟨[95, 97, 0, 0, 66, 67, 65, 66, 1, 58, 0, 0, 53, 0, 55, 0,
    0, 0, 0, 0, 0, 0, 0, 0, 0, 0, 0, 0, 173, 26, 85, 166], by decide, by decide⟩

/-- A file whose calls all succeed and whose buffer holds the text `s`
followed by a NUL. -/
def textFile (s : String) : MenderFile :=
  { OpenFile := EFI_SUCCESS
    GetFileSize := EFI_SUCCESS
    ConfigFileSize := (ascii s).length
    AllocatePool := true
    ReadFile := EFI_SUCCESS
    ConfigFile := ascii s ++ [0] }

/-- A readable file system holding the four given texts. -/
def textFiles (env1 lock1 env2 lock2 : String) : MenderIo :=
  { InitFileSystem := EFI_SUCCESS
    File := ![textFile env1, textFile lock1, textFile env2, textFile lock2] }

/-- A misc partition on a device with blocks of 512 bytes that reads without
error and holds the given record. -/
def miscOk (r : AB_BOOT_INFO) : MiscIo :=
  ⟨EFI_SUCCESS, EFI_SUCCESS, 512, fun _ => true, fun _ => EFI_SUCCESS, r⟩

/-- A misc partition like `miscOk` on a device that reports a block size of 0. -/
def miscZeroBlock (r : AB_BOOT_INFO) : MiscIo :=
  { miscOk r with BlockSize := 0 }

/-- A sample record that states one slot (`NbSlot` 1) and whose only bootable
entry is `SlotData[1]` (priority 1, two tries), with a matching checksum. -/
def sampleBootInfoOneSlot : AB_BOOT_INFO :=
  ⟨[95, 97, 0, 0, 66, 67, 65, 66, 1, 57, 0, 0, 0, 0, 33, 0,
    0, 0, 0, 0, 0, 0, 0, 0, 0, 0, 0, 0, 43, 115, 50, 16], by decide, by decide⟩

/-! ## Text scheme: the effect of a parse as a field update -/

/-- Apply a function to the value of a finished run. -/
def Outcome.map {α β : Type} (f : α → β) : Outcome α → Outcome β
  | .done a => .done (f a)
  | .outOfBounds => .outOfBounds
  | .outOfFuel => .outOfFuel
  | .divideByZero => .divideByZero

/-- Run a second computation on the value of a finished first one. -/
def Outcome.bind {α β : Type} (o : Outcome α) (f : α → Outcome β) : Outcome β :=
  match o with
  | .done a => f a
  | .outOfBounds => .outOfBounds
  | .outOfFuel => .outOfFuel
  | .divideByZero => .divideByZero

/-- What a run of the parser does to the copy it fills: per field the last
value assigned, if any, and whether the invalid flag was set. -/
structure FieldUpdate where
  BootCount : Option Nat
  MenderBootPart : Option Nat
  UpgradeAvailable : Option Nat
  Editing : Option Nat
  Invalid : Bool
deriving DecidableEq, Repr

/-- The copy at index `i` after the update. -/
def FieldUpdate.apply (u : FieldUpdate) (i : Fin 2) (c : MENDER_ENV_CONFIG) :
    MENDER_ENV_CONFIG :=
  { BootCount := u.BootCount.getD c.BootCount
    MenderBootPart := u.MenderBootPart.getD c.MenderBootPart
    UpgradeAvailable := u.UpgradeAvailable.getD c.UpgradeAvailable
    Editing := u.Editing.getD c.Editing
    ConfigInvalid :=
      if u.Invalid then (c.ConfigInvalid ||| (1 <<< i.val)) % 256 else c.ConfigInvalid }

/-- The pair after the update of copy `i`. -/
def FieldUpdate.applyPair (u : FieldUpdate) (i : Fin 2) (cfg : MenderEnvPair) : MenderEnvPair :=
  cfg.set i (u.apply i (cfg.get i))

/-- The update `u` followed by the update `v`. -/
def FieldUpdate.comp (u v : FieldUpdate) : FieldUpdate :=
  { BootCount := v.BootCount.orElse fun _ => u.BootCount
    MenderBootPart := v.MenderBootPart.orElse fun _ => u.MenderBootPart
    UpgradeAvailable := v.UpgradeAvailable.orElse fun _ => u.UpgradeAvailable
    Editing := v.Editing.orElse fun _ => u.Editing
    Invalid := u.Invalid || v.Invalid }

/-- One pass of the loop body with the pair abstracted away. -/
inductive StepUpdate where
  | next (Status : EFI_STATUS) (u : FieldUpdate)
  | gotoDone (Status : EFI_STATUS) (u : FieldUpdate)
  | outOfBounds

/-- The pass applied to a pair. -/
def StepUpdate.inst (r : StepUpdate) (i : Fin 2) (cfg : MenderEnvPair) : LineStep :=
  match r with
  | .next Status u => .next Status (u.applyPair i cfg)
  | .gotoDone Status u => .gotoDone Status (u.applyPair i cfg)
  | .outOfBounds => .outOfBounds

/-- The shape every pass has: a pass that goes on leaves the invalid flag
alone and keeps the status or sets `EFI_INVALID_PARAMETER`; a pass that leaves
through `goto Done` only sets the invalid flag and `EFI_INVALID_PARAMETER`. -/
def StepUpdate.ok (r : StepUpdate) (Status : EFI_STATUS) : Prop :=
  match r with
  | .next s u => u.Invalid = false ∧ (s = Status ∨ s = EFI_INVALID_PARAMETER)
  | .gotoDone s u => u = ⟨none, none, none, none, true⟩ ∧ s = EFI_INVALID_PARAMETER
  | .outOfBounds => True

/-- The outer loop of `LoadMenderConfig` once more, with a ghost flag in the
result: `true` when the loop is left through `goto Done`, which the three
out-of-range branches do, and `false` when it ends because `CurrLine` is
`NULL`. -/
def LoadMenderConfigLoopExit (ConfigFile : List Nat) (DirIdx : Fin 2) :
    Nat → Nat → EFI_STATUS → MenderEnvPair → Outcome (Bool × EFI_STATUS × MenderEnvPair)
  | 0, _, _, _ => .outOfFuel
  | fuel + 1, CurrLine, Status, cfg =>
    match GetNextLine ConfigFile CurrLine with
    | none => .outOfBounds
    | some NextLine =>
      match ScanAssign ConfigFile CurrLine with
      | none => .outOfBounds
      | some LineCursor =>
        match LoadMenderConfigLine ConfigFile DirIdx CurrLine LineCursor Status cfg with
        | .outOfBounds => .outOfBounds
        | .gotoDone Status1 cfg1 => .done (true, Status1, cfg1)
        | .next Status1 cfg1 =>
          match NextLine with
          | none => .done (false, Status1, cfg1)
          | some CurrLine1 =>
            LoadMenderConfigLoopExit ConfigFile DirIdx fuel CurrLine1 Status1 cfg1

/-- The run of `LoadMenderConfig` with the ghost flag of its exit. -/
def LoadMenderConfigExit (ConfigFile : List Nat) (DirIdx : Fin 2)
    (MenderEnvConfig : MenderEnvPair) : Outcome (Bool × EFI_STATUS × MenderEnvPair) :=
  LoadMenderConfigLoopExit ConfigFile DirIdx (ConfigFile.length + 1) 0 EFI_SUCCESS
    MenderEnvConfig

/-! ## Text scheme: texts as sequences of lines -/

/-- The parse of the bytes `s` that start at a line, entered with the status
and the pair reached so far: the outer loop of `LoadMenderConfig` started at
offset 0 of `s` with the budget of `LoadMenderConfig`. -/
def ParseFrom (s : List Nat) (DirIdx : Fin 2) (Status : EFI_STATUS) (cfg : MenderEnvPair) :
    Outcome (EFI_STATUS × MenderEnvPair) :=
  LoadMenderConfigLoop s DirIdx (s.length + 1) 0 Status cfg

/-- The text made of the lines `ls`, each followed by a line feed, and of a
last line `last` that no line feed follows. -/
def TextOf : List (List Nat) → List Nat → List Nat
  | [], last => last
  | l :: ls, last => l ++ 10 :: TextOf ls last

/-- The offset of the first `=` of a line, or the length of the line when it
has none. -/
def ScanIdx : List Nat → Nat
  | [] => 0
  | c :: l => if c = 61 then 0 else ScanIdx l + 1

/-- The pass of the loop body for the line `l`, read in a buffer in which the
byte `term` (a line feed or the terminating NUL) follows it. -/
def LineEffect (l : List Nat) (term : Nat) (DirIdx : Fin 2) (Status : EFI_STATUS)
    (cfg : MenderEnvPair) : LineStep :=
  LoadMenderConfigLine (l ++ [term]) DirIdx 0 (ScanIdx l) Status cfg

/-- A line of a text: it holds neither a line feed nor a NUL. -/
def IsLine (l : List Nat) : Prop := 10 ∉ l ∧ 0 ∉ l

instance (l : List Nat) : Decidable (IsLine l) := by
  unfold IsLine
  infer_instance

/-- The key of a line: the portion before its first `=`. -/
def LineKey (l : List Nat) : List Nat := l.take (ScanIdx l)

/-- The portion of a line behind its first `=`. -/
def LineValue (l : List Nat) : List Nat := l.drop (ScanIdx l + 1)

/-- The four keys `LoadMenderConfig` stores. -/
def RecognizedKeys : List String :=
  ["bootcount", "mender_boot_part", "upgrade_available", "editing"]

/-- The four keys `LoadMenderConfig` passes over. -/
def IgnorableKeys : List String :=
  ["mender_boot_part_hex", "mender_uboot_separator", "systemd_machine_id",
    "mender_systemd_machine_id"]

/-- The eight keys `LoadMenderConfig` knows, as byte strings. -/
def KnownKeys : List (List Nat) := (RecognizedKeys ++ IgnorableKeys).map ascii

/-! ## Text scheme: lines that assign an accepted value -/

/-- The four fields a line can assign. -/
inductive MenderField where
  | BootCount
  | MenderBootPart
  | UpgradeAvailable
  | Editing
deriving DecidableEq, Repr

/-- The key that assigns the field. -/
def MenderField.key : MenderField → String
  | .BootCount => "bootcount"
  | .MenderBootPart => "mender_boot_part"
  | .UpgradeAvailable => "upgrade_available"
  | .Editing => "editing"

/-- The values a line may give the field: 0 or 1 for `bootcount` and
`upgrade_available`, 2 or 3 for `mender_boot_part`, and what fits the 32 bits
of the field for `editing`. -/
def MenderField.accepts (f : MenderField) (v : Nat) : Bool :=
  match f with
  | .BootCount => v == 0 || v == 1
  | .MenderBootPart => v == MenderRootfsPartA || v == MenderRootfsPartB
  | .UpgradeAvailable => v == 0 || v == 1
  | .Editing => decide (v < 2 ^ 32)

/-- The copy with the field set to `v`. -/
def MenderField.store (f : MenderField) (v : Nat) (c : MENDER_ENV_CONFIG) :
    MENDER_ENV_CONFIG :=
  match f with
  | .BootCount => { c with BootCount := v }
  | .MenderBootPart => { c with MenderBootPart := v }
  | .UpgradeAvailable => { c with UpgradeAvailable := v }
  | .Editing => { c with Editing := v }

/-- The number a sequence of decimal digits (most significant first) denotes. -/
def NumeralValue (ds : List Nat) : Nat := ds.foldl (fun a d => a * 10 + d) 0

/-- The ASCII codes of a sequence of decimal digits. -/
def Numeral (ds : List Nat) : List Nat := ds.map fun d => d + 48

/-- An assignment line: a field and the digits of its value. -/
structure MenderAssign where
  field : MenderField
  digits : List Nat
deriving DecidableEq, Repr

/-- The bytes of the line `key=digits`. -/
def MenderAssign.line (a : MenderAssign) : List Nat :=
  ascii a.field.key ++ 61 :: Numeral a.digits

/-- The value the line assigns. -/
def MenderAssign.value (a : MenderAssign) : Nat := NumeralValue a.digits

/-- The line is well formed and its value is one the field accepts. -/
def MenderAssign.Accepted (a : MenderAssign) : Prop :=
  (∀ d ∈ a.digits, d < 10) ∧ a.field.accepts a.value = true

instance (a : MenderAssign) : Decidable a.Accepted := by
  unfold MenderAssign.Accepted
  infer_instance

/-- The copy after the line. -/
def MenderAssign.store (a : MenderAssign) (c : MENDER_ENV_CONFIG) : MENDER_ENV_CONFIG :=
  a.field.store a.value c

/-! ## Binary scheme: the bootable predicate and the arbitration -/

/-- C3: for every slot record, `SlotBootable` returns TRUE if and only if
`Priority > 0` and (`SuccessBoot` is set or `TriesRemaining > 0`). -/
theorem SlotBootable_iff (s : AB_SLOT_DATA) :
    SlotBootable s = true ↔ s.Priority > 0 ∧ (s.SuccessBoot ≠ 0 ∨ s.TriesRemaining > 0) := by
  unfold SlotBootable
  simp [Nat.pos_iff_ne_zero]

theorem ParseBootSlot_of_accepted (r : AB_BOOT_INFO)
    (hMagic : r.Magic = AB_MAGIC_SIGNATURE)
    (hCrc : CalculateCrc32WithType (r.raw.take 28) = some r.Crc32) :
    ParseBootSlot r =
      if SlotBootable (r.SlotData 0) then
        if SlotBootable (r.SlotData 1) then
          if (r.SlotData 1).Priority > (r.SlotData 0).Priority then 1 else 0
        else 0
      else if SlotBootable (r.SlotData 1) then 1 else -3 := by
  unfold ParseBootSlot
  rw [hCrc]
  simp [hMagic]

theorem ParseBootSlot_of_magic_ne (r : AB_BOOT_INFO) (hM : r.Magic ≠ AB_MAGIC_SIGNATURE) :
    ParseBootSlot r = -1 := by
  unfold ParseBootSlot
  simp [hM]

theorem ParseBootSlot_of_crc_ne (r : AB_BOOT_INFO) (hM : r.Magic = AB_MAGIC_SIGNATURE)
    (hC : CalculateCrc32WithType (r.raw.take 28) ≠ some r.Crc32) : ParseBootSlot r = -2 := by
  unfold ParseBootSlot
  cases hq : CalculateCrc32WithType (r.raw.take 28) with
  | none => simp [hM]
  | some c =>
    have hne : c ≠ r.Crc32 := by
      intro hc
      exact hC (by rw [hq, hc])
    simp [hM, hne]

/-- C1: for a record whose magic and checksum are both accepted,
`ParseBootSlot` returns 1 if both slots are bootable and slot 1 has the
strictly greater priority, 0 if both are bootable and slot 1's priority is
less than or equal to slot 0's, 0 if only slot 0 is bootable, 1 if only slot 1
is bootable, and -3 if neither is. -/
theorem ParseBootSlot_arbitration (r : AB_BOOT_INFO)
    (hMagic : r.Magic = AB_MAGIC_SIGNATURE)
    (hCrc : CalculateCrc32WithType (r.raw.take 28) = some r.Crc32) :
    (SlotBootable (r.SlotData 0) = true → SlotBootable (r.SlotData 1) = true →
      (r.SlotData 1).Priority > (r.SlotData 0).Priority → ParseBootSlot r = 1) ∧
    (SlotBootable (r.SlotData 0) = true → SlotBootable (r.SlotData 1) = true →
      (r.SlotData 1).Priority ≤ (r.SlotData 0).Priority → ParseBootSlot r = 0) ∧
    (SlotBootable (r.SlotData 0) = true → SlotBootable (r.SlotData 1) = false →
      ParseBootSlot r = 0) ∧
    (SlotBootable (r.SlotData 0) = false → SlotBootable (r.SlotData 1) = true →
      ParseBootSlot r = 1) ∧
    (SlotBootable (r.SlotData 0) = false → SlotBootable (r.SlotData 1) = false →
      ParseBootSlot r = -3) := by
  rw [ParseBootSlot_of_accepted r hMagic hCrc]
  refine ⟨?_, ?_, ?_, ?_, ?_⟩
  · intro h0 h1 hp
    simp [h0, h1, hp]
  · intro h0 h1 hp
    simp [h0, h1, Nat.not_lt.mpr hp]
  · intro h0 h1
    simp [h0, h1]
  · intro h0 h1
    simp [h0, h1]
  · intro h0 h1
    simp [h0, h1]

set_option maxRecDepth 1000000 in
/-- C1 at the sample record: both slots are bootable, slot 1 has the lower
priority, and slot 0 is chosen. -/
theorem ParseBootSlot_arbitration_witness :
    sampleBootInfo.Magic = AB_MAGIC_SIGNATURE ∧
    CalculateCrc32WithType (sampleBootInfo.raw.take 28) = some sampleBootInfo.Crc32 ∧
    SlotBootable (sampleBootInfo.SlotData 0) = true ∧
    SlotBootable (sampleBootInfo.SlotData 1) = true ∧
    (sampleBootInfo.SlotData 1).Priority ≤ (sampleBootInfo.SlotData 0).Priority ∧
    ParseBootSlot sampleBootInfo = 0 :=
  ⟨by decide, by decide, by decide, by decide, by decide,
    (ParseBootSlot_arbitration sampleBootInfo (by decide) (by decide)).2.1
      (by decide) (by decide) (by decide)⟩

/-- C2: `ParseBootSlot` returns -1 whenever `Magic` differs from the
signature, whatever else the record holds; when `Magic` matches it returns -2
exactly when the CRC32 of the 28 bytes preceding `Crc32` is not the stored
`Crc32` (a failed computation included); and a record that fails either check
never yields 0, 1 or -3. -/
theorem ParseBootSlot_rejection (r : AB_BOOT_INFO) :
    (r.Magic ≠ AB_MAGIC_SIGNATURE → ParseBootSlot r = -1) ∧
    (r.Magic = AB_MAGIC_SIGNATURE →
      (ParseBootSlot r = -2 ↔ CalculateCrc32WithType (r.raw.take 28) ≠ some r.Crc32)) ∧
    (r.Magic ≠ AB_MAGIC_SIGNATURE ∨ CalculateCrc32WithType (r.raw.take 28) ≠ some r.Crc32 →
      ParseBootSlot r ≠ 0 ∧ ParseBootSlot r ≠ 1 ∧ ParseBootSlot r ≠ -3) := by
  have hbad := ParseBootSlot_of_crc_ne r
  have hmagic := ParseBootSlot_of_magic_ne r
  refine ⟨hmagic, ?_, ?_⟩
  · intro hM
    constructor
    · intro h2 hC
      rw [ParseBootSlot_of_accepted r hM hC] at h2
      split_ifs at h2
      omega
    · exact hbad hM
  · intro h
    by_cases hM : r.Magic = AB_MAGIC_SIGNATURE
    · rcases h with h | h
      · exact absurd hM h
      · rw [hbad hM h]
        omega
    · rw [hmagic hM]
      omega

theorem ParseBootSlot_range (r : AB_BOOT_INFO) :
    ParseBootSlot r = -1 ∨ ParseBootSlot r = -2 ∨ ParseBootSlot r = -3 ∨
      ParseBootSlot r = 0 ∨ ParseBootSlot r = 1 := by
  by_cases hM : r.Magic = AB_MAGIC_SIGNATURE
  · by_cases hC : CalculateCrc32WithType (r.raw.take 28) = some r.Crc32
    · rw [ParseBootSlot_of_accepted r hM hC]
      split_ifs <;> simp
    · exact Or.inr (Or.inl (ParseBootSlot_of_crc_ne r hM hC))
  · exact Or.inl (ParseBootSlot_of_magic_ne r hM)

theorem MiscReadSize_isSome {BlockSize : Nat} (h : BlockSize ≠ 0) :
    ∃ ReadSize, MiscReadSize BlockSize = some ReadSize := by
  unfold MiscReadSize
  rw [if_neg h]
  split_ifs
  · exact ⟨_, rfl⟩
  · exact ⟨_, rfl⟩

theorem LoadMisc_record (io : MiscIo) (AbBootInfo : AB_BOOT_INFO) (Status : EFI_STATUS)
    (r : AB_BOOT_INFO) (h : LoadMisc io AbBootInfo = .done (Status, r))
    (hok : EFI_ERROR Status = false) : r = io.AbBootInfo := by
  unfold LoadMisc at h
  split_ifs at h with e1 e2
  · simp only [Outcome.done.injEq, Prod.mk.injEq] at h
    rw [← h.1, e1] at hok
    cases hok
  · simp only [Outcome.done.injEq, Prod.mk.injEq] at h
    rw [← h.1, e2] at hok
    cases hok
  · generalize MiscReadSize (io.BlockSize % 2 ^ 32) = m at h
    cases m with
    | none => cases h
    | some ReadSize =>
      simp only [] at h
      split_ifs at h with e3 e4
      · simp only [Outcome.done.injEq, Prod.mk.injEq] at h
        rw [← h.1] at hok
        cases hok
      · simp only [Outcome.done.injEq, Prod.mk.injEq] at h
        rw [← h.1, e4] at hok
        cases hok
      · simp only [Outcome.done.injEq, Prod.mk.injEq] at h
        exact h.2.symm

theorem LoadMisc_returns (io : MiscIo) (AbBootInfo : AB_BOOT_INFO)
    (h : EFI_ERROR io.GetLogicalPartitionInfo = true ∨ EFI_ERROR io.MediaGetMediaInfo = true ∨
      io.BlockSize % 2 ^ 32 ≠ 0) :
    ∃ Status r, LoadMisc io AbBootInfo = .done (Status, r) := by
  unfold LoadMisc
  split_ifs with e1 e2
  · exact ⟨_, _, rfl⟩
  · exact ⟨_, _, rfl⟩
  · have hb : io.BlockSize % 2 ^ 32 ≠ 0 := by
      rcases h with h | h | h
      · exact absurd h e1
      · exact absurd h e2
      · exact h
    obtain ⟨ReadSize, hs⟩ := MiscReadSize_isSome hb
    simp only [hs]
    split_ifs
    · exact ⟨_, _, rfl⟩
    · exact ⟨_, _, rfl⟩
    · exact ⟨_, _, rfl⟩

/-! ## CRC32: a single changed byte changes the checksum -/

theorem Crc32Bit_lt {c : Nat} (h : c < 2 ^ 32) : Crc32Bit c < 2 ^ 32 := by
  unfold Crc32Bit
  split
  · exact Nat.xor_lt_two_pow (by omega) (by norm_num)
  · omega

theorem xor_poly_ne {x y : Nat} (hx : x < 2 ^ 31) (hy : y < 2 ^ 31) : x ^^^ 0xEDB88320 ≠ y := by
  intro hxy
  have hP : Nat.testBit 0xEDB88320 31 = true := by decide
  have h1 : y.testBit 31 = false := Nat.testBit_lt_two_pow hy
  rw [← hxy, Nat.testBit_xor, Nat.testBit_lt_two_pow hx, hP] at h1
  simp at h1

theorem Crc32Bit_inj {a b : Nat} (ha : a < 2 ^ 32) (hb : b < 2 ^ 32)
    (h : Crc32Bit a = Crc32Bit b) : a = b := by
  unfold Crc32Bit at h
  split at h <;> split at h
  · have h2 : a / 2 = b / 2 := Nat.xor_left_injective h
    omega
  · exact absurd h (xor_poly_ne (by omega) (by omega))
  · exact absurd h.symm (xor_poly_ne (by omega) (by omega))
  · omega

theorem Crc32Bit_iterate_lt (n : Nat) {c : Nat} (h : c < 2 ^ 32) : Crc32Bit^[n] c < 2 ^ 32 := by
  induction n generalizing c with
  | zero => simpa using h
  | succ n ih =>
    rw [Function.iterate_succ_apply]
    exact ih (Crc32Bit_lt h)

theorem Crc32Bit_iterate_inj (n : Nat) {a b : Nat} (ha : a < 2 ^ 32) (hb : b < 2 ^ 32)
    (h : Crc32Bit^[n] a = Crc32Bit^[n] b) : a = b := by
  induction n generalizing a b with
  | zero => simpa using h
  | succ n ih =>
    rw [Function.iterate_succ_apply, Function.iterate_succ_apply] at h
    exact Crc32Bit_inj ha hb (ih (Crc32Bit_lt ha) (Crc32Bit_lt hb) h)

theorem xor_byte_lt {c b : Nat} (hc : c < 2 ^ 32) (hb : b < 256) : c ^^^ b < 2 ^ 32 :=
  Nat.xor_lt_two_pow hc (by omega)

theorem Crc32Byte_lt {c b : Nat} (hc : c < 2 ^ 32) (hb : b < 256) : Crc32Byte c b < 2 ^ 32 :=
  Crc32Bit_iterate_lt 8 (xor_byte_lt hc hb)

theorem Crc32Byte_inj_state {c d b : Nat} (hc : c < 2 ^ 32) (hd : d < 2 ^ 32) (hb : b < 256)
    (h : Crc32Byte c b = Crc32Byte d b) : c = d :=
  Nat.xor_left_injective (Crc32Bit_iterate_inj 8 (xor_byte_lt hc hb) (xor_byte_lt hd hb) h)

theorem Crc32Byte_inj_byte {c a b : Nat} (hc : c < 2 ^ 32) (ha : a < 256) (hb : b < 256)
    (h : Crc32Byte c a = Crc32Byte c b) : a = b :=
  Nat.xor_right_injective (Crc32Bit_iterate_inj 8 (xor_byte_lt hc ha) (xor_byte_lt hc hb) h)

theorem Crc32_foldl_lt (l : List Nat) (hl : ∀ b ∈ l, b < 256) {c : Nat} (hc : c < 2 ^ 32) :
    l.foldl Crc32Byte c < 2 ^ 32 := by
  induction l generalizing c with
  | nil => simpa using hc
  | cons a t ih =>
    rw [List.foldl_cons]
    exact ih (fun b hb => hl b (List.mem_cons_of_mem a hb))
      (Crc32Byte_lt hc (hl a (List.mem_cons_self a t)))

theorem Crc32_foldl_inj (l : List Nat) (hl : ∀ b ∈ l, b < 256) {c d : Nat} (hc : c < 2 ^ 32)
    (hd : d < 2 ^ 32) (h : l.foldl Crc32Byte c = l.foldl Crc32Byte d) : c = d := by
  induction l generalizing c d with
  | nil => simpa using h
  | cons a t ih =>
    rw [List.foldl_cons, List.foldl_cons] at h
    have ha := hl a (List.mem_cons_self a t)
    exact Crc32Byte_inj_state hc hd ha
      (ih (fun b hb => hl b (List.mem_cons_of_mem a hb)) (Crc32Byte_lt hc ha)
        (Crc32Byte_lt hd ha) h)

theorem Crc32_foldl_set_ne (l : List Nat) (hl : ∀ b ∈ l, b < 256) (i v : Nat)
    (hi : i < l.length) (hv : v < 256) (hne : v ≠ l.getD i 0) {c : Nat} (hc : c < 2 ^ 32) :
    (l.set i v).foldl Crc32Byte c ≠ l.foldl Crc32Byte c := by
  induction l generalizing i c with
  | nil => simp at hi
  | cons a t ih =>
    have ha := hl a (List.mem_cons_self a t)
    have ht : ∀ b ∈ t, b < 256 := fun b hb => hl b (List.mem_cons_of_mem a hb)
    cases i with
    | zero =>
      rw [List.set_cons_zero, List.foldl_cons, List.foldl_cons]
      intro h
      have h1 := Crc32_foldl_inj t ht (Crc32Byte_lt hc hv) (Crc32Byte_lt hc ha) h
      exact hne (by simpa using Crc32Byte_inj_byte hc hv ha h1)
    | succ j =>
      rw [List.set_cons_succ, List.foldl_cons, List.foldl_cons]
      exact ih ht j (by simpa using hi) (by simpa using hne) (Crc32Byte_lt hc ha)

theorem CalculateCrc32WithType_set_ne (l : List Nat) (hl : ∀ b ∈ l, b < 256) (i v : Nat)
    (hi : i < l.length) (hv : v < 256) (hne : v ≠ l.getD i 0) :
    CalculateCrc32WithType (l.set i v) ≠ CalculateCrc32WithType l := by
  unfold CalculateCrc32WithType
  have hlen : l.length ≠ 0 := by omega
  rw [List.length_set, if_neg hlen, if_neg hlen]
  intro h
  have h1 : (l.set i v).foldl Crc32Byte 0xFFFFFFFF = l.foldl Crc32Byte 0xFFFFFFFF :=
    Nat.xor_left_injective (Option.some.inj h)
  exact Crc32_foldl_set_ne l hl i v hi hv hne (by norm_num) h1

/-! ## Binary scheme: a single inverted bit -/

theorem AB_BOOT_INFO.byte_lt_256 (r : AB_BOOT_INFO) (j : Nat) : r.byte j < 256 := by
  unfold AB_BOOT_INFO.byte
  rw [List.getD_eq_getElem?_getD]
  cases hq : r.raw[j]? with
  | none => simp
  | some x => simpa using r.byte_lt x (List.getElem?_mem hq)

theorem xor_two_pow_ne (b j : Nat) : b ^^^ 2 ^ j ≠ b := by
  intro h
  have h1 : b ^^^ 2 ^ j = b ^^^ 0 := by simpa using h
  have h2 : 2 ^ j = 0 := Nat.xor_right_injective h1
  have h3 := Nat.two_pow_pos j
  omega

theorem AB_BOOT_INFO.flipBit_byte (r : AB_BOOT_INFO) (k : Nat) (hk : k < 256) (j : Nat) :
    (r.flipBit k).byte j = if j = k / 8 then r.byte j ^^^ 2 ^ (k % 8) else r.byte j := by
  have hlen : k / 8 < r.raw.length := by
    rw [r.size_eq]
    omega
  unfold AB_BOOT_INFO.byte AB_BOOT_INFO.flipBit
  simp only []
  rw [List.getD_eq_getElem?_getD, List.getElem?_set]
  by_cases hj : j = k / 8
  · subst hj
    simp [hlen]
  · have hj2 : ¬ k / 8 = j := fun h => hj h.symm
    rw [if_neg hj2, if_neg hj, List.getD_eq_getElem?_getD]

theorem AB_BOOT_INFO.flipBit_byte_ne (r : AB_BOOT_INFO) (k : Nat) (hk : k < 256) (j : Nat)
    (hj : j ≠ k / 8) : (r.flipBit k).byte j = r.byte j := by
  rw [r.flipBit_byte k hk j, if_neg hj]

theorem AB_BOOT_INFO.flipBit_byte_self (r : AB_BOOT_INFO) (k : Nat) (hk : k < 256) :
    (r.flipBit k).byte (k / 8) ≠ r.byte (k / 8) := by
  rw [r.flipBit_byte k hk (k / 8), if_pos rfl]
  exact xor_two_pow_ne _ _

theorem le32_inj {a0 a1 a2 a3 b0 b1 b2 b3 : Nat} (ha0 : a0 < 256) (ha1 : a1 < 256)
    (ha2 : a2 < 256) (hb0 : b0 < 256) (hb1 : b1 < 256) (hb2 : b2 < 256)
    (h : le32 a0 a1 a2 a3 = le32 b0 b1 b2 b3) :
    a0 = b0 ∧ a1 = b1 ∧ a2 = b2 ∧ a3 = b3 := by
  unfold le32 at h
  omega

theorem AB_BOOT_INFO.flipBit_Magic_ne (r : AB_BOOT_INFO) (k : Nat) (hk : k < 256)
    (h : 4 ≤ k / 8 ∧ k / 8 < 8) : (r.flipBit k).Magic ≠ r.Magic := by
  intro hm
  unfold AB_BOOT_INFO.Magic at hm
  have hb := le32_inj ((r.flipBit k).byte_lt_256 4) ((r.flipBit k).byte_lt_256 5)
    ((r.flipBit k).byte_lt_256 6) (r.byte_lt_256 4) (r.byte_lt_256 5) (r.byte_lt_256 6) hm
  have hs := r.flipBit_byte_self k hk
  have hq : k / 8 = 4 ∨ k / 8 = 5 ∨ k / 8 = 6 ∨ k / 8 = 7 := by omega
  rcases hq with hq | hq | hq | hq <;> rw [hq] at hs
  · exact hs hb.1
  · exact hs hb.2.1
  · exact hs hb.2.2.1
  · exact hs hb.2.2.2

theorem AB_BOOT_INFO.flipBit_Magic_eq (r : AB_BOOT_INFO) (k : Nat) (hk : k < 256)
    (h : ¬ (4 ≤ k / 8 ∧ k / 8 < 8)) : (r.flipBit k).Magic = r.Magic := by
  unfold AB_BOOT_INFO.Magic
  rw [r.flipBit_byte_ne k hk 4 (by omega), r.flipBit_byte_ne k hk 5 (by omega),
    r.flipBit_byte_ne k hk 6 (by omega), r.flipBit_byte_ne k hk 7 (by omega)]

theorem AB_BOOT_INFO.flipBit_Crc32_ne (r : AB_BOOT_INFO) (k : Nat) (hk : k < 256)
    (h : 28 ≤ k / 8) : (r.flipBit k).Crc32 ≠ r.Crc32 := by
  intro hm
  unfold AB_BOOT_INFO.Crc32 at hm
  have hb := le32_inj ((r.flipBit k).byte_lt_256 28) ((r.flipBit k).byte_lt_256 29)
    ((r.flipBit k).byte_lt_256 30) (r.byte_lt_256 28) (r.byte_lt_256 29) (r.byte_lt_256 30) hm
  have hs := r.flipBit_byte_self k hk
  have hq : k / 8 = 28 ∨ k / 8 = 29 ∨ k / 8 = 30 ∨ k / 8 = 31 := by omega
  rcases hq with hq | hq | hq | hq <;> rw [hq] at hs
  · exact hs hb.1
  · exact hs hb.2.1
  · exact hs hb.2.2.1
  · exact hs hb.2.2.2

theorem AB_BOOT_INFO.flipBit_Crc32_eq (r : AB_BOOT_INFO) (k : Nat) (hk : k < 256)
    (h : k / 8 < 28) : (r.flipBit k).Crc32 = r.Crc32 := by
  unfold AB_BOOT_INFO.Crc32
  rw [r.flipBit_byte_ne k hk 28 (by omega), r.flipBit_byte_ne k hk 29 (by omega),
    r.flipBit_byte_ne k hk 30 (by omega), r.flipBit_byte_ne k hk 31 (by omega)]

theorem AB_BOOT_INFO.flipBit_data_eq (r : AB_BOOT_INFO) (k : Nat) (h : 28 ≤ k / 8) :
    (r.flipBit k).raw.take 28 = r.raw.take 28 := by
  unfold AB_BOOT_INFO.flipBit
  simp only []
  rw [List.set_take]
  apply List.set_eq_of_length_le
  rw [List.length_take]
  omega

theorem AB_BOOT_INFO.flipBit_data_crc_ne (r : AB_BOOT_INFO) (k : Nat) (h : k / 8 < 28) :
    CalculateCrc32WithType ((r.flipBit k).raw.take 28) ≠
      CalculateCrc32WithType (r.raw.take 28) := by
  have hlen : k / 8 < (r.raw.take 28).length := by
    rw [List.length_take, r.size_eq]
    omega
  have hget : (r.raw.take 28).getD (k / 8) 0 = r.raw.getD (k / 8) 0 := by
    rw [List.getD_eq_getElem?_getD, List.getD_eq_getElem?_getD, List.getElem?_take_of_lt h]
  have hl : ∀ b ∈ r.raw.take 28, b < 256 := fun b hb => r.byte_lt b (List.mem_of_mem_take hb)
  have hv : r.raw.getD (k / 8) 0 ^^^ 2 ^ (k % 8) < 256 :=
    Nat.xor_lt_two_pow (n := 8) (r.byte_lt_256 (k / 8))
      (Nat.pow_lt_pow_right (by norm_num) (Nat.mod_lt _ (by norm_num)))
  have hne : r.raw.getD (k / 8) 0 ^^^ 2 ^ (k % 8) ≠ (r.raw.take 28).getD (k / 8) 0 := by
    rw [hget]
    exact xor_two_pow_ne _ _
  have hset : (r.flipBit k).raw.take 28 =
      (r.raw.take 28).set (k / 8) (r.raw.getD (k / 8) 0 ^^^ 2 ^ (k % 8)) := by
    unfold AB_BOOT_INFO.flipBit
    simp only []
    rw [List.set_take]
  rw [hset]
  exact CalculateCrc32WithType_set_ne _ hl _ _ hlen hv hne

theorem ParseBootSlot_accepted_inv (r : AB_BOOT_INFO)
    (h : ParseBootSlot r = 0 ∨ ParseBootSlot r = 1 ∨ ParseBootSlot r = -3) :
    r.Magic = AB_MAGIC_SIGNATURE ∧
      CalculateCrc32WithType (r.raw.take 28) = some r.Crc32 := by
  by_cases hM : r.Magic = AB_MAGIC_SIGNATURE
  · by_cases hC : CalculateCrc32WithType (r.raw.take 28) = some r.Crc32
    · exact ⟨hM, hC⟩
    · rw [ParseBootSlot_of_crc_ne r hM hC] at h
      omega
  · rw [ParseBootSlot_of_magic_ne r hM] at h
    omega

set_option maxRecDepth 1000000 in
/-- C7 as stated fails: the sample record is accepted (slot 0 is chosen), and
with bit 0 of byte 4, the first byte of `Magic`, inverted `ParseBootSlot`
returns -1, not -2. -/
theorem ParseBootSlot_flip_magic_bit :
    ParseBootSlot sampleBootInfo = 0 ∧ ParseBootSlot (sampleBootInfo.flipBit 32) = -1 := by
  decide

/-- C7, amended: for a record accepted by `ParseBootSlot` (a result of 0, 1 or
-3) and a bit position in its 32 bytes, the record with that one bit inverted is
rejected: with -1 when the bit lies in `Magic` (bytes 4 to 7) and with -2 in
every other position, the `Crc32` field included. -/
theorem ParseBootSlot_flipBit (r : AB_BOOT_INFO)
    (hacc : ParseBootSlot r = 0 ∨ ParseBootSlot r = 1 ∨ ParseBootSlot r = -3)
    (k : Nat) (hk : k < 256) :
    (4 ≤ k / 8 ∧ k / 8 < 8 → ParseBootSlot (r.flipBit k) = -1) ∧
    (¬ (4 ≤ k / 8 ∧ k / 8 < 8) → ParseBootSlot (r.flipBit k) = -2) := by
  obtain ⟨hM, hC⟩ := ParseBootSlot_accepted_inv r hacc
  constructor
  · intro h
    apply ParseBootSlot_of_magic_ne
    rw [← hM]
    exact r.flipBit_Magic_ne k hk h
  · intro h
    have hM2 : (r.flipBit k).Magic = AB_MAGIC_SIGNATURE := by
      rw [r.flipBit_Magic_eq k hk h, hM]
    apply ParseBootSlot_of_crc_ne _ hM2
    by_cases h28 : k / 8 < 28
    · rw [r.flipBit_Crc32_eq k hk h28, ← hC]
      exact r.flipBit_data_crc_ne k h28
    · have h28b : 28 ≤ k / 8 := by omega
      rw [r.flipBit_data_eq k h28b, hC]
      intro he
      exact r.flipBit_Crc32_ne k hk h28b (Option.some.inj he).symm

set_option maxRecDepth 1000000 in
/-- C7, amended, at the sample record: inverting the top bit of the byte that
holds slot 0 (bit 103) gives -2. -/
theorem ParseBootSlot_flipBit_witness :
    ParseBootSlot sampleBootInfo = 0 ∧ 103 < 256 ∧ ¬ (4 ≤ 103 / 8 ∧ 103 / 8 < 8) ∧
    ParseBootSlot (sampleBootInfo.flipBit 103) = -2 :=
  ⟨by decide, by decide, by decide,
    (ParseBootSlot_flipBit sampleBootInfo (Or.inl (by decide)) 103 (by decide)).2 (by decide)⟩

/-! ## Dispatcher: binary-metadata mode -/

set_option maxRecDepth 1000000 in
/-- C6 as stated fails: with `BOOT_FLAGS_MISC` set, on a device whose two
queries succeed and that reports a block size of 0, `LoadMisc` divides by zero
when it rounds `ReadSize`, before any metadata is read: the read neither
succeeds nor fails with a status, and `GetBootSlot` returns neither 0 nor 1. -/
theorem GetBootSlot_misc_zero_block_size :
    (OS_BOOT_OPTION.mk BOOT_FLAGS_MISC).BootFlags &&& BOOT_FLAGS_MISC ≠ 0 ∧
    EFI_ERROR (miscZeroBlock sampleBootInfo).GetLogicalPartitionInfo = false ∧
    EFI_ERROR (miscZeroBlock sampleBootInfo).MediaGetMediaInfo = false ∧
    (miscZeroBlock sampleBootInfo).BlockSize = 0 ∧
    LoadMisc (miscZeroBlock sampleBootInfo) sampleBootInfo = .divideByZero ∧
    GetBootSlot ⟨BOOT_FLAGS_MISC⟩ (miscZeroBlock sampleBootInfo) (textFiles "" "" "" "")
      sampleBootInfo = .divideByZero ∧
    GetBootSlot ⟨BOOT_FLAGS_MISC⟩ (miscZeroBlock sampleBootInfo) (textFiles "" "" "" "")
      sampleBootInfo ≠ .done 0 ∧
    GetBootSlot ⟨BOOT_FLAGS_MISC⟩ (miscZeroBlock sampleBootInfo) (textFiles "" "" "" "")
      sampleBootInfo ≠ .done 1 :=
  ⟨by decide, by decide, by decide, by decide, rfl, by decide, by decide, by decide⟩

/-- C6, amended: with `BOOT_FLAGS_MISC` set, for a record that is read without
error `GetBootSlot` returns the result of `ParseBootSlot` when that is 0 or 1
and 0 when `ParseBootSlot` rejects the record (-1, -2 or -3); it returns 0
when reading fails; and when one of the two device queries fails or the
reported block size is not 0, `LoadMisc` returns and the result of
`GetBootSlot` is 0 or 1. -/
theorem GetBootSlot_misc (BootOption : OS_BOOT_OPTION) (misc : MiscIo) (mender : MenderIo)
    (AbBootInfo : AB_BOOT_INFO) (hflag : BootOption.BootFlags &&& BOOT_FLAGS_MISC ≠ 0) :
    (∀ (Status : EFI_STATUS) (r : AB_BOOT_INFO),
      LoadMisc misc AbBootInfo = .done (Status, r) → EFI_ERROR Status = false →
      r = misc.AbBootInfo ∧
      (ParseBootSlot misc.AbBootInfo = 0 ∨ ParseBootSlot misc.AbBootInfo = 1 →
        GetBootSlot BootOption misc mender AbBootInfo = .done (ParseBootSlot misc.AbBootInfo)) ∧
      (ParseBootSlot misc.AbBootInfo = -1 ∨ ParseBootSlot misc.AbBootInfo = -2 ∨
          ParseBootSlot misc.AbBootInfo = -3 →
        GetBootSlot BootOption misc mender AbBootInfo = .done 0)) ∧
    (∀ (Status : EFI_STATUS) (r : AB_BOOT_INFO),
      LoadMisc misc AbBootInfo = .done (Status, r) → EFI_ERROR Status = true →
      GetBootSlot BootOption misc mender AbBootInfo = .done 0) ∧
    (EFI_ERROR misc.GetLogicalPartitionInfo = true ∨ EFI_ERROR misc.MediaGetMediaInfo = true ∨
        misc.BlockSize % 2 ^ 32 ≠ 0 →
      (∃ (Status : EFI_STATUS) (r : AB_BOOT_INFO),
        LoadMisc misc AbBootInfo = .done (Status, r)) ∧
      (GetBootSlot BootOption misc mender AbBootInfo = .done 0 ∨
        GetBootSlot BootOption misc mender AbBootInfo = .done 1)) := by
  have hok : ∀ (Status : EFI_STATUS) (r : AB_BOOT_INFO),
      LoadMisc misc AbBootInfo = .done (Status, r) → EFI_ERROR Status = false →
      GetBootSlot BootOption misc mender AbBootInfo =
        if ParseBootSlot misc.AbBootInfo < 0 then .done 0
        else .done (ParseBootSlot misc.AbBootInfo) := by
    intro Status r h he
    have hr := LoadMisc_record misc AbBootInfo Status r h he
    unfold GetBootSlot
    rw [if_pos hflag, h]
    simp only [he, if_true, hr]
  have herr : ∀ (Status : EFI_STATUS) (r : AB_BOOT_INFO),
      LoadMisc misc AbBootInfo = .done (Status, r) → EFI_ERROR Status = true →
      GetBootSlot BootOption misc mender AbBootInfo = .done 0 := by
    intro Status r h he
    unfold GetBootSlot
    rw [if_pos hflag, h]
    simp [he]
  refine ⟨?_, herr, ?_⟩
  · intro Status r h he
    refine ⟨LoadMisc_record misc AbBootInfo Status r h he, ?_, ?_⟩
    · intro hp
      rw [hok Status r h he]
      rcases hp with hp | hp <;> rw [hp] <;> simp
    · intro hp
      rw [hok Status r h he]
      rcases hp with hp | hp | hp <;> rw [hp] <;> simp
  · intro hdev
    obtain ⟨Status, r, h⟩ := LoadMisc_returns misc AbBootInfo hdev
    refine ⟨⟨Status, r, h⟩, ?_⟩
    cases he : EFI_ERROR Status with
    | true => exact Or.inl (herr Status r h he)
    | false =>
      rw [hok Status r h he]
      rcases ParseBootSlot_range misc.AbBootInfo with hp | hp | hp | hp | hp <;>
        rw [hp] <;> simp

set_option maxRecDepth 1000000 in
/-- C6, amended, at a sample: the device reports blocks of 512 bytes, the misc
partition reads without error and holds a record in which slot 1 outranks
slot 0, and `GetBootSlot` returns 1. -/
theorem GetBootSlot_misc_witness :
    (OS_BOOT_OPTION.mk 1).BootFlags &&& BOOT_FLAGS_MISC ≠ 0 ∧
    LoadMisc (miscOk sampleBootInfoB) sampleBootInfo = .done (EFI_SUCCESS, sampleBootInfoB) ∧
    EFI_ERROR EFI_SUCCESS = false ∧
    ParseBootSlot sampleBootInfoB = 1 ∧
    GetBootSlot ⟨1⟩ (miscOk sampleBootInfoB) (textFiles "" "" "" "") sampleBootInfo =
      .done (ParseBootSlot sampleBootInfoB) ∧
    (miscOk sampleBootInfoB).BlockSize % 2 ^ 32 ≠ 0 ∧
    (GetBootSlot ⟨1⟩ (miscOk sampleBootInfoB) (textFiles "" "" "" "") sampleBootInfo = .done 0 ∨
      GetBootSlot ⟨1⟩ (miscOk sampleBootInfoB) (textFiles "" "" "" "") sampleBootInfo =
        .done 1) :=
  ⟨by decide, rfl, by decide, by decide,
    ((GetBootSlot_misc ⟨1⟩ (miscOk sampleBootInfoB) (textFiles "" "" "" "") sampleBootInfo
      (by decide)).1 EFI_SUCCESS sampleBootInfoB rfl (by decide)).2.1
      (Or.inr (by decide)),
    by decide,
    ((GetBootSlot_misc ⟨1⟩ (miscOk sampleBootInfoB) (textFiles "" "" "" "") sampleBootInfo
      (by decide)).2.2 (Or.inr (Or.inr (by decide)))).2⟩

/-! ## Text scheme: copy selection and rollback rule -/

theorem MenderSelectIndex_zero {cfg : MenderEnvPair} (h : MenderTrusted cfg 0) :
    MenderSelectIndex cfg = some 0 := by
  unfold MenderTrusted at h
  unfold MenderSelectIndex MENDER_GRUBENV_1_INVALID
  simp at h
  simp [h.1, h.2]

theorem MenderSelectIndex_one {cfg : MenderEnvPair} (h0 : ¬ MenderTrusted cfg 0)
    (h1 : MenderTrusted cfg 1) : MenderSelectIndex cfg = some 1 := by
  unfold MenderTrusted at h0 h1
  unfold MenderSelectIndex MENDER_GRUBENV_1_INVALID MENDER_GRUBENV_2_INVALID
  simp at h0 h1
  rw [if_neg (by simpa using h0), if_pos (by simpa using h1)]

theorem MenderSelectIndex_none {cfg : MenderEnvPair} (h0 : ¬ MenderTrusted cfg 0)
    (h1 : ¬ MenderTrusted cfg 1) : MenderSelectIndex cfg = none := by
  unfold MenderTrusted at h0 h1
  unfold MenderSelectIndex MENDER_GRUBENV_1_INVALID MENDER_GRUBENV_2_INVALID
  simp at h0 h1
  rw [if_neg (by simpa using h0), if_neg (by simpa using h1)]

theorem MenderSelectIndex_trusted {cfg : MenderEnvPair} {i : Fin 2}
    (h : MenderSelectIndex cfg = some i) : MenderTrusted cfg i := by
  by_cases h0 : MenderTrusted cfg 0
  · rw [MenderSelectIndex_zero h0] at h
    cases h
    exact h0
  · by_cases h1 : MenderTrusted cfg 1
    · rw [MenderSelectIndex_one h0 h1] at h
      cases h
      exact h1
    · rw [MenderSelectIndex_none h0 h1] at h
      cases h

theorem toINT32_small {n : Nat} (h : n < 2 ^ 31) : toINT32 n = (n : Int) := by
  unfold toINT32
  have h1 : n % 2 ^ 32 = n := Nat.mod_eq_of_lt (by omega)
  rw [h1, if_pos h]

/-- C4: when `ParseMenderConfig` selects a copy whose `MenderBootPart` is
RootfsA (2) or RootfsB (3), the result is the recorded part when
`UpgradeAvailable` is 0, the recorded part when `UpgradeAvailable` is 1 and
`BootCount` is 0, and the other part (A becomes B, B becomes A) when
`UpgradeAvailable` is 1 and `BootCount` is not 0. -/
theorem ParseMenderConfig_rollback (cfg : MenderEnvPair) (i : Fin 2)
    (hsel : MenderSelectIndex cfg = some i)
    (hpart : (cfg.get i).MenderBootPart = MenderRootfsPartA ∨
      (cfg.get i).MenderBootPart = MenderRootfsPartB) :
    ((cfg.get i).UpgradeAvailable = 0 →
      ParseMenderConfig cfg = ((cfg.get i).MenderBootPart : Int)) ∧
    ((cfg.get i).UpgradeAvailable = 1 → (cfg.get i).BootCount = 0 →
      ParseMenderConfig cfg = ((cfg.get i).MenderBootPart : Int)) ∧
    ((cfg.get i).UpgradeAvailable = 1 → (cfg.get i).BootCount ≠ 0 →
      ((cfg.get i).MenderBootPart = MenderRootfsPartA →
        ParseMenderConfig cfg = (MenderRootfsPartB : Int)) ∧
      ((cfg.get i).MenderBootPart = MenderRootfsPartB →
        ParseMenderConfig cfg = (MenderRootfsPartA : Int))) := by
  have hlt : (cfg.get i).MenderBootPart < 2 ^ 31 := by
    unfold MenderRootfsPartA MenderRootfsPartB at hpart
    omega
  have hA : toINT32 MenderRootfsPartA = (MenderRootfsPartA : Int) :=
    toINT32_small (by unfold MenderRootfsPartA; norm_num)
  have hB : toINT32 MenderRootfsPartB = (MenderRootfsPartB : Int) :=
    toINT32_small (by unfold MenderRootfsPartB; norm_num)
  unfold ParseMenderConfig
  rw [hsel]
  simp only []
  unfold MenderBootTarget MenderUpgradeAvailable
  refine ⟨?_, ?_, ?_⟩
  · intro hu
    rw [if_neg (by omega), toINT32_small hlt]
  · intro hu hb
    rw [if_pos hu, if_neg (by simpa using hb), toINT32_small hlt]
  · intro hu hb
    constructor
    · intro hp
      rw [if_pos hu, if_pos hb, if_pos hp, hB]
    · intro hp
      have hne : (cfg.get i).MenderBootPart ≠ MenderRootfsPartA := by
        rw [hp]
        decide
      rw [if_pos hu, if_pos hb, if_neg hne, hA]

/-- C4 at a sample: copy 0 is in use, records RootfsA with an upgrade pending
and one boot counted, so the target is RootfsB. -/
theorem ParseMenderConfig_rollback_witness :
    MenderSelectIndex ⟨⟨1, 2, 1, 0, 0⟩, ⟨0, 3, 0, 0, 0⟩⟩ = some 0 ∧
    ParseMenderConfig ⟨⟨1, 2, 1, 0, 0⟩, ⟨0, 3, 0, 0, 0⟩⟩ = 3 :=
  ⟨by decide,
    ((ParseMenderConfig_rollback ⟨⟨1, 2, 1, 0, 0⟩, ⟨0, 3, 0, 0, 0⟩⟩ 0 (by decide)
      (Or.inl (by decide))).2.2 (by decide) (by decide)).1 (by decide)⟩

theorem MenderBootTarget_ne_minus_one {c : MENDER_ENV_CONFIG}
    (h : c.MenderBootPart % 2 ^ 32 ≠ 2 ^ 32 - 1) : MenderBootTarget c ≠ -1 := by
  have hgen : toINT32 c.MenderBootPart ≠ -1 := by
    unfold toINT32
    split <;> omega
  have hA : toINT32 MenderRootfsPartA ≠ -1 := by decide
  have hB : toINT32 MenderRootfsPartB ≠ -1 := by decide
  unfold MenderBootTarget
  split_ifs <;> assumption

theorem MenderBootTarget_ne_minus_one_of_part {c : MENDER_ENV_CONFIG}
    (h : c.MenderBootPart = 0 ∨ c.MenderBootPart = MenderRootfsPartA ∨
      c.MenderBootPart = MenderRootfsPartB) : MenderBootTarget c ≠ -1 := by
  apply MenderBootTarget_ne_minus_one
  rcases h with h | h | h <;> rw [h] <;> decide

/-- C5: for every pair of Mender configs (each copy's `MenderBootPart` holding
what the field can hold: 0 from `ZeroMem`, RootfsA or RootfsB from the parser),
`ParseMenderConfig` uses copy 0 when copy 0 is trusted, and the result then
does not depend on copy 1 at all; it uses copy 1 when copy 0 is not trusted
and copy 1 is; and it returns -1 if and only if neither copy is trusted, the
mixed case of copy 0 with `editing=1` and copy 1 invalid included. -/
theorem ParseMenderConfig_selection (cfg : MenderEnvPair) (hinv : PartInv cfg) :
    (MenderTrusted cfg 0 →
      ParseMenderConfig cfg = MenderBootTarget cfg.c0 ∧
      ∀ c1 : MENDER_ENV_CONFIG, ParseMenderConfig ⟨cfg.c0, c1⟩ = ParseMenderConfig cfg) ∧
    (¬ MenderTrusted cfg 0 → MenderTrusted cfg 1 →
      ParseMenderConfig cfg = MenderBootTarget cfg.c1) ∧
    (ParseMenderConfig cfg = -1 ↔ ¬ MenderTrusted cfg 0 ∧ ¬ MenderTrusted cfg 1) ∧
    ((cfg.get 0).Editing ≠ 0 → (cfg.get 1).ConfigInvalid &&& (1 <<< 1) ≠ 0 →
      ParseMenderConfig cfg = -1) := by
  have hcase0 : MenderTrusted cfg 0 → ParseMenderConfig cfg = MenderBootTarget cfg.c0 := by
    intro h
    unfold ParseMenderConfig
    rw [MenderSelectIndex_zero h]
    rfl
  have hcase1 : ¬ MenderTrusted cfg 0 → MenderTrusted cfg 1 →
      ParseMenderConfig cfg = MenderBootTarget cfg.c1 := by
    intro h0 h1
    unfold ParseMenderConfig
    rw [MenderSelectIndex_one h0 h1]
    rfl
  have hnone : ¬ MenderTrusted cfg 0 → ¬ MenderTrusted cfg 1 → ParseMenderConfig cfg = -1 := by
    intro h0 h1
    unfold ParseMenderConfig
    rw [MenderSelectIndex_none h0 h1]
  have hp0 : MenderBootTarget cfg.c0 ≠ -1 := MenderBootTarget_ne_minus_one_of_part (hinv 0)
  have hp1 : MenderBootTarget cfg.c1 ≠ -1 := MenderBootTarget_ne_minus_one_of_part (hinv 1)
  refine ⟨?_, hcase1, ?_, ?_⟩
  · intro h
    refine ⟨hcase0 h, ?_⟩
    intro c1
    have h2 : MenderTrusted ⟨cfg.c0, c1⟩ 0 := h
    rw [hcase0 h]
    unfold ParseMenderConfig
    rw [MenderSelectIndex_zero h2]
    rfl
  · constructor
    · intro hm
      constructor
      · intro h0
        rw [hcase0 h0] at hm
        exact hp0 hm
      · intro h1
        by_cases h0 : MenderTrusted cfg 0
        · rw [hcase0 h0] at hm
          exact hp0 hm
        · rw [hcase1 h0 h1] at hm
          exact hp1 hm
    · intro h
      exact hnone h.1 h.2
  · intro he hi
    apply hnone
    · intro h
      exact he h.1
    · intro h
      exact hi h.2

/-- C5 at a sample: copy 0 has `editing=1` and copy 1 has its invalid flag
set, neither copy is trusted and `ParseMenderConfig` returns -1; with copy 0
trusted instead, the result is not -1. -/
theorem ParseMenderConfig_selection_witness :
    PartInv ⟨⟨0, 2, 0, 1, 0⟩, ⟨0, 3, 0, 0, 2⟩⟩ ∧
    ¬ MenderTrusted ⟨⟨0, 2, 0, 1, 0⟩, ⟨0, 3, 0, 0, 2⟩⟩ 0 ∧
    ¬ MenderTrusted ⟨⟨0, 2, 0, 1, 0⟩, ⟨0, 3, 0, 0, 2⟩⟩ 1 ∧
    ParseMenderConfig ⟨⟨0, 2, 0, 1, 0⟩, ⟨0, 3, 0, 0, 2⟩⟩ = -1 ∧
    PartInv ⟨⟨0, 2, 0, 0, 0⟩, ⟨0, 3, 0, 0, 2⟩⟩ ∧
    MenderTrusted ⟨⟨0, 2, 0, 0, 0⟩, ⟨0, 3, 0, 0, 2⟩⟩ 0 ∧
    ParseMenderConfig ⟨⟨0, 2, 0, 0, 0⟩, ⟨0, 3, 0, 0, 2⟩⟩ ≠ -1 :=
  ⟨by decide, by decide, by decide,
    (ParseMenderConfig_selection ⟨⟨0, 2, 0, 1, 0⟩, ⟨0, 3, 0, 0, 2⟩⟩ (by decide)).2.2.1.2
      ⟨by decide, by decide⟩,
    by decide, by decide,
    fun h => ((ParseMenderConfig_selection ⟨⟨0, 2, 0, 0, 0⟩, ⟨0, 3, 0, 0, 2⟩⟩
      (by decide)).2.2.1.1 h).1 (by decide)⟩

/-! ## Text scheme: what a parse can store as `MenderBootPart` -/

theorem MenderEnvPair.get_set (p : MenderEnvPair) (i j : Fin 2) (c : MENDER_ENV_CONFIG) :
    (p.set i c).get j = if j = i then c else p.get j := by
  fin_cases i <;> fin_cases j <;> simp [MenderEnvPair.set, MenderEnvPair.get]

theorem PartInv_zero : PartInv MenderEnvPair.zero := by
  intro i
  left
  unfold MenderEnvPair.get MenderEnvPair.zero
  split <;> rfl

theorem PartInv_set {cfg : MenderEnvPair} (h : PartInv cfg) (i : Fin 2) (c : MENDER_ENV_CONFIG)
    (hc : c.MenderBootPart = 0 ∨ c.MenderBootPart = MenderRootfsPartA ∨
      c.MenderBootPart = MenderRootfsPartB) : PartInv (cfg.set i c) := by
  intro j
  rw [MenderEnvPair.get_set]
  split
  · exact hc
  · exact h j

theorem PartInv_MarkInvalid {cfg : MenderEnvPair} (h : PartInv cfg) (i : Fin 2) :
    PartInv (MarkInvalid cfg i) :=
  PartInv_set h i _ (h i)

theorem LoadMenderConfigLine_PartInv (ConfigFile : List Nat) (DirIdx : Fin 2)
    (CurrLine LineCursor : Nat) (Status : EFI_STATUS) (cfg : MenderEnvPair) (h : PartInv cfg) :
    ∀ cfg1, (LoadMenderConfigLine ConfigFile DirIdx CurrLine LineCursor Status cfg).cfg? =
      some cfg1 → PartInv cfg1 := by
  intro cfg1 h1
  unfold LoadMenderConfigLine at h1
  split_ifs at h1 with e1 e2 e3 e4 e5 e6
  all_goals try (simp only [LineStep.cfg?, Option.some.injEq] at h1; rw [← h1]; exact h)
  · split at h1
    · simp [LineStep.cfg?] at h1
    · simp only [] at h1
      split_ifs at h1
      · simp only [LineStep.cfg?, Option.some.injEq] at h1
        rw [← h1]
        exact PartInv_MarkInvalid h DirIdx
      · simp only [LineStep.cfg?, Option.some.injEq] at h1
        rw [← h1]
        exact PartInv_set h DirIdx _ (h DirIdx)
  · split at h1
    · simp [LineStep.cfg?] at h1
    · simp only [] at h1
      split_ifs at h1 with e7
      · simp only [LineStep.cfg?, Option.some.injEq] at h1
        rw [← h1]
        exact PartInv_MarkInvalid h DirIdx
      · simp only [LineStep.cfg?, Option.some.injEq] at h1
        rw [← h1]
        apply PartInv_set h DirIdx
        simp only []
        right
        by_contra hcon
        exact e7 ⟨fun ha => hcon (Or.inl ha), fun hb => hcon (Or.inr hb)⟩
  · split at h1
    · simp [LineStep.cfg?] at h1
    · simp only [] at h1
      split_ifs at h1
      · simp only [LineStep.cfg?, Option.some.injEq] at h1
        rw [← h1]
        exact PartInv_MarkInvalid h DirIdx
      · simp only [LineStep.cfg?, Option.some.injEq] at h1
        rw [← h1]
        exact PartInv_set h DirIdx _ (h DirIdx)
  · split at h1
    · simp [LineStep.cfg?] at h1
    · simp only [LineStep.cfg?, Option.some.injEq] at h1
      rw [← h1]
      exact PartInv_set h DirIdx _ (h DirIdx)

theorem LoadMenderConfigLoop_PartInv (ConfigFile : List Nat) (DirIdx : Fin 2) (fuel : Nat) :
    ∀ (CurrLine : Nat) (Status : EFI_STATUS) (cfg : MenderEnvPair), PartInv cfg →
      ∀ (Status1 : EFI_STATUS) (cfg1 : MenderEnvPair),
        LoadMenderConfigLoop ConfigFile DirIdx fuel CurrLine Status cfg = .done (Status1, cfg1) →
        PartInv cfg1 := by
  induction fuel with
  | zero =>
    intro CurrLine Status cfg _ Status1 cfg1 h
    simp [LoadMenderConfigLoop] at h
  | succ n ih =>
    intro CurrLine Status cfg hinv Status1 cfg1 h
    rw [LoadMenderConfigLoop] at h
    cases hg : GetNextLine ConfigFile CurrLine with
    | none => simp [hg] at h
    | some NextLine =>
      cases hs : ScanAssign ConfigFile CurrLine with
      | none => simp [hg, hs] at h
      | some LineCursor =>
        have hline := LoadMenderConfigLine_PartInv ConfigFile DirIdx CurrLine LineCursor Status
          cfg hinv
        cases hl : LoadMenderConfigLine ConfigFile DirIdx CurrLine LineCursor Status cfg with
        | outOfBounds => simp [hg, hs, hl] at h
        | gotoDone Status2 cfg2 =>
          simp only [hg, hs, hl, Outcome.done.injEq, Prod.mk.injEq] at h
          rw [← h.2]
          exact hline cfg2 (by rw [hl]; rfl)
        | next Status2 cfg2 =>
          have h2 : PartInv cfg2 := hline cfg2 (by rw [hl]; rfl)
          cases NextLine with
          | none =>
            simp only [hg, hs, hl, Outcome.done.injEq, Prod.mk.injEq] at h
            rw [← h.2]
            exact h2
          | some CurrLine1 =>
            simp only [hg, hs, hl] at h
            exact ih CurrLine1 Status2 cfg2 h2 Status1 cfg1 h

theorem LoadMenderConfig_PartInv (ConfigFile : List Nat) (DirIdx : Fin 2) (cfg : MenderEnvPair)
    (h : PartInv cfg) (Status1 : EFI_STATUS) (cfg1 : MenderEnvPair)
    (h1 : LoadMenderConfig ConfigFile DirIdx cfg = .done (Status1, cfg1)) : PartInv cfg1 :=
  LoadMenderConfigLoop_PartInv ConfigFile DirIdx _ 0 EFI_SUCCESS cfg h Status1 cfg1 h1

theorem LoadMenderFiles_PartInv (io : MenderIo) (files : List (Fin 4)) :
    ∀ (Status : EFI_STATUS) (cfg : MenderEnvPair), PartInv cfg →
      ∀ (Status1 : EFI_STATUS) (cfg1 : MenderEnvPair),
        LoadMenderFiles io files Status cfg = .done (Status1, cfg1) → PartInv cfg1 := by
  induction files with
  | nil =>
    intro Status cfg hinv Status1 cfg1 h
    simp only [LoadMenderFiles, Outcome.done.injEq, Prod.mk.injEq] at h
    rw [← h.2]
    exact hinv
  | cons Index rest ih =>
    intro Status cfg hinv Status1 cfg1 h
    rw [LoadMenderFiles] at h
    split_ifs at h with e1 e2 e3 e4 e5
    all_goals try (simp only [Outcome.done.injEq, Prod.mk.injEq] at h; rw [← h.2]; exact hinv)
    cases hc : LoadMenderConfig (io.File Index).ConfigFile ⟨Index.val / 2, by omega⟩ cfg with
    | outOfBounds => simp [hc] at h
    | outOfFuel => simp [hc] at h
    | divideByZero => simp [hc] at h
    | done res =>
      obtain ⟨Status2, cfg2⟩ := res
      have h2 : PartInv cfg2 := LoadMenderConfig_PartInv _ _ cfg hinv Status2 cfg2 hc
      simp only [hc] at h
      split_ifs at h
      · simp only [Outcome.done.injEq, Prod.mk.injEq] at h
        rw [← h.2]
        exact h2
      · exact ih Status2 cfg2 h2 Status1 cfg1 h

theorem LoadMender_PartInv (io : MenderIo) (Status1 : EFI_STATUS) (cfg1 : MenderEnvPair)
    (h : LoadMender io MenderEnvPair.zero = .done (Status1, cfg1)) : PartInv cfg1 := by
  unfold LoadMender at h
  split_ifs at h
  · simp only [Outcome.done.injEq, Prod.mk.injEq] at h
    rw [← h.2]
    exact PartInv_zero
  · exact LoadMenderFiles_PartInv io _ _ _ PartInv_zero Status1 cfg1 h

/-! ## Text scheme: the iteration budget is never used up -/

theorem GetNextLineFrom_bound (s : List Nat) :
    ∀ p q : Nat, GetNextLineFrom s p = some (some q) → p < q ∧ q ≤ p + s.length := by
  induction s with
  | nil =>
    intro p q h
    simp [GetNextLineFrom] at h
  | cons c t ih =>
    intro p q h
    rw [GetNextLineFrom] at h
    split_ifs at h with h0 h10
    · simp at h
    · simp only [Option.some.injEq] at h
      rw [List.length_cons]
      omega
    · have h2 := ih (p + 1) q h
      rw [List.length_cons]
      omega

theorem GetNextLine_bound (ConfigFile : List Nat) (CurrLine q : Nat)
    (hc : CurrLine ≤ ConfigFile.length) (h : GetNextLine ConfigFile CurrLine = some (some q)) :
    CurrLine < q ∧ q ≤ ConfigFile.length := by
  have h2 := GetNextLineFrom_bound _ CurrLine q h
  rw [List.length_drop] at h2
  omega

theorem LoadMenderConfigLoop_ne_outOfFuel (ConfigFile : List Nat) (DirIdx : Fin 2) (fuel : Nat) :
    ∀ (CurrLine : Nat) (Status : EFI_STATUS) (cfg : MenderEnvPair),
      CurrLine ≤ ConfigFile.length → ConfigFile.length < CurrLine + fuel →
      LoadMenderConfigLoop ConfigFile DirIdx fuel CurrLine Status cfg ≠ .outOfFuel := by
  induction fuel with
  | zero =>
    intro CurrLine Status cfg h1 h2
    omega
  | succ n ih =>
    intro CurrLine Status cfg h1 h2 h
    rw [LoadMenderConfigLoop] at h
    cases hg : GetNextLine ConfigFile CurrLine with
    | none => simp [hg] at h
    | some NextLine =>
      cases hs : ScanAssign ConfigFile CurrLine with
      | none => simp [hg, hs] at h
      | some LineCursor =>
        cases hl : LoadMenderConfigLine ConfigFile DirIdx CurrLine LineCursor Status cfg with
        | outOfBounds => simp [hg, hs, hl] at h
        | gotoDone Status2 cfg2 => simp [hg, hs, hl] at h
        | next Status2 cfg2 =>
          cases NextLine with
          | none => simp [hg, hs, hl] at h
          | some CurrLine1 =>
            simp only [hg, hs, hl] at h
            have hb := GetNextLine_bound ConfigFile CurrLine CurrLine1 h1 hg
            exact ih CurrLine1 Status2 cfg2 hb.2 (by omega) h

theorem LoadMenderConfig_ne_outOfFuel (ConfigFile : List Nat) (DirIdx : Fin 2)
    (cfg : MenderEnvPair) : LoadMenderConfig ConfigFile DirIdx cfg ≠ .outOfFuel :=
  LoadMenderConfigLoop_ne_outOfFuel ConfigFile DirIdx _ 0 EFI_SUCCESS cfg (Nat.zero_le _)
    (by omega)

theorem LoadMenderFiles_ne_outOfFuel (io : MenderIo) (files : List (Fin 4)) :
    ∀ (Status : EFI_STATUS) (cfg : MenderEnvPair),
      LoadMenderFiles io files Status cfg ≠ .outOfFuel := by
  induction files with
  | nil =>
    intro Status cfg h
    simp [LoadMenderFiles] at h
  | cons Index rest ih =>
    intro Status cfg h
    rw [LoadMenderFiles] at h
    split_ifs at h with e1 e2 e3 e4 e5
    cases hc : LoadMenderConfig (io.File Index).ConfigFile ⟨Index.val / 2, by omega⟩ cfg with
    | outOfBounds => simp [hc] at h
    | outOfFuel => exact LoadMenderConfig_ne_outOfFuel _ _ _ hc
    | divideByZero => simp [hc] at h
    | done res =>
      obtain ⟨Status2, cfg2⟩ := res
      simp only [hc] at h
      split_ifs at h
      exact ih Status2 cfg2 h

theorem LoadMender_ne_outOfFuel (io : MenderIo) (cfg : MenderEnvPair) :
    LoadMender io cfg ≠ .outOfFuel := by
  unfold LoadMender
  split_ifs
  · simp
  · exact LoadMenderFiles_ne_outOfFuel io _ _ _

theorem LoadMisc_ne_outOfFuel (io : MiscIo) (AbBootInfo : AB_BOOT_INFO) :
    LoadMisc io AbBootInfo ≠ .outOfFuel := by
  unfold LoadMisc
  split_ifs
  · simp
  · simp
  · cases MiscReadSize (io.BlockSize % 2 ^ 32) with
    | none => simp
    | some ReadSize =>
      simp only []
      split_ifs <;> simp

theorem GetBootSlot_ne_outOfFuel (BootOption : OS_BOOT_OPTION) (misc : MiscIo)
    (mender : MenderIo) (AbBootInfo : AB_BOOT_INFO) :
    GetBootSlot BootOption misc mender AbBootInfo ≠ .outOfFuel := by
  unfold GetBootSlot
  split_ifs
  · cases hm : LoadMisc misc AbBootInfo with
    | outOfBounds => simp
    | outOfFuel => exact absurd hm (LoadMisc_ne_outOfFuel misc _)
    | divideByZero => simp
    | done res =>
      obtain ⟨Status, r⟩ := res
      simp only []
      split_ifs <;> simp
  all_goals try simp
  cases hc : LoadMender mender MenderEnvPair.zero with
  | outOfBounds => simp
  | outOfFuel => exact absurd hc (LoadMender_ne_outOfFuel mender _)
  | divideByZero => simp
  | done res =>
    obtain ⟨Status, cfg⟩ := res
    simp only []
    split_ifs <;> simp

theorem MenderBootTarget_of_part {c : MENDER_ENV_CONFIG}
    (h : c.MenderBootPart = MenderRootfsPartA ∨ c.MenderBootPart = MenderRootfsPartB) :
    MenderBootTarget c = 2 ∨ MenderBootTarget c = 3 := by
  have hA : toINT32 MenderRootfsPartA = 2 := by decide
  have hB : toINT32 MenderRootfsPartB = 3 := by decide
  unfold MenderBootTarget
  rcases h with h | h <;> rw [h] <;> split_ifs <;> simp [hA, hB]

/-! ## Dispatcher: redundant-text mode -/

theorem GetBootSlot_mender_eq (BootOption : OS_BOOT_OPTION) (misc : MiscIo) (mender : MenderIo)
    (AbBootInfo : AB_BOOT_INFO) (Status : EFI_STATUS) (cfg : MenderEnvPair)
    (hmisc : BootOption.BootFlags &&& BOOT_FLAGS_MISC = 0)
    (hmender : BootOption.BootFlags &&& BOOT_FLAGS_MENDER ≠ 0)
    (hload : LoadMender mender MenderEnvPair.zero = .done (Status, cfg))
    (hok : EFI_ERROR Status = false) :
    GetBootSlot BootOption misc mender AbBootInfo =
      .done (wrapINT32 (ParseMenderConfig cfg - 2)) := by
  unfold GetBootSlot
  rw [if_neg (by simp [hmisc]), if_pos hmender, hload]
  simp only [hok, if_true]

set_option maxRecDepth 1000000 in
/-- C9 as stated fails: all four files load and parse without error, copy 0 is
selected, but its text never assigns `mender_boot_part`; `ParseMenderConfig`
returns 0, which is neither -1 nor RootfsA nor RootfsB, and `GetBootSlot`
returns -2. -/
theorem GetBootSlot_mender_part_unset :
    LoadMender (textFiles "bootcount=0" "editing=0" "bootcount=0" "editing=0")
      MenderEnvPair.zero = .done (EFI_SUCCESS, MenderEnvPair.zero) ∧
    MenderSelectIndex MenderEnvPair.zero = some 0 ∧
    ParseMenderConfig MenderEnvPair.zero = 0 ∧
    GetBootSlot ⟨BOOT_FLAGS_MENDER⟩ (miscOk sampleBootInfo)
      (textFiles "bootcount=0" "editing=0" "bootcount=0" "editing=0") sampleBootInfo =
      .done (-2) := by
  decide

/-- C9, amended: in redundant-text mode, when every file loads and parses
without error (from the zero-initialised pair), `ParseMenderConfig` selects a
copy, and that copy has had `mender_boot_part` assigned (its `MenderBootPart`
is not 0), the output of `ParseMenderConfig` is RootfsA (2) or RootfsB (3) and
`GetBootSlot` returns 0 for RootfsA and 1 for RootfsB, so 0 or 1. -/
theorem GetBootSlot_mender (BootOption : OS_BOOT_OPTION) (misc : MiscIo) (mender : MenderIo)
    (AbBootInfo : AB_BOOT_INFO) (Status : EFI_STATUS) (cfg : MenderEnvPair) (i : Fin 2)
    (hmisc : BootOption.BootFlags &&& BOOT_FLAGS_MISC = 0)
    (hmender : BootOption.BootFlags &&& BOOT_FLAGS_MENDER ≠ 0)
    (hload : LoadMender mender MenderEnvPair.zero = .done (Status, cfg))
    (hok : EFI_ERROR Status = false)
    (hsel : MenderSelectIndex cfg = some i)
    (hset : (cfg.get i).MenderBootPart ≠ 0) :
    (ParseMenderConfig cfg = 2 ∨ ParseMenderConfig cfg = 3) ∧
    (ParseMenderConfig cfg = 2 → GetBootSlot BootOption misc mender AbBootInfo = .done 0) ∧
    (ParseMenderConfig cfg = 3 → GetBootSlot BootOption misc mender AbBootInfo = .done 1) ∧
    (GetBootSlot BootOption misc mender AbBootInfo = .done 0 ∨
      GetBootSlot BootOption misc mender AbBootInfo = .done 1) := by
  have hget := GetBootSlot_mender_eq BootOption misc mender AbBootInfo Status cfg hmisc hmender
    hload hok
  have hpart : (cfg.get i).MenderBootPart = MenderRootfsPartA ∨
      (cfg.get i).MenderBootPart = MenderRootfsPartB := by
    rcases LoadMender_PartInv mender Status cfg hload i with h | h
    · exact absurd h hset
    · exact h
  have hparse : ParseMenderConfig cfg = MenderBootTarget (cfg.get i) := by
    unfold ParseMenderConfig
    rw [hsel]
  have h23 := MenderBootTarget_of_part hpart
  rw [← hparse] at h23
  have w0 : wrapINT32 (2 - 2) = 0 := by decide
  have w1 : wrapINT32 (3 - 2) = 1 := by decide
  refine ⟨h23, ?_, ?_, ?_⟩
  · intro h
    rw [hget, h, w0]
  · intro h
    rw [hget, h, w1]
  · rcases h23 with h | h
    · left
      rw [hget, h, w0]
    · right
      rw [hget, h, w1]

set_option maxRecDepth 1000000 in
/-- C9, amended, at a sample: copy 0 records RootfsA with an upgrade pending
and one boot counted, so the target is RootfsB and `GetBootSlot` returns 1. -/
theorem GetBootSlot_mender_witness :
    (OS_BOOT_OPTION.mk BOOT_FLAGS_MENDER).BootFlags &&& BOOT_FLAGS_MISC = 0 ∧
    (OS_BOOT_OPTION.mk BOOT_FLAGS_MENDER).BootFlags &&& BOOT_FLAGS_MENDER ≠ 0 ∧
    LoadMender (textFiles "bootcount=1\nmender_boot_part=2\nupgrade_available=1" "editing=0"
      "mender_boot_part=3" "editing=0") MenderEnvPair.zero =
      .done (EFI_SUCCESS, ⟨⟨1, 2, 1, 0, 0⟩, ⟨0, 3, 0, 0, 0⟩⟩) ∧
    ParseMenderConfig ⟨⟨1, 2, 1, 0, 0⟩, ⟨0, 3, 0, 0, 0⟩⟩ = 3 ∧
    GetBootSlot ⟨BOOT_FLAGS_MENDER⟩ (miscOk sampleBootInfo)
      (textFiles "bootcount=1\nmender_boot_part=2\nupgrade_available=1" "editing=0"
        "mender_boot_part=3" "editing=0") sampleBootInfo = .done 1 :=
  ⟨by decide, by decide, by decide, by decide,
    (GetBootSlot_mender ⟨BOOT_FLAGS_MENDER⟩ (miscOk sampleBootInfo)
      (textFiles "bootcount=1\nmender_boot_part=2\nupgrade_available=1" "editing=0"
        "mender_boot_part=3" "editing=0") sampleBootInfo EFI_SUCCESS
      ⟨⟨1, 2, 1, 0, 0⟩, ⟨0, 3, 0, 0, 0⟩⟩ 0 (by decide) (by decide) (by decide) (by decide)
      (by decide) (by decide)).2.2.1 (by decide)⟩

set_option maxRecDepth 1000000 in
/-- C8 fails on the code: copy 0's text holds `bootcount=2`, which the parser
rejects while marking copy 0 invalid; copy 1's two files parse without error,
with `editing=0`, `mender_boot_part=3` and `upgrade_available=0`, and from the
pair so filled `ParseMenderConfig` would choose copy 1 and RootfsB (slot 1).
`LoadMender` stops at the first file, though, and `GetBootSlot` returns 0. -/
theorem GetBootSlot_mender_copy0_invalid :
    LoadMenderConfig (ascii "bootcount=2" ++ [0]) 0 MenderEnvPair.zero =
      .done (EFI_INVALID_PARAMETER, ⟨⟨0, 0, 0, 0, 1⟩, ⟨0, 0, 0, 0, 0⟩⟩) ∧
    LoadMenderConfig (ascii "mender_boot_part=3\nupgrade_available=0" ++ [0]) 1
      ⟨⟨0, 0, 0, 0, 1⟩, ⟨0, 0, 0, 0, 0⟩⟩ =
      .done (EFI_SUCCESS, ⟨⟨0, 0, 0, 0, 1⟩, ⟨0, 3, 0, 0, 0⟩⟩) ∧
    LoadMenderConfig (ascii "editing=0" ++ [0]) 1 ⟨⟨0, 0, 0, 0, 1⟩, ⟨0, 3, 0, 0, 0⟩⟩ =
      .done (EFI_SUCCESS, ⟨⟨0, 0, 0, 0, 1⟩, ⟨0, 3, 0, 0, 0⟩⟩) ∧
    ParseMenderConfig ⟨⟨0, 0, 0, 0, 1⟩, ⟨0, 3, 0, 0, 0⟩⟩ = 3 ∧
    LoadMender (textFiles "bootcount=2" "editing=0" "mender_boot_part=3\nupgrade_available=0"
      "editing=0") MenderEnvPair.zero =
      .done (EFI_INVALID_PARAMETER, ⟨⟨0, 0, 0, 0, 1⟩, ⟨0, 0, 0, 0, 0⟩⟩) ∧
    GetBootSlot ⟨BOOT_FLAGS_MENDER⟩ (miscOk sampleBootInfo)
      (textFiles "bootcount=2" "editing=0" "mender_boot_part=3\nupgrade_available=0"
        "editing=0") sampleBootInfo = .done 0 := by
  decide

set_option maxRecDepth 1000000 in
/-- C10 fails on the code: in redundant-text mode with all four files read
and parsed without error and `editing=1` in both lock files,
`ParseMenderConfig` returns -1 and `GetBootSlot` returns -3. -/
theorem GetBootSlot_mender_both_editing :
    LoadMender (textFiles "mender_boot_part=2" "editing=1" "mender_boot_part=3" "editing=1")
      MenderEnvPair.zero = .done (EFI_SUCCESS, ⟨⟨0, 2, 0, 1, 0⟩, ⟨0, 3, 0, 1, 0⟩⟩) ∧
    ParseMenderConfig ⟨⟨0, 2, 0, 1, 0⟩, ⟨0, 3, 0, 1, 0⟩⟩ = -1 ∧
    GetBootSlot ⟨BOOT_FLAGS_MENDER⟩ (miscOk sampleBootInfo)
      (textFiles "mender_boot_part=2" "editing=1" "mender_boot_part=3" "editing=1")
      sampleBootInfo = .done (-3) := by
  decide

/-! ## Binary scheme: the slot count -/

set_option maxRecDepth 1000000 in
/-- C16 as stated fails: the sample record states one slot (`NbSlot` is 1), its
entry 0 is not bootable and its entry 1 is, and `ParseBootSlot` returns 1,
which is not below the slot count. -/
theorem ParseBootSlot_beyond_NbSlot :
    sampleBootInfoOneSlot.NbSlot = 1 ∧ ParseBootSlot sampleBootInfoOneSlot = 1 := by
  decide

/-- C16, amended: when `ParseBootSlot` returns a slot index `i` (0 or 1), entry
`i` is one of the first two `SlotData` entries and passes `SlotBootable`; the
slot count `NbSlot` is not consulted, and `i` is below it whenever the record
states at least two slots. -/
theorem ParseBootSlot_selected_bootable (r : AB_BOOT_INFO) (i : Nat) (hi : i < 2)
    (h : ParseBootSlot r = (i : Int)) :
    SlotBootable (r.SlotData i) = true ∧ (2 ≤ r.NbSlot → i < r.NbSlot) := by
  refine ⟨?_, fun h2 => by omega⟩
  have hacc : ParseBootSlot r = 0 ∨ ParseBootSlot r = 1 ∨ ParseBootSlot r = -3 := by
    have h01 : i = 0 ∨ i = 1 := by omega
    rcases h01 with h0 | h1
    · left
      rw [h, h0]
      rfl
    · right
      left
      rw [h, h1]
      rfl
  obtain ⟨hM, hC⟩ := ParseBootSlot_accepted_inv r hacc
  rw [ParseBootSlot_of_accepted r hM hC] at h
  have h01 : i = 0 ∨ i = 1 := by omega
  rcases h01 with h0 | h1
  · subst h0
    split_ifs at h with b0 b1 b2
    all_goals first | exact b0 | (exfalso; revert h; decide)
  · subst h1
    split_ifs at h with b0 b1 b2
    all_goals first | assumption | (exfalso; revert h; decide)

set_option maxRecDepth 1000000 in
/-- C16, amended, at the sample record with two slots: slot 0 is returned and
is bootable. -/
theorem ParseBootSlot_selected_bootable_witness :
    (0 : Nat) < 2 ∧ ParseBootSlot sampleBootInfo = ((0 : Nat) : Int) ∧
    SlotBootable (sampleBootInfo.SlotData 0) = true ∧
    (2 ≤ sampleBootInfo.NbSlot → 0 < sampleBootInfo.NbSlot) :=
  ⟨by decide, by decide,
    ParseBootSlot_selected_bootable sampleBootInfo 0 (by decide) (by decide)⟩

/-! ## Text scheme: evaluations of the parser -/

set_option maxRecDepth 1000000 in
/-- C11 fails on the code: `BootCount` is a `UINT8`, so the value of
`bootcount=256` is reduced to 0 before it is tested; `LoadMenderConfig` returns
success, leaves the invalid flag clear, stores the derived value 0 and goes on
to the next line (`editing=1` is stored).  The value 2 is rejected as the claim
says. -/
theorem LoadMenderConfig_bootcount_256 :
    LoadMenderConfig (ascii "bootcount=256\nediting=1" ++ [0]) 0
      ⟨⟨1, 0, 0, 0, 0⟩, ⟨0, 0, 0, 0, 0⟩⟩ =
      .done (EFI_SUCCESS, ⟨⟨0, 0, 0, 1, 0⟩, ⟨0, 0, 0, 0, 0⟩⟩) ∧
    LoadMenderConfig (ascii "bootcount=2\nediting=1" ++ [0]) 0
      ⟨⟨1, 0, 0, 0, 0⟩, ⟨0, 0, 0, 0, 0⟩⟩ =
      .done (EFI_INVALID_PARAMETER, ⟨⟨1, 0, 0, 0, 1⟩, ⟨0, 0, 0, 0, 0⟩⟩) := by
  decide

set_option maxRecDepth 1000000 in
/-- C13 fails on the code: the line `foo=1` has a key that is neither
recognized nor ignorable; it sets the error status but the loop goes on, and the
later line `bootcount=1` still changes `BootCount`.  After the value error of
`bootcount=2` no later line is read. -/
theorem LoadMenderConfig_unknown_key_continues :
    LoadMenderConfig (ascii "foo=1\nbootcount=1" ++ [0]) 0 MenderEnvPair.zero =
      .done (EFI_INVALID_PARAMETER, ⟨⟨1, 0, 0, 0, 0⟩, ⟨0, 0, 0, 0, 0⟩⟩) ∧
    LoadMenderConfig (ascii "bootcount=2\nbootcount=1" ++ [0]) 0 MenderEnvPair.zero =
      .done (EFI_INVALID_PARAMETER, ⟨⟨0, 0, 0, 0, 1⟩, ⟨0, 0, 0, 0, 0⟩⟩) := by
  decide

set_option maxRecDepth 1000000 in
/-- C18 fails on the code: the last line `###` of the NUL-terminated text has
neither `=` nor a line feed, and the scan that starts at offset 12 walks over
the terminator at offset 15 and off the buffer; so does the scan of the text
`foo`.  In the model of `GetNextLine` a text that ends with a line feed is
scanned once more from its terminator on, with the same result. -/
theorem LoadMenderConfig_scan_out_of_bounds :
    ScanAssign (ascii "bootcount=0\n###" ++ [0]) 12 = none ∧
    LoadMenderConfig (ascii "bootcount=0\n###" ++ [0]) 0 MenderEnvPair.zero = .outOfBounds ∧
    LoadMenderConfig (ascii "foo" ++ [0]) 0 MenderEnvPair.zero = .outOfBounds ∧
    LoadMenderConfig (ascii "bootcount=0\n" ++ [0]) 0 MenderEnvPair.zero = .outOfBounds := by
  decide

/-! ## Text scheme: a parse is a field update of one copy -/

theorem MenderEnvPair.set_set (p : MenderEnvPair) (i : Fin 2) (a b : MENDER_ENV_CONFIG) :
    (p.set i a).set i b = p.set i b := by
  fin_cases i <;> simp [MenderEnvPair.set]

theorem MenderEnvPair.set_get (p : MenderEnvPair) (i : Fin 2) : p.set i (p.get i) = p := by
  fin_cases i <;> simp [MenderEnvPair.set, MenderEnvPair.get]

theorem MenderEnvPair.get_set_self (p : MenderEnvPair) (i : Fin 2) (c : MENDER_ENV_CONFIG) :
    (p.set i c).get i = c := by
  rw [MenderEnvPair.get_set, if_pos rfl]

theorem or_bit_mod_idem (x : Nat) (i : Fin 2) :
    ((x ||| (1 <<< i.val)) % 256 ||| (1 <<< i.val)) % 256 = (x ||| (1 <<< i.val)) % 256 := by
  have h256 : (256 : Nat) = 2 ^ 8 := by norm_num
  rw [h256]
  apply Nat.eq_of_testBit_eq
  intro j
  simp only [Nat.testBit_mod_two_pow, Nat.testBit_or]
  cases decide (j < 8) <;> cases x.testBit j <;> cases (1 <<< i.val).testBit j <;> rfl

theorem FieldUpdate.apply_comp (u v : FieldUpdate) (i : Fin 2) (c : MENDER_ENV_CONFIG) :
    v.apply i (u.apply i c) = (u.comp v).apply i c := by
  obtain ⟨ub, up, uu, ue, ui⟩ := u
  obtain ⟨vb, vp, vu, ve, vi⟩ := v
  cases vb <;> cases vp <;> cases vu <;> cases ve <;> cases ui <;> cases vi <;>
    simp [FieldUpdate.apply, FieldUpdate.comp, or_bit_mod_idem]

theorem FieldUpdate.apply_idem (u : FieldUpdate) (i : Fin 2) (c : MENDER_ENV_CONFIG) :
    u.apply i (u.apply i c) = u.apply i c := by
  obtain ⟨ub, up, uu, ue, ui⟩ := u
  cases ub <;> cases up <;> cases uu <;> cases ue <;> cases ui <;>
    simp [FieldUpdate.apply, or_bit_mod_idem]

theorem FieldUpdate.applyPair_comp (u v : FieldUpdate) (i : Fin 2) (cfg : MenderEnvPair) :
    v.applyPair i (u.applyPair i cfg) = (u.comp v).applyPair i cfg := by
  unfold FieldUpdate.applyPair
  rw [MenderEnvPair.get_set_self, MenderEnvPair.set_set, FieldUpdate.apply_comp]

theorem FieldUpdate.applyPair_idem (u : FieldUpdate) (i : Fin 2) (cfg : MenderEnvPair) :
    u.applyPair i (u.applyPair i cfg) = u.applyPair i cfg := by
  unfold FieldUpdate.applyPair
  rw [MenderEnvPair.get_set_self, MenderEnvPair.set_set, FieldUpdate.apply_idem]

theorem FieldUpdate.applyPair_get_ne (u : FieldUpdate) (i j : Fin 2) (cfg : MenderEnvPair)
    (h : j ≠ i) : (u.applyPair i cfg).get j = cfg.get j := by
  unfold FieldUpdate.applyPair
  rw [MenderEnvPair.get_set, if_neg h]

theorem FieldUpdate.applyPair_none (i : Fin 2) (cfg : MenderEnvPair) :
    (FieldUpdate.mk none none none none false).applyPair i cfg = cfg := by
  unfold FieldUpdate.applyPair
  have h : (FieldUpdate.mk none none none none false).apply i (cfg.get i) = cfg.get i := by
    simp [FieldUpdate.apply]
  rw [h, MenderEnvPair.set_get]

theorem LoadMenderConfigLine_update (ConfigFile : List Nat) (DirIdx : Fin 2)
    (CurrLine LineCursor : Nat) (Status : EFI_STATUS) :
    ∃ r : StepUpdate,
      (∀ cfg, LoadMenderConfigLine ConfigFile DirIdx CurrLine LineCursor Status cfg =
        r.inst DirIdx cfg) ∧ r.ok Status := by
  by_cases e1 : ConfigFile.getD LineCursor 0 = 61
  · by_cases b1 : MatchAssignment ConfigFile CurrLine "bootcount" > 0
    · cases hv : AsciiStrDecimalToUintn ConfigFile (LineCursor + 1) with
      | none =>
        exact ⟨.outOfBounds, fun cfg => by
          simp only [LoadMenderConfigLine, e1, b1, hv, if_true, if_false, StepUpdate.inst], trivial⟩
      | some n =>
        by_cases hr : n % 2 ^ 32 % 256 ≠ 0 ∧ n % 2 ^ 32 % 256 ≠ 1
        · exact ⟨.gotoDone EFI_INVALID_PARAMETER ⟨none, none, none, none, true⟩, fun cfg => by
            simp only [LoadMenderConfigLine, e1, b1, hv, if_pos hr, if_true, StepUpdate.inst]
            rfl, rfl, rfl⟩
        · exact ⟨.next Status ⟨some (n % 2 ^ 32 % 256), none, none, none, false⟩, fun cfg => by
            simp only [LoadMenderConfigLine, e1, b1, hv, if_neg hr, if_true, StepUpdate.inst]
            rfl, rfl, Or.inl rfl⟩
    · by_cases b2 : MatchAssignment ConfigFile CurrLine "mender_boot_part" > 0
      · cases hv : AsciiStrDecimalToUintn ConfigFile (LineCursor + 1) with
        | none =>
          exact ⟨.outOfBounds, fun cfg => by
            simp only [LoadMenderConfigLine, e1, b1, b2, hv, if_true, if_false, StepUpdate.inst], trivial⟩
        | some n =>
          by_cases hr : n % 2 ^ 32 ≠ MenderRootfsPartA ∧ n % 2 ^ 32 ≠ MenderRootfsPartB
          · exact ⟨.gotoDone EFI_INVALID_PARAMETER ⟨none, none, none, none, true⟩, fun cfg => by
              simp only [LoadMenderConfigLine, e1, b1, b2, hv, if_pos hr, if_true, if_false,
                StepUpdate.inst]
              rfl, rfl, rfl⟩
          · exact ⟨.next Status ⟨none, some (n % 2 ^ 32), none, none, false⟩, fun cfg => by
              simp only [LoadMenderConfigLine, e1, b1, b2, hv, if_neg hr, if_true, if_false,
                StepUpdate.inst]
              rfl, rfl, Or.inl rfl⟩
      · by_cases b3 : MatchAssignment ConfigFile CurrLine "upgrade_available" > 0
        · cases hv : AsciiStrDecimalToUintn ConfigFile (LineCursor + 1) with
          | none =>
            exact ⟨.outOfBounds, fun cfg => by
              simp only [LoadMenderConfigLine, e1, b1, b2, b3, hv, if_true, if_false, StepUpdate.inst], trivial⟩
          | some n =>
            by_cases hr : n % 2 ^ 32 ≠ 0 ∧ n % 2 ^ 32 ≠ 1
            · exact ⟨.gotoDone EFI_INVALID_PARAMETER ⟨none, none, none, none, true⟩,
                fun cfg => by
                  simp only [LoadMenderConfigLine, e1, b1, b2, b3, hv, if_pos hr, if_true,
                    if_false, StepUpdate.inst]
                  rfl, rfl, rfl⟩
            · exact ⟨.next Status ⟨none, none, some (n % 2 ^ 32), none, false⟩, fun cfg => by
                simp only [LoadMenderConfigLine, e1, b1, b2, b3, hv, if_neg hr, if_true,
                  if_false, StepUpdate.inst]
                rfl, rfl, Or.inl rfl⟩
        · by_cases b4 : MatchAssignment ConfigFile CurrLine "editing" > 0
          · cases hv : AsciiStrDecimalToUintn ConfigFile (LineCursor + 1) with
            | none =>
              exact ⟨.outOfBounds, fun cfg => by
                simp only [LoadMenderConfigLine, e1, b1, b2, b3, b4, hv, if_true, if_false, StepUpdate.inst], trivial⟩
            | some n =>
              exact ⟨.next Status ⟨none, none, none, some (n % 2 ^ 32), false⟩, fun cfg => by
                simp only [LoadMenderConfigLine, e1, b1, b2, b3, b4, hv, if_true, if_false,
                  StepUpdate.inst]
                rfl, rfl, Or.inl rfl⟩
          · by_cases b5 : MatchAssignment ConfigFile CurrLine "mender_boot_part_hex" > 0 ∨
                MatchAssignment ConfigFile CurrLine "mender_uboot_separator" > 0 ∨
                MatchAssignment ConfigFile CurrLine "systemd_machine_id" > 0 ∨
                MatchAssignment ConfigFile CurrLine "mender_systemd_machine_id" > 0
            · exact ⟨.next Status ⟨none, none, none, none, false⟩, fun cfg => by
                simp only [LoadMenderConfigLine, e1, b1, b2, b3, b4, if_pos b5, if_true,
                  if_false, StepUpdate.inst, FieldUpdate.applyPair_none], rfl, Or.inl rfl⟩
            · exact ⟨.next EFI_INVALID_PARAMETER ⟨none, none, none, none, false⟩, fun cfg => by
                simp only [LoadMenderConfigLine, e1, b1, b2, b3, b4, if_neg b5, if_true,
                  if_false, StepUpdate.inst, FieldUpdate.applyPair_none], rfl, Or.inr rfl⟩
  · exact ⟨.next Status ⟨none, none, none, none, false⟩, fun cfg => by
      simp only [LoadMenderConfigLine, e1, if_false, StepUpdate.inst,
        FieldUpdate.applyPair_none], rfl, Or.inl rfl⟩

theorem LoadMenderConfigLoop_update (ConfigFile : List Nat) (DirIdx : Fin 2) (fuel : Nat) :
    ∀ (CurrLine : Nat) (Status : EFI_STATUS),
      ∃ o : Outcome (EFI_STATUS × FieldUpdate),
        (∀ cfg, LoadMenderConfigLoop ConfigFile DirIdx fuel CurrLine Status cfg =
          o.map fun r => (r.1, r.2.applyPair DirIdx cfg)) ∧
        (∀ s u, o = .done (s, u) → EFI_ERROR Status = true → EFI_ERROR s = true) := by
  induction fuel with
  | zero =>
    intro CurrLine Status
    exact ⟨.outOfFuel, fun cfg => rfl, fun s u h => by cases h⟩
  | succ n ih =>
    intro CurrLine Status
    cases hg : GetNextLine ConfigFile CurrLine with
    | none =>
      exact ⟨.outOfBounds, fun cfg => by simp only [LoadMenderConfigLoop, hg, Outcome.map],
        fun s u h => by cases h⟩
    | some NextLine =>
      cases hs : ScanAssign ConfigFile CurrLine with
      | none =>
        exact ⟨.outOfBounds, fun cfg => by simp only [LoadMenderConfigLoop, hg, hs, Outcome.map],
          fun s u h => by cases h⟩
      | some LineCursor =>
        obtain ⟨r, hr, hok⟩ :=
          LoadMenderConfigLine_update ConfigFile DirIdx CurrLine LineCursor Status
        cases r with
        | outOfBounds =>
          exact ⟨.outOfBounds, fun cfg => by
            simp only [LoadMenderConfigLoop, hg, hs, hr cfg, StepUpdate.inst, Outcome.map],
            fun s u h => by cases h⟩
        | gotoDone s1 u1 =>
          refine ⟨.done (s1, u1), fun cfg => by
            simp only [LoadMenderConfigLoop, hg, hs, hr cfg, StepUpdate.inst, Outcome.map], ?_⟩
          intro s u h _
          simp only [Outcome.done.injEq, Prod.mk.injEq] at h
          rw [← h.1, hok.2]
          rfl
        | next s1 u1 =>
          have hs1 : EFI_ERROR Status = true → EFI_ERROR s1 = true := by
            intro he
            rcases hok.2 with h | h
            · rw [h]
              exact he
            · rw [h]
              rfl
          cases NextLine with
          | none =>
            refine ⟨.done (s1, u1), fun cfg => by
              simp only [LoadMenderConfigLoop, hg, hs, hr cfg, StepUpdate.inst, Outcome.map], ?_⟩
            intro s u h he
            simp only [Outcome.done.injEq, Prod.mk.injEq] at h
            rw [← h.1]
            exact hs1 he
          | some CurrLine1 =>
            obtain ⟨o1, ho1, hp1⟩ := ih CurrLine1 s1
            refine ⟨o1.map fun r => (r.1, u1.comp r.2), fun cfg => ?_, ?_⟩
            · simp only [LoadMenderConfigLoop, hg, hs, hr cfg, StepUpdate.inst]
              rw [ho1]
              cases o1 with
              | done a =>
                simp only [Outcome.map, FieldUpdate.applyPair_comp]
              | outOfBounds => rfl
              | outOfFuel => rfl
              | divideByZero => rfl
            · intro s u h he
              cases o1 with
              | done a =>
                simp only [Outcome.map, Outcome.done.injEq, Prod.mk.injEq] at h
                exact h.1 ▸ hp1 a.1 a.2 rfl (hs1 he)
              | outOfBounds => cases h
              | outOfFuel => cases h
              | divideByZero => cases h

theorem LoadMenderConfig_update (ConfigFile : List Nat) (DirIdx : Fin 2) :
    ∃ o : Outcome (EFI_STATUS × FieldUpdate),
      ∀ cfg, LoadMenderConfig ConfigFile DirIdx cfg =
        o.map fun r => (r.1, r.2.applyPair DirIdx cfg) := by
  obtain ⟨o, ho, _⟩ :=
    LoadMenderConfigLoop_update ConfigFile DirIdx (ConfigFile.length + 1) 0 EFI_SUCCESS
  exact ⟨o, fun cfg => ho cfg⟩

/-- C17: running `LoadMenderConfig` on the same text a second time, on the
pair the first run leaves, gives the status and the pair of the first run (a
run that leaves the buffer does so both times); the decision of
`ParseMenderConfig` is therefore the same. -/
theorem LoadMenderConfig_idempotent (ConfigFile : List Nat) (DirIdx : Fin 2)
    (cfg : MenderEnvPair) :
    ((LoadMenderConfig ConfigFile DirIdx cfg).bind fun r =>
        LoadMenderConfig ConfigFile DirIdx r.2) = LoadMenderConfig ConfigFile DirIdx cfg ∧
    ∀ (Status : EFI_STATUS) (cfg1 : MenderEnvPair),
      LoadMenderConfig ConfigFile DirIdx cfg = .done (Status, cfg1) →
      LoadMenderConfig ConfigFile DirIdx cfg1 = .done (Status, cfg1) ∧
      ∀ (Status2 : EFI_STATUS) (cfg2 : MenderEnvPair),
        LoadMenderConfig ConfigFile DirIdx cfg1 = .done (Status2, cfg2) →
        Status2 = Status ∧ cfg2 = cfg1 ∧ ParseMenderConfig cfg2 = ParseMenderConfig cfg1 := by
  obtain ⟨o, ho⟩ := LoadMenderConfig_update ConfigFile DirIdx
  have hsecond : ∀ (Status : EFI_STATUS) (cfg1 : MenderEnvPair),
      LoadMenderConfig ConfigFile DirIdx cfg = .done (Status, cfg1) →
      LoadMenderConfig ConfigFile DirIdx cfg1 = .done (Status, cfg1) := by
    intro Status cfg1 h
    rw [ho cfg] at h
    cases o with
    | done a =>
      simp only [Outcome.map, Outcome.done.injEq, Prod.mk.injEq] at h
      rw [ho cfg1, ← h.2, ← h.1]
      simp only [Outcome.map, FieldUpdate.applyPair_idem]
    | outOfBounds => cases h
    | outOfFuel => cases h
    | divideByZero => cases h
  constructor
  · cases h : LoadMenderConfig ConfigFile DirIdx cfg with
    | done a =>
      obtain ⟨Status, cfg1⟩ := a
      simp only [Outcome.bind]
      exact hsecond Status cfg1 h
    | outOfBounds => rfl
    | outOfFuel => rfl
    | divideByZero => rfl
  · intro Status cfg1 h
    refine ⟨hsecond Status cfg1 h, ?_⟩
    intro Status2 cfg2 h2
    rw [hsecond Status cfg1 h] at h2
    simp only [Outcome.done.injEq, Prod.mk.injEq] at h2
    refine ⟨h2.1.symm, h2.2.symm, ?_⟩
    rw [← h2.2]

/-- C19: `LoadMenderConfig` changes only the copy at index `DirIdx`: whatever
status it returns, every field of the other copy is as it was before. -/
theorem LoadMenderConfig_frame (ConfigFile : List Nat) (DirIdx : Fin 2) (cfg : MenderEnvPair)
    (Status : EFI_STATUS) (cfg1 : MenderEnvPair)
    (h : LoadMenderConfig ConfigFile DirIdx cfg = .done (Status, cfg1)) :
    ∀ j : Fin 2, j ≠ DirIdx → cfg1.get j = cfg.get j := by
  obtain ⟨o, ho⟩ := LoadMenderConfig_update ConfigFile DirIdx
  rw [ho cfg] at h
  intro j hj
  cases o with
  | done a =>
    simp only [Outcome.map, Outcome.done.injEq, Prod.mk.injEq] at h
    rw [← h.2]
    exact FieldUpdate.applyPair_get_ne _ _ _ _ hj
  | outOfBounds => cases h
  | outOfFuel => cases h
  | divideByZero => cases h

set_option maxRecDepth 1000000 in
/-- C19 at a sample: a parse for copy 1 that assigns two fields leaves copy 0
as it was. -/
theorem LoadMenderConfig_frame_witness :
    LoadMenderConfig (ascii "bootcount=1\nediting=1" ++ [0]) 1
      ⟨⟨0, 2, 1, 0, 0⟩, ⟨0, 3, 0, 0, 0⟩⟩ =
      .done (EFI_SUCCESS, ⟨⟨0, 2, 1, 0, 0⟩, ⟨1, 3, 0, 1, 0⟩⟩) ∧
    (MenderEnvPair.mk ⟨0, 2, 1, 0, 0⟩ ⟨1, 3, 0, 1, 0⟩).get 0 =
      (MenderEnvPair.mk ⟨0, 2, 1, 0, 0⟩ ⟨0, 3, 0, 0, 0⟩).get 0 :=
  ⟨by decide,
    LoadMenderConfig_frame (ascii "bootcount=1\nediting=1" ++ [0]) 1
      ⟨⟨0, 2, 1, 0, 0⟩, ⟨0, 3, 0, 0, 0⟩⟩ EFI_SUCCESS ⟨⟨0, 2, 1, 0, 0⟩, ⟨1, 3, 0, 1, 0⟩⟩
      (by decide) 0 (by decide)⟩

/-! ## Text scheme: the invalid flag set and the invalid flag tested -/

theorem LoadMenderConfigLoopExit_erase (ConfigFile : List Nat) (DirIdx : Fin 2) (fuel : Nat) :
    ∀ (CurrLine : Nat) (Status : EFI_STATUS) (cfg : MenderEnvPair),
      LoadMenderConfigLoop ConfigFile DirIdx fuel CurrLine Status cfg =
        (LoadMenderConfigLoopExit ConfigFile DirIdx fuel CurrLine Status cfg).map
          fun r => r.2 := by
  induction fuel with
  | zero =>
    intro CurrLine Status cfg
    rfl
  | succ n ih =>
    intro CurrLine Status cfg
    rw [LoadMenderConfigLoop, LoadMenderConfigLoopExit]
    cases hg : GetNextLine ConfigFile CurrLine with
    | none => rfl
    | some NextLine =>
      cases hs : ScanAssign ConfigFile CurrLine with
      | none => rfl
      | some LineCursor =>
        cases hl : LoadMenderConfigLine ConfigFile DirIdx CurrLine LineCursor Status cfg with
        | outOfBounds =>
          simp only [hl]
          rfl
        | gotoDone Status1 cfg1 =>
          simp only [hl]
          rfl
        | next Status1 cfg1 =>
          simp only [hl]
          cases NextLine with
          | none => rfl
          | some CurrLine1 => exact ih CurrLine1 Status1 cfg1

theorem LoadMenderConfigExit_erase (ConfigFile : List Nat) (DirIdx : Fin 2)
    (cfg : MenderEnvPair) :
    LoadMenderConfig ConfigFile DirIdx cfg =
      (LoadMenderConfigExit ConfigFile DirIdx cfg).map fun r => r.2 :=
  LoadMenderConfigLoopExit_erase ConfigFile DirIdx _ 0 EFI_SUCCESS cfg

theorem one_shiftLeft_testBit (i : Fin 2) (j : Nat) (h : (1 <<< i.val).testBit j = true) :
    j < 8 := by
  rw [Nat.one_shiftLeft, Nat.testBit_two_pow] at h
  have hi := i.isLt
  have hj : i.val = j := by simpa using h
  omega

theorem or_bit_mod_and (x : Nat) (i : Fin 2) :
    (x ||| (1 <<< i.val)) % 256 &&& (1 <<< i.val) ≠ 0 := by
  have h256 : (256 : Nat) = 2 ^ 8 := by norm_num
  intro h
  have hb : ((x ||| (1 <<< i.val)) % 256 &&& (1 <<< i.val)).testBit i.val = true := by
    rw [h256, Nat.testBit_and, Nat.testBit_mod_two_pow, Nat.testBit_or]
    have h1 : (1 <<< i.val).testBit i.val = true := by
      rw [Nat.one_shiftLeft, Nat.testBit_two_pow]
      simp
    have h2 : decide (i.val < 8) = true := by
      have hi := i.isLt
      simp
      omega
    rw [h1, h2]
    simp
  rw [h] at hb
  simp at hb

theorem LoadMenderConfigLoopExit_flag (ConfigFile : List Nat) (DirIdx : Fin 2) (fuel : Nat) :
    ∀ (CurrLine : Nat) (Status : EFI_STATUS) (cfg : MenderEnvPair) (Status1 : EFI_STATUS)
      (cfg1 : MenderEnvPair),
      LoadMenderConfigLoopExit ConfigFile DirIdx fuel CurrLine Status cfg =
        .done (true, Status1, cfg1) →
      Status1 = EFI_INVALID_PARAMETER ∧
        (cfg1.get DirIdx).ConfigInvalid &&& (1 <<< DirIdx.val) ≠ 0 := by
  induction fuel with
  | zero =>
    intro CurrLine Status cfg Status1 cfg1 h
    simp [LoadMenderConfigLoopExit] at h
  | succ n ih =>
    intro CurrLine Status cfg Status1 cfg1 h
    rw [LoadMenderConfigLoopExit] at h
    cases hg : GetNextLine ConfigFile CurrLine with
    | none => simp [hg] at h
    | some NextLine =>
      cases hs : ScanAssign ConfigFile CurrLine with
      | none => simp [hg, hs] at h
      | some LineCursor =>
        obtain ⟨r, hr, hok⟩ :=
          LoadMenderConfigLine_update ConfigFile DirIdx CurrLine LineCursor Status
        simp only [hg, hs, hr cfg] at h
        cases r with
        | outOfBounds => simp [StepUpdate.inst] at h
        | gotoDone s1 u1 =>
          simp only [StepUpdate.inst, Outcome.done.injEq, Prod.mk.injEq, true_and] at h
          refine ⟨h.1 ▸ hok.2, ?_⟩
          rw [← h.2, hok.1]
          unfold FieldUpdate.applyPair
          rw [MenderEnvPair.get_set_self]
          simp only [FieldUpdate.apply, if_true]
          exact or_bit_mod_and _ _
        | next s1 u1 =>
          simp only [StepUpdate.inst] at h
          cases NextLine with
          | none => simp at h
          | some CurrLine1 =>
            simp only [] at h
            exact ih CurrLine1 s1 _ Status1 cfg1 h

theorem ParseMenderConfig_of_select {cfg : MenderEnvPair} {i : Fin 2}
    (h : MenderSelectIndex cfg = some i) :
    ParseMenderConfig cfg = MenderBootTarget (cfg.get i) := by
  unfold ParseMenderConfig
  rw [h]

theorem ParseMenderConfig_of_none {cfg : MenderEnvPair} (h : MenderSelectIndex cfg = none) :
    ParseMenderConfig cfg = -1 := by
  unfold ParseMenderConfig
  rw [h]

/-- C20: when `LoadMenderConfig` fails with an out-of-range value for copy
`DirIdx` (it leaves through `goto Done`), it returns an error and the pair it
leaves has the invalid flag of that copy set in the bit `ParseMenderConfig`
tests: the copy is not trusted and is never selected; `ParseMenderConfig` uses
the other copy when that one is trusted and returns -1 otherwise; and the
other copy is trusted after the call exactly when it was before. -/
theorem LoadMenderConfig_invalid_flag (ConfigFile : List Nat) (DirIdx : Fin 2)
    (cfg : MenderEnvPair) (Status : EFI_STATUS) (cfg1 : MenderEnvPair)
    (h : LoadMenderConfigExit ConfigFile DirIdx cfg = .done (true, Status, cfg1)) :
    LoadMenderConfig ConfigFile DirIdx cfg = .done (Status, cfg1) ∧
    EFI_ERROR Status = true ∧
    ¬ MenderTrusted cfg1 DirIdx ∧
    MenderSelectIndex cfg1 ≠ some DirIdx ∧
    ∀ j : Fin 2, j ≠ DirIdx →
      (MenderTrusted cfg1 j ↔ MenderTrusted cfg j) ∧
      (MenderTrusted cfg1 j → ParseMenderConfig cfg1 = MenderBootTarget (cfg1.get j)) ∧
      (¬ MenderTrusted cfg1 j → ParseMenderConfig cfg1 = -1) := by
  have hrun : LoadMenderConfig ConfigFile DirIdx cfg = .done (Status, cfg1) := by
    rw [LoadMenderConfigExit_erase, h]
    rfl
  obtain ⟨hst, hbit⟩ := LoadMenderConfigLoopExit_flag ConfigFile DirIdx _ 0 EFI_SUCCESS cfg
    Status cfg1 h
  have hnot : ¬ MenderTrusted cfg1 DirIdx := fun ht => hbit ht.2
  have hsel : MenderSelectIndex cfg1 ≠ some DirIdx :=
    fun hs => hnot (MenderSelectIndex_trusted hs)
  refine ⟨hrun, by rw [hst]; rfl, hnot, hsel, ?_⟩
  intro j hj
  have hframe : cfg1.get j = cfg.get j := by
    obtain ⟨o, ho⟩ := LoadMenderConfig_update ConfigFile DirIdx
    rw [ho cfg] at hrun
    cases o with
    | done a =>
      simp only [Outcome.map, Outcome.done.injEq, Prod.mk.injEq] at hrun
      rw [← hrun.2]
      exact FieldUpdate.applyPair_get_ne _ _ _ _ hj
    | outOfBounds => cases hrun
    | outOfFuel => cases hrun
    | divideByZero => cases hrun
  refine ⟨by unfold MenderTrusted; rw [hframe], ?_, ?_⟩
  · intro ht
    have hs : MenderSelectIndex cfg1 = some j := by
      by_cases h0 : MenderTrusted cfg1 0
      · have hj0 : j = 0 := by
          by_contra hne
          have hd : DirIdx = 0 := by omega
          rw [hd] at hnot
          exact hnot h0
        rw [hj0]
        exact MenderSelectIndex_zero h0
      · have hj1 : j = 1 := by
          by_contra hne
          have hj0 : j = 0 := by omega
          rw [hj0] at ht
          exact h0 ht
        rw [hj1] at ht ⊢
        exact MenderSelectIndex_one h0 ht
    exact ParseMenderConfig_of_select hs
  · intro hnt
    apply ParseMenderConfig_of_none
    apply MenderSelectIndex_none
    · intro h0
      by_cases hd : DirIdx = 0
      · rw [hd] at hnot
        exact hnot h0
      · have hj0 : j = 0 := by omega
        rw [hj0] at hnt
        exact hnt h0
    · intro h1
      by_cases hd : DirIdx = 1
      · rw [hd] at hnot
        exact hnot h1
      · have hj1 : j = 1 := by omega
        rw [hj1] at hnt
        exact hnt h1

set_option maxRecDepth 1000000 in
/-- C20 at a sample: copy 0 is parsed from a text with `bootcount=2` while
copy 1 is clean; the parse fails, copy 0 is marked, and `ParseMenderConfig`
decides from copy 1 (RootfsB). -/
theorem LoadMenderConfig_invalid_flag_witness :
    LoadMenderConfigExit (ascii "editing=0\nbootcount=2" ++ [0]) 0
      ⟨⟨0, 2, 0, 0, 0⟩, ⟨0, 3, 0, 0, 0⟩⟩ =
      .done (true, EFI_INVALID_PARAMETER, ⟨⟨0, 2, 0, 0, 1⟩, ⟨0, 3, 0, 0, 0⟩⟩) ∧
    MenderTrusted ⟨⟨0, 2, 0, 0, 1⟩, ⟨0, 3, 0, 0, 0⟩⟩ 1 ∧
    ParseMenderConfig ⟨⟨0, 2, 0, 0, 1⟩, ⟨0, 3, 0, 0, 0⟩⟩ =
      MenderBootTarget ((MenderEnvPair.mk ⟨0, 2, 0, 0, 1⟩ ⟨0, 3, 0, 0, 0⟩).get 1) :=
  ⟨by decide, by decide,
    ((LoadMenderConfig_invalid_flag (ascii "editing=0\nbootcount=2" ++ [0]) 0
      ⟨⟨0, 2, 0, 0, 0⟩, ⟨0, 3, 0, 0, 0⟩⟩ EFI_INVALID_PARAMETER
      ⟨⟨0, 2, 0, 0, 1⟩, ⟨0, 3, 0, 0, 0⟩⟩ (by decide)).2.2.2.2 1 (by decide)).2.1
      (by decide)⟩

/-! ## Text scheme: the loop seen from the start of a line -/

theorem GetNextLineFrom_shift (s : List Nat) :
    ∀ p : Nat, GetNextLineFrom s p = (GetNextLineFrom s 0).map (Option.map fun q => q + p) := by
  induction s with
  | nil =>
    intro p
    rfl
  | cons c t ih =>
    intro p
    rw [GetNextLineFrom, GetNextLineFrom]
    split_ifs with h0 h10
    · rfl
    · simp only [Option.map_some', Option.some.injEq]
      omega
    · rw [ih (p + 1), ih (0 + 1)]
      cases GetNextLineFrom t 0 with
      | none => rfl
      | some nl =>
        cases nl with
        | none => rfl
        | some q =>
          simp only [Option.map_some', Option.some.injEq]
          omega

theorem ScanAssignFrom_shift (s : List Nat) :
    ∀ p : Nat, ScanAssignFrom s p = (ScanAssignFrom s 0).map fun q => q + p := by
  induction s with
  | nil =>
    intro p
    rfl
  | cons c t ih =>
    intro p
    rw [ScanAssignFrom, ScanAssignFrom]
    split_ifs with h
    · simp
    · rw [ih (p + 1), ih (0 + 1)]
      cases ScanAssignFrom t 0 with
      | none => rfl
      | some q =>
        simp only [Option.map_some', Option.some.injEq]
        omega

theorem getD_drop (buf : List Nat) (p k : Nat) :
    buf.getD (k + p) 0 = (buf.drop p).getD k 0 := by
  rw [List.getD_eq_getElem?_getD, List.getD_eq_getElem?_getD, List.getElem?_drop,
    Nat.add_comm]

theorem MatchAssignment_drop (buf : List Nat) (p : Nat) (Variable : String) :
    MatchAssignment buf p Variable = MatchAssignment (buf.drop p) 0 Variable := by
  unfold MatchAssignment
  rw [List.drop_zero]

theorem AsciiStrDecimalToUintn_drop (buf : List Nat) (p k : Nat) :
    AsciiStrDecimalToUintn buf (k + p) = AsciiStrDecimalToUintn (buf.drop p) k := by
  unfold AsciiStrDecimalToUintn
  rw [List.drop_drop, Nat.add_comm]

theorem LoadMenderConfigLine_drop (buf : List Nat) (DirIdx : Fin 2) (p k : Nat)
    (Status : EFI_STATUS) (cfg : MenderEnvPair) :
    LoadMenderConfigLine buf DirIdx p (k + p) Status cfg =
      LoadMenderConfigLine (buf.drop p) DirIdx 0 k Status cfg := by
  have hk : k + p + 1 = (k + 1) + p := by omega
  unfold LoadMenderConfigLine
  simp only [getD_drop, MatchAssignment_drop buf p, hk, AsciiStrDecimalToUintn_drop]

theorem LoadMenderConfigLoop_drop (DirIdx : Fin 2) (fuel : Nat) :
    ∀ (buf : List Nat) (p : Nat) (Status : EFI_STATUS) (cfg : MenderEnvPair),
      LoadMenderConfigLoop buf DirIdx fuel p Status cfg =
        LoadMenderConfigLoop (buf.drop p) DirIdx fuel 0 Status cfg := by
  induction fuel with
  | zero =>
    intro buf p Status cfg
    rfl
  | succ n ih =>
    intro buf p Status cfg
    rw [LoadMenderConfigLoop, LoadMenderConfigLoop]
    have hg : GetNextLine buf p =
        (GetNextLine (buf.drop p) 0).map (Option.map fun q => q + p) := by
      unfold GetNextLine
      rw [List.drop_zero, GetNextLineFrom_shift]
    have hs : ScanAssign buf p = (ScanAssign (buf.drop p) 0).map fun q => q + p := by
      unfold ScanAssign
      rw [List.drop_zero, ScanAssignFrom_shift]
    rw [hg, hs]
    cases GetNextLine (buf.drop p) 0 with
    | none => rfl
    | some NextLine =>
      cases ScanAssign (buf.drop p) 0 with
      | none => rfl
      | some LineCursor =>
        simp only [Option.map_some', LoadMenderConfigLine_drop]
        cases hl : LoadMenderConfigLine (buf.drop p) DirIdx 0 LineCursor Status cfg with
        | outOfBounds => rfl
        | gotoDone Status1 cfg1 => rfl
        | next Status1 cfg1 =>
          cases NextLine with
          | none => rfl
          | some q =>
            simp only [Option.map_some']
            rw [ih buf (q + p), ih (buf.drop p) q, List.drop_drop, Nat.add_comm]

theorem LoadMenderConfigLoop_fuel_add (buf : List Nat) (DirIdx : Fin 2) (fuel : Nat) :
    ∀ (p : Nat) (Status : EFI_STATUS) (cfg : MenderEnvPair) (k : Nat),
      LoadMenderConfigLoop buf DirIdx fuel p Status cfg ≠ .outOfFuel →
      LoadMenderConfigLoop buf DirIdx (fuel + k) p Status cfg =
        LoadMenderConfigLoop buf DirIdx fuel p Status cfg := by
  induction fuel with
  | zero =>
    intro p Status cfg k h
    exact absurd rfl h
  | succ n ih =>
    intro p Status cfg k h
    have hk : n + 1 + k = (n + k) + 1 := by omega
    rw [hk]
    rw [LoadMenderConfigLoop] at h ⊢
    rw [LoadMenderConfigLoop]
    cases hg : GetNextLine buf p with
    | none => rfl
    | some NextLine =>
      cases hs : ScanAssign buf p with
      | none => rfl
      | some LineCursor =>
        cases hl : LoadMenderConfigLine buf DirIdx p LineCursor Status cfg with
        | outOfBounds => simp only [hl]
        | gotoDone Status1 cfg1 => simp only [hl]
        | next Status1 cfg1 =>
          simp only [hl]
          cases NextLine with
          | none => rfl
          | some q =>
            simp only [hg, hs, hl] at h
            exact ih q Status1 cfg1 k h

theorem ParseFrom_unfold (s : List Nat) (DirIdx : Fin 2) (Status : EFI_STATUS)
    (cfg : MenderEnvPair) :
    ParseFrom s DirIdx Status cfg =
      match GetNextLine s 0 with
      | none => .outOfBounds
      | some NextLine =>
        match ScanAssign s 0 with
        | none => .outOfBounds
        | some LineCursor =>
          match LoadMenderConfigLine s DirIdx 0 LineCursor Status cfg with
          | .outOfBounds => .outOfBounds
          | .gotoDone Status1 cfg1 => .done (Status1, cfg1)
          | .next Status1 cfg1 =>
            match NextLine with
            | none => .done (Status1, cfg1)
            | some q => ParseFrom (s.drop q) DirIdx Status1 cfg1 := by
  unfold ParseFrom
  rw [LoadMenderConfigLoop]
  cases hg : GetNextLine s 0 with
  | none => rfl
  | some NextLine =>
    cases hs : ScanAssign s 0 with
    | none => rfl
    | some LineCursor =>
      cases hl : LoadMenderConfigLine s DirIdx 0 LineCursor Status cfg with
      | outOfBounds => simp only [hl]
      | gotoDone Status1 cfg1 => simp only [hl]
      | next Status1 cfg1 =>
        simp only [hl]
        cases NextLine with
        | none => rfl
        | some q =>
          simp only []
          have hb := GetNextLine_bound s 0 q (Nat.zero_le _) hg
          have hlen : s.length = ((s.drop q).length + 1) + (q - 1) := by
            rw [List.length_drop]
            omega
          rw [LoadMenderConfigLoop_drop]
          conv => lhs; rw [hlen]
          exact LoadMenderConfigLoop_fuel_add _ _ _ _ _ _ _
            (LoadMenderConfigLoop_ne_outOfFuel _ _ _ _ _ _ (Nat.zero_le _) (by omega))

theorem LoadMenderConfig_eq_ParseFrom (ConfigFile : List Nat) (DirIdx : Fin 2)
    (cfg : MenderEnvPair) :
    LoadMenderConfig ConfigFile DirIdx cfg = ParseFrom ConfigFile DirIdx EFI_SUCCESS cfg :=
  rfl

theorem GetNextLineFrom_line (l : List Nat) (h10 : 10 ∉ l) (h0 : 0 ∉ l) (X : List Nat) :
    ∀ p : Nat, GetNextLineFrom (l ++ 10 :: X) p = some (some (p + l.length + 1)) := by
  induction l with
  | nil =>
    intro p
    simp [GetNextLineFrom]
  | cons c t ih =>
    intro p
    have hc0 : c ≠ 0 := fun h => h0 (by rw [h]; exact List.mem_cons_self _ _)
    have hc10 : c ≠ 10 := fun h => h10 (by rw [h]; exact List.mem_cons_self _ _)
    rw [List.cons_append, GetNextLineFrom, if_neg hc0, if_neg hc10,
      ih (fun h => h10 (List.mem_cons_of_mem _ h)) (fun h => h0 (List.mem_cons_of_mem _ h))]
    simp only [List.length_cons, Option.some.injEq]
    omega

theorem GetNextLineFrom_last (l : List Nat) (h10 : 10 ∉ l) (h0 : 0 ∉ l) (X : List Nat) :
    ∀ p : Nat, GetNextLineFrom (l ++ 0 :: X) p = some none := by
  induction l with
  | nil =>
    intro p
    simp [GetNextLineFrom]
  | cons c t ih =>
    intro p
    have hc0 : c ≠ 0 := fun h => h0 (by rw [h]; exact List.mem_cons_self _ _)
    have hc10 : c ≠ 10 := fun h => h10 (by rw [h]; exact List.mem_cons_self _ _)
    rw [List.cons_append, GetNextLineFrom, if_neg hc0, if_neg hc10,
      ih (fun h => h10 (List.mem_cons_of_mem _ h)) (fun h => h0 (List.mem_cons_of_mem _ h))]

theorem ScanIdx_le (l : List Nat) : ScanIdx l ≤ l.length := by
  induction l with
  | nil => simp [ScanIdx]
  | cons c t ih =>
    rw [ScanIdx]
    split_ifs
    · omega
    · rw [List.length_cons]
      omega

theorem ScanIdx_lt_of_mem (l : List Nat) (h : 61 ∈ l) : ScanIdx l < l.length := by
  induction l with
  | nil => simp at h
  | cons c t ih =>
    rw [ScanIdx, List.length_cons]
    split_ifs with hc
    · omega
    · have ht : 61 ∈ t := by
        rcases List.mem_cons.mp h with h1 | h1
        · exact absurd h1.symm hc
        · exact h1
      have := ih ht
      omega

theorem ScanIdx_getD_of_mem (l : List Nat) (h : 61 ∈ l) (Y : List Nat) :
    (l ++ Y).getD (ScanIdx l) 0 = 61 := by
  induction l with
  | nil => simp at h
  | cons c t ih =>
    rw [ScanIdx]
    split_ifs with hc
    · simp [hc]
    · have ht : 61 ∈ t := by
        rcases List.mem_cons.mp h with h1 | h1
        · exact absurd h1.symm hc
        · exact h1
      simpa using ih ht

theorem ScanIdx_of_not_mem (l : List Nat) (h : 61 ∉ l) : ScanIdx l = l.length := by
  induction l with
  | nil => rfl
  | cons c t ih =>
    have hc : c ≠ 61 := fun hc => h (by rw [hc]; exact List.mem_cons_self _ _)
    rw [ScanIdx, if_neg hc, ih (fun ht => h (List.mem_cons_of_mem _ ht)), List.length_cons]

theorem ScanAssignFrom_line (l : List Nat) (h10 : 10 ∉ l) (X : List Nat) :
    ∀ p : Nat, ScanAssignFrom (l ++ 10 :: X) p = some (p + ScanIdx l) := by
  induction l with
  | nil =>
    intro p
    simp [ScanAssignFrom, ScanIdx]
  | cons c t ih =>
    intro p
    have hc10 : c ≠ 10 := fun h => h10 (by rw [h]; exact List.mem_cons_self _ _)
    rw [List.cons_append, ScanAssignFrom, ScanIdx]
    by_cases hc : c = 61
    · simp [hc]
    · rw [if_neg (by simp [hc, hc10]), if_neg hc, ih (fun h => h10 (List.mem_cons_of_mem _ h))]
      simp only [Option.some.injEq]
      omega

theorem ScanAssignFrom_last_mem (l : List Nat) (h10 : 10 ∉ l) (h : 61 ∈ l) (Y : List Nat) :
    ∀ p : Nat, ScanAssignFrom (l ++ Y) p = some (p + ScanIdx l) := by
  induction l with
  | nil => simp at h
  | cons c t ih =>
    intro p
    have hc10 : c ≠ 10 := fun h => h10 (by rw [h]; exact List.mem_cons_self _ _)
    rw [List.cons_append, ScanAssignFrom, ScanIdx]
    by_cases hc : c = 61
    · simp [hc]
    · have ht : 61 ∈ t := by
        rcases List.mem_cons.mp h with h1 | h1
        · exact absurd h1.symm hc
        · exact h1
      rw [if_neg (by simp [hc, hc10]), if_neg hc, ih (fun h => h10 (List.mem_cons_of_mem _ h)) ht]
      simp only [Option.some.injEq]
      omega

theorem ScanAssignFrom_last_not_mem (l : List Nat) (h10 : 10 ∉ l) (h : 61 ∉ l) :
    ∀ p : Nat, ScanAssignFrom (l ++ [0]) p = none := by
  induction l with
  | nil =>
    intro p
    simp [ScanAssignFrom]
  | cons c t ih =>
    intro p
    have hc10 : c ≠ 10 := fun h => h10 (by rw [h]; exact List.mem_cons_self _ _)
    have hc : c ≠ 61 := fun hc => h (by rw [hc]; exact List.mem_cons_self _ _)
    rw [List.cons_append, ScanAssignFrom, if_neg (by simp [hc, hc10]),
      ih (fun h => h10 (List.mem_cons_of_mem _ h)) (fun ht => h (List.mem_cons_of_mem _ ht))]

/-! ## Text scheme: a pass depends on its own line only -/

theorem getD_append_local (l : List Nat) (t : Nat) (X : List Nat) :
    ∀ k : Nat, k ≤ l.length → (l ++ t :: X).getD k 0 = (l ++ [t]).getD k 0 := by
  induction l with
  | nil =>
    intro k hk
    have h0 : k = 0 := by simpa using hk
    rw [h0]
    rfl
  | cons c r ih =>
    intro k hk
    cases k with
    | zero => rfl
    | succ j =>
      simp only [List.cons_append, List.getD_cons_succ]
      exact ih j (by simpa using hk)

theorem getD_append_length (l : List Nat) (t : Nat) : (l ++ [t]).getD l.length 0 = t := by
  induction l with
  | nil => rfl
  | cons c r ih =>
    simp only [List.cons_append, List.length_cons, List.getD_cons_succ]
    exact ih

theorem isPrefixOf_local (t : Nat) (X : List Nat) :
    ∀ (a l : List Nat), t ∉ a → a.isPrefixOf (l ++ t :: X) = a.isPrefixOf (l ++ [t]) := by
  intro a
  induction a with
  | nil =>
    intro l _
    simp [List.isPrefixOf]
  | cons x a ih =>
    intro l hx
    have hxt : x ≠ t := fun h => hx (by rw [h]; exact List.mem_cons_self _ _)
    have ha : t ∉ a := fun h => hx (List.mem_cons_of_mem _ h)
    have hb : (x == t) = false := by simpa using hxt
    cases l with
    | nil =>
      simp [List.isPrefixOf, hb]
    | cons y l =>
      simp only [List.cons_append, List.isPrefixOf_cons₂]
      rw [ih l ha]

theorem MatchAssignment_local (l : List Nat) (t : Nat) (X : List Nat) (Variable : String)
    (h : t ∉ ascii Variable ++ [61]) :
    MatchAssignment (l ++ t :: X) 0 Variable = MatchAssignment (l ++ [t]) 0 Variable := by
  unfold MatchAssignment
  rw [List.drop_zero, List.drop_zero, isPrefixOf_local t X _ l h]

theorem DecimalDigits_local (t : Nat) (ht : t = 10 ∨ t = 0) (X : List Nat) :
    ∀ (m : List Nat) (acc : Nat),
      DecimalDigits (m ++ t :: X) acc = DecimalDigits (m ++ [t]) acc := by
  have hnd : ¬ (48 ≤ t ∧ t ≤ 57) := by
    rcases ht with h | h <;> rw [h] <;> omega
  intro m
  induction m with
  | nil =>
    intro acc
    simp only [List.nil_append, DecimalDigits, if_neg hnd]
  | cons c r ih =>
    intro acc
    simp only [List.cons_append, DecimalDigits]
    split_ifs
    · exact ih _
    · rfl

theorem AsciiStrDecimalToUintn_local (t : Nat) (ht : t = 10 ∨ t = 0) (X : List Nat) :
    ∀ m : List Nat,
      AsciiStrDecimalToUintn (m ++ t :: X) 0 = AsciiStrDecimalToUintn (m ++ [t]) 0 := by
  have hnp : ¬ (t = 32 ∨ t = 9) := by
    rcases ht with h | h <;> rw [h] <;> omega
  have hnd : ¬ (48 ≤ t ∧ t ≤ 57) := by
    rcases ht with h | h <;> rw [h] <;> omega
  intro m
  unfold AsciiStrDecimalToUintn
  rw [List.drop_zero, List.drop_zero]
  induction m with
  | nil =>
    simp only [List.nil_append, SkipPad, if_neg hnp, DecimalDigits, if_neg hnd]
  | cons c r ih =>
    simp only [List.cons_append, SkipPad]
    split_ifs
    · exact ih
    · have h1 := DecimalDigits_local t ht X (c :: r) 0
      simp only [List.cons_append] at h1
      simp only [List.append_eq, h1]

theorem AsciiStrDecimalToUintn_line (l : List Nat) (t : Nat) (ht : t = 10 ∨ t = 0)
    (X : List Nat) (k : Nat) (hk : k < l.length) :
    AsciiStrDecimalToUintn (l ++ t :: X) (k + 1) = AsciiStrDecimalToUintn (l ++ [t]) (k + 1) := by
  have h1 := AsciiStrDecimalToUintn_drop (l ++ t :: X) (k + 1) 0
  have h2 := AsciiStrDecimalToUintn_drop (l ++ [t]) (k + 1) 0
  rw [Nat.zero_add] at h1 h2
  rw [h1, h2, List.drop_append_of_le_length (by omega), List.drop_append_of_le_length (by omega)]
  exact AsciiStrDecimalToUintn_local t ht X _

theorem key_free (t : Nat) (ht : t = 10 ∨ t = 0) :
    t ∉ ascii "bootcount" ++ [61] ∧ t ∉ ascii "mender_boot_part" ++ [61] ∧
    t ∉ ascii "upgrade_available" ++ [61] ∧ t ∉ ascii "editing" ++ [61] ∧
    t ∉ ascii "mender_boot_part_hex" ++ [61] ∧ t ∉ ascii "mender_uboot_separator" ++ [61] ∧
    t ∉ ascii "systemd_machine_id" ++ [61] ∧
    t ∉ ascii "mender_systemd_machine_id" ++ [61] := by
  rcases ht with h | h <;> rw [h] <;> decide

theorem LoadMenderConfigLine_local (l : List Nat) (t : Nat) (ht : t = 10 ∨ t = 0)
    (X : List Nat) (DirIdx : Fin 2) (k : Nat) (hk : k ≤ l.length) (Status : EFI_STATUS)
    (cfg : MenderEnvPair) :
    LoadMenderConfigLine (l ++ t :: X) DirIdx 0 k Status cfg =
      LoadMenderConfigLine (l ++ [t]) DirIdx 0 k Status cfg := by
  obtain ⟨k1, k2, k3, k4, k5, k6, k7, k8⟩ := key_free t ht
  unfold LoadMenderConfigLine
  rw [getD_append_local l t X k hk]
  simp only [MatchAssignment_local l t X _ k1, MatchAssignment_local l t X _ k2,
    MatchAssignment_local l t X _ k3, MatchAssignment_local l t X _ k4,
    MatchAssignment_local l t X _ k5, MatchAssignment_local l t X _ k6,
    MatchAssignment_local l t X _ k7, MatchAssignment_local l t X _ k8]
  by_cases e : (l ++ [t]).getD k 0 = 61
  · have hklt : k < l.length := by
      by_contra hge
      have hkl : k = l.length := by omega
      rw [hkl, getD_append_length] at e
      rcases ht with h | h <;> rw [h] at e <;> omega
    rw [AsciiStrDecimalToUintn_line l t ht X k hklt]
  · simp only [if_neg e]

theorem ParseFrom_line (l X : List Nat) (DirIdx : Fin 2) (Status : EFI_STATUS)
    (cfg : MenderEnvPair) (hl : IsLine l) :
    ParseFrom (l ++ 10 :: X) DirIdx Status cfg =
      match LineEffect l 10 DirIdx Status cfg with
      | .outOfBounds => .outOfBounds
      | .gotoDone Status1 cfg1 => .done (Status1, cfg1)
      | .next Status1 cfg1 => ParseFrom X DirIdx Status1 cfg1 := by
  have hg : GetNextLine (l ++ 10 :: X) 0 = some (some (l.length + 1)) := by
    unfold GetNextLine
    rw [List.drop_zero, GetNextLineFrom_line l hl.1 hl.2 X 0, Nat.zero_add]
  have hs : ScanAssign (l ++ 10 :: X) 0 = some (ScanIdx l) := by
    unfold ScanAssign
    rw [List.drop_zero, ScanAssignFrom_line l hl.1 X 0, Nat.zero_add]
  have hdrop : (l ++ 10 :: X).drop (l.length + 1) = X := by
    have h1 : l ++ 10 :: X = (l ++ [10]) ++ X := by simp
    have h2 : l.length + 1 = (l ++ [10]).length := by simp
    rw [h1, h2, List.drop_left]
  rw [ParseFrom_unfold, hg, hs]
  simp only []
  rw [LoadMenderConfigLine_local l 10 (Or.inl rfl) X DirIdx (ScanIdx l) (ScanIdx_le l), hdrop]
  rfl

theorem ParseFrom_last (l : List Nat) (DirIdx : Fin 2) (Status : EFI_STATUS)
    (cfg : MenderEnvPair) (hl : IsLine l) (h : 61 ∈ l) :
    ParseFrom (l ++ [0]) DirIdx Status cfg =
      match LineEffect l 0 DirIdx Status cfg with
      | .outOfBounds => .outOfBounds
      | .gotoDone Status1 cfg1 => .done (Status1, cfg1)
      | .next Status1 cfg1 => .done (Status1, cfg1) := by
  have hg : GetNextLine (l ++ [0]) 0 = some none := by
    unfold GetNextLine
    rw [List.drop_zero, GetNextLineFrom_last l hl.1 hl.2 [] 0]
  have hs : ScanAssign (l ++ [0]) 0 = some (ScanIdx l) := by
    unfold ScanAssign
    rw [List.drop_zero, ScanAssignFrom_last_mem l hl.1 h [0] 0, Nat.zero_add]
  rw [ParseFrom_unfold, hg, hs]
  rfl

theorem ParseFrom_last_oob (l : List Nat) (DirIdx : Fin 2) (Status : EFI_STATUS)
    (cfg : MenderEnvPair) (hl : IsLine l) (h : 61 ∉ l) :
    ParseFrom (l ++ [0]) DirIdx Status cfg = .outOfBounds := by
  have hg : GetNextLine (l ++ [0]) 0 = some none := by
    unfold GetNextLine
    rw [List.drop_zero, GetNextLineFrom_last l hl.1 hl.2 [] 0]
  have hs : ScanAssign (l ++ [0]) 0 = none := by
    unfold ScanAssign
    rw [List.drop_zero, ScanAssignFrom_last_not_mem l hl.1 h 0]
  rw [ParseFrom_unfold, hg, hs]

/-! ## Text scheme: the key of a line -/

theorem LineKey_not_mem (l : List Nat) : 61 ∉ LineKey l := by
  unfold LineKey
  induction l with
  | nil => simp [ScanIdx]
  | cons c t ih =>
    rw [ScanIdx]
    split_ifs with hc
    · simp
    · rw [List.take_succ_cons]
      intro h
      rcases List.mem_cons.mp h with h1 | h1
      · exact hc h1.symm
      · exact ih h1

theorem line_split (l : List Nat) (h : 61 ∈ l) : l = LineKey l ++ 61 :: LineValue l := by
  unfold LineKey LineValue
  induction l with
  | nil => simp at h
  | cons c t ih =>
    rw [ScanIdx]
    split_ifs with hc
    · simp [hc]
    · have ht : 61 ∈ t := by
        rcases List.mem_cons.mp h with h1 | h1
        · exact absurd h1.symm hc
        · exact h1
      rw [List.take_succ_cons, List.drop_succ_cons, List.cons_append, ← ih ht]

theorem ScanIdx_key (k v : List Nat) (hk : 61 ∉ k) : ScanIdx (k ++ 61 :: v) = k.length := by
  induction k with
  | nil => simp [ScanIdx]
  | cons c t ih =>
    have hc : c ≠ 61 := fun h => hk (by rw [h]; exact List.mem_cons_self _ _)
    rw [List.cons_append, ScanIdx, if_neg hc, ih (fun h => hk (List.mem_cons_of_mem _ h)),
      List.length_cons]

theorem LineKey_key (k v : List Nat) (hk : 61 ∉ k) : LineKey (k ++ 61 :: v) = k := by
  unfold LineKey
  rw [ScanIdx_key k v hk, List.take_left]

theorem LineValue_key (k v : List Nat) (hk : 61 ∉ k) : LineValue (k ++ 61 :: v) = v := by
  unfold LineValue
  rw [ScanIdx_key k v hk]
  have h1 : k ++ 61 :: v = (k ++ [61]) ++ v := by simp
  have h2 : k.length + 1 = (k ++ [61]).length := by simp
  rw [h1, h2, List.drop_left]

theorem isPrefixOf_key_self (k Z : List Nat) : (k ++ [61]).isPrefixOf (k ++ 61 :: Z) = true := by
  induction k with
  | nil => simp [List.isPrefixOf]
  | cons c t ih =>
    simp only [List.cons_append, List.isPrefixOf_cons₂, ih, beq_self_eq_true, Bool.and_self]

theorem isPrefixOf_key_eq :
    ∀ (a k Z : List Nat), 61 ∉ a → 61 ∉ k →
      (a ++ [61]).isPrefixOf (k ++ 61 :: Z) = true → a = k := by
  intro a
  induction a with
  | nil =>
    intro k Z _ hk h
    cases k with
    | nil => rfl
    | cons c t =>
      have hc : c ≠ 61 := fun hc => hk (by rw [hc]; exact List.mem_cons_self _ _)
      simp only [List.nil_append, List.cons_append, List.isPrefixOf_cons₂,
        Bool.and_eq_true, beq_iff_eq] at h
      exact absurd h.1.symm hc
  | cons x a ih =>
    intro k Z ha hk h
    have hx : x ≠ 61 := fun hx => ha (by rw [hx]; exact List.mem_cons_self _ _)
    cases k with
    | nil =>
      simp only [List.nil_append, List.cons_append, List.isPrefixOf_cons₂,
        Bool.and_eq_true, beq_iff_eq] at h
      exact absurd h.1 hx
    | cons c t =>
      simp only [List.cons_append, List.isPrefixOf_cons₂, Bool.and_eq_true, beq_iff_eq] at h
      rw [h.1, ih t Z (fun h1 => ha (List.mem_cons_of_mem _ h1))
        (fun h1 => hk (List.mem_cons_of_mem _ h1)) h.2]

theorem MatchAssignment_pos_iff (l Y : List Nat) (h : 61 ∈ l) (Variable : String)
    (hv : 61 ∉ ascii Variable) :
    MatchAssignment (l ++ Y) 0 Variable > 0 ↔ LineKey l = ascii Variable := by
  have hsplit : l ++ Y = LineKey l ++ 61 :: (LineValue l ++ Y) := by
    conv => lhs; rw [line_split l h]
    simp
  unfold MatchAssignment
  rw [List.drop_zero, hsplit]
  constructor
  · intro hp
    split_ifs at hp with hpre
    · exact (isPrefixOf_key_eq _ _ _ hv (LineKey_not_mem l) hpre).symm
    · omega
  · intro hk
    rw [hk, if_pos (isPrefixOf_key_self _ _)]
    omega

theorem keys_no_eq :
    61 ∉ ascii "bootcount" ∧ 61 ∉ ascii "mender_boot_part" ∧
    61 ∉ ascii "upgrade_available" ∧ 61 ∉ ascii "editing" ∧
    61 ∉ ascii "mender_boot_part_hex" ∧ 61 ∉ ascii "mender_uboot_separator" ∧
    61 ∉ ascii "systemd_machine_id" ∧ 61 ∉ ascii "mender_systemd_machine_id" := by
  decide

theorem LineEffect_of_eq (l : List Nat) (t : Nat) (DirIdx : Fin 2) (Status : EFI_STATUS)
    (cfg : MenderEnvPair) (h : 61 ∈ l) :
    LineEffect l t DirIdx Status cfg =
      if LineKey l = ascii "bootcount" then
        match AsciiStrDecimalToUintn (l ++ [t]) (ScanIdx l + 1) with
        | none => .outOfBounds
        | some n =>
          if n % 2 ^ 32 % 256 ≠ 0 ∧ n % 2 ^ 32 % 256 ≠ 1 then
            .gotoDone EFI_INVALID_PARAMETER (MarkInvalid cfg DirIdx)
          else
            .next Status (cfg.set DirIdx { cfg.get DirIdx with BootCount := n % 2 ^ 32 % 256 })
      else if LineKey l = ascii "mender_boot_part" then
        match AsciiStrDecimalToUintn (l ++ [t]) (ScanIdx l + 1) with
        | none => .outOfBounds
        | some n =>
          if n % 2 ^ 32 ≠ MenderRootfsPartA ∧ n % 2 ^ 32 ≠ MenderRootfsPartB then
            .gotoDone EFI_INVALID_PARAMETER (MarkInvalid cfg DirIdx)
          else
            .next Status (cfg.set DirIdx { cfg.get DirIdx with MenderBootPart := n % 2 ^ 32 })
      else if LineKey l = ascii "upgrade_available" then
        match AsciiStrDecimalToUintn (l ++ [t]) (ScanIdx l + 1) with
        | none => .outOfBounds
        | some n =>
          if n % 2 ^ 32 ≠ 0 ∧ n % 2 ^ 32 ≠ 1 then
            .gotoDone EFI_INVALID_PARAMETER (MarkInvalid cfg DirIdx)
          else
            .next Status (cfg.set DirIdx { cfg.get DirIdx with UpgradeAvailable := n % 2 ^ 32 })
      else if LineKey l = ascii "editing" then
        match AsciiStrDecimalToUintn (l ++ [t]) (ScanIdx l + 1) with
        | none => .outOfBounds
        | some n => .next Status (cfg.set DirIdx { cfg.get DirIdx with Editing := n % 2 ^ 32 })
      else if LineKey l = ascii "mender_boot_part_hex" ∨
          LineKey l = ascii "mender_uboot_separator" ∨
          LineKey l = ascii "systemd_machine_id" ∨
          LineKey l = ascii "mender_systemd_machine_id" then
        .next Status cfg
      else
        .next EFI_INVALID_PARAMETER cfg := by
  obtain ⟨k1, k2, k3, k4, k5, k6, k7, k8⟩ := keys_no_eq
  unfold LineEffect LoadMenderConfigLine
  rw [if_pos (ScanIdx_getD_of_mem l h [t])]
  simp only [MatchAssignment_pos_iff l [t] h _ k1, MatchAssignment_pos_iff l [t] h _ k2,
    MatchAssignment_pos_iff l [t] h _ k3, MatchAssignment_pos_iff l [t] h _ k4,
    MatchAssignment_pos_iff l [t] h _ k5, MatchAssignment_pos_iff l [t] h _ k6,
    MatchAssignment_pos_iff l [t] h _ k7, MatchAssignment_pos_iff l [t] h _ k8]

theorem LineEffect_of_no_eq (l : List Nat) (t : Nat) (ht : t ≠ 61) (DirIdx : Fin 2)
    (Status : EFI_STATUS) (cfg : MenderEnvPair) (h : 61 ∉ l) :
    LineEffect l t DirIdx Status cfg = .next Status cfg := by
  unfold LineEffect LoadMenderConfigLine
  rw [ScanIdx_of_not_mem l h, getD_append_length, if_neg ht]

/-! ## Text scheme: passes that never leave the buffer -/

theorem DecimalDigits_term (t : Nat) (ht : t = 10 ∨ t = 0) :
    ∀ (m : List Nat) (acc : Nat), ∃ v, DecimalDigits (m ++ [t]) acc = some v := by
  have hnd : ¬ (48 ≤ t ∧ t ≤ 57) := by
    rcases ht with h | h <;> rw [h] <;> omega
  intro m
  induction m with
  | nil =>
    intro acc
    exact ⟨acc, by simp only [List.nil_append, DecimalDigits, if_neg hnd]⟩
  | cons c r ih =>
    intro acc
    simp only [List.cons_append, DecimalDigits]
    split_ifs
    · exact ih _
    · exact ⟨acc, rfl⟩

theorem AsciiStrDecimalToUintn_term (t : Nat) (ht : t = 10 ∨ t = 0) :
    ∀ m : List Nat, ∃ n, AsciiStrDecimalToUintn (m ++ [t]) 0 = some n := by
  have hnp : ¬ (t = 32 ∨ t = 9) := by
    rcases ht with h | h <;> rw [h] <;> omega
  have hnd : ¬ (48 ≤ t ∧ t ≤ 57) := by
    rcases ht with h | h <;> rw [h] <;> omega
  intro m
  unfold AsciiStrDecimalToUintn
  rw [List.drop_zero]
  induction m with
  | nil =>
    simp only [List.nil_append, SkipPad, if_neg hnp, DecimalDigits, if_neg hnd]
    exact ⟨_, rfl⟩
  | cons c r ih =>
    simp only [List.cons_append, SkipPad]
    split_ifs
    · exact ih
    · obtain ⟨v, hv⟩ := DecimalDigits_term t ht (c :: r) 0
      simp only [List.cons_append] at hv
      simp only [List.append_eq, hv]
      exact ⟨_, rfl⟩

theorem AsciiStrDecimalToUintn_line_term (l : List Nat) (t : Nat) (ht : t = 10 ∨ t = 0)
    (k : Nat) (hk : k ≤ l.length) : ∃ n, AsciiStrDecimalToUintn (l ++ [t]) k = some n := by
  have h1 := AsciiStrDecimalToUintn_drop (l ++ [t]) k 0
  rw [Nat.zero_add] at h1
  rw [h1, List.drop_append_of_le_length hk]
  exact AsciiStrDecimalToUintn_term t ht _

theorem LineEffect_ne_outOfBounds (l : List Nat) (t : Nat) (ht : t = 10 ∨ t = 0)
    (DirIdx : Fin 2) (Status : EFI_STATUS) (cfg : MenderEnvPair) :
    LineEffect l t DirIdx Status cfg ≠ .outOfBounds := by
  have ht61 : t ≠ 61 := by
    rcases ht with h | h <;> rw [h] <;> omega
  by_cases h : 61 ∈ l
  · obtain ⟨n, hn⟩ := AsciiStrDecimalToUintn_line_term l t ht (ScanIdx l + 1)
      (ScanIdx_lt_of_mem l h)
    rw [LineEffect_of_eq l t DirIdx Status cfg h, hn]
    simp only []
    split_ifs <;> simp
  · rw [LineEffect_of_no_eq l t ht61 DirIdx Status cfg h]
    simp

theorem LineEffect_update (l : List Nat) (t : Nat) (DirIdx : Fin 2) (Status : EFI_STATUS) :
    ∃ r : StepUpdate,
      (∀ cfg, LineEffect l t DirIdx Status cfg = r.inst DirIdx cfg) ∧ r.ok Status :=
  LoadMenderConfigLine_update (l ++ [t]) DirIdx 0 (ScanIdx l) Status

theorem ParseFrom_sticky (s : List Nat) (DirIdx : Fin 2) (Status : EFI_STATUS)
    (cfg : MenderEnvPair) (Status1 : EFI_STATUS) (cfg1 : MenderEnvPair)
    (he : EFI_ERROR Status = true)
    (h : ParseFrom s DirIdx Status cfg = .done (Status1, cfg1)) : EFI_ERROR Status1 = true := by
  obtain ⟨o, ho, hp⟩ := LoadMenderConfigLoop_update s DirIdx (s.length + 1) 0 Status
  unfold ParseFrom at h
  rw [ho cfg] at h
  cases o with
  | done a =>
    simp only [Outcome.map, Outcome.done.injEq, Prod.mk.injEq] at h
    rw [← h.1]
    exact hp a.1 a.2 rfl he
  | outOfBounds => cases h
  | outOfFuel => cases h
  | divideByZero => cases h

theorem ParseFrom_returns (DirIdx : Fin 2) (last : List Nat) (hlast : IsLine last)
    (h61 : 61 ∈ last) (ls : List (List Nat)) :
    (∀ l ∈ ls, IsLine l) → ∀ (Status : EFI_STATUS) (cfg : MenderEnvPair),
      ∃ Status1 cfg1, ParseFrom (TextOf ls last ++ [0]) DirIdx Status cfg =
        .done (Status1, cfg1) := by
  induction ls with
  | nil =>
    intro _ Status cfg
    simp only [TextOf]
    rw [ParseFrom_last last DirIdx Status cfg hlast h61]
    have hne := LineEffect_ne_outOfBounds last 0 (Or.inr rfl) DirIdx Status cfg
    cases hl : LineEffect last 0 DirIdx Status cfg with
    | outOfBounds => exact absurd hl hne
    | gotoDone s c => exact ⟨s, c, rfl⟩
    | next s c => exact ⟨s, c, rfl⟩
  | cons l ls ih =>
    intro hls Status cfg
    have hl : IsLine l := hls l (List.mem_cons_self _ _)
    have hrest : ∀ x ∈ ls, IsLine x := fun x hx => hls x (List.mem_cons_of_mem _ hx)
    simp only [TextOf, List.append_assoc, List.cons_append]
    rw [ParseFrom_line l _ DirIdx Status cfg hl]
    have hne := LineEffect_ne_outOfBounds l 10 (Or.inl rfl) DirIdx Status cfg
    cases hl2 : LineEffect l 10 DirIdx Status cfg with
    | outOfBounds => exact absurd hl2 hne
    | gotoDone s c => exact ⟨s, c, rfl⟩
    | next s c => exact ih hrest s c

/-! ## Text scheme: unknown keys -/

theorem LineEffect_unknown (u : List Nat) (t : Nat) (DirIdx : Fin 2) (Status : EFI_STATUS)
    (cfg : MenderEnvPair) (h61 : 61 ∈ u) (hkey : LineKey u ∉ KnownKeys) :
    LineEffect u t DirIdx Status cfg = .next EFI_INVALID_PARAMETER cfg := by
  simp only [KnownKeys, RecognizedKeys, IgnorableKeys, List.cons_append, List.nil_append,
    List.map_cons, List.map_nil, List.mem_cons, List.mem_singleton, List.not_mem_nil,
    or_false, not_or] at hkey
  obtain ⟨n1, n2, n3, n4, n5, n6, n7, n8⟩ := hkey
  rw [LineEffect_of_eq u t DirIdx Status cfg h61, if_neg n1, if_neg n2, if_neg n3, if_neg n4,
    if_neg (by
      intro h
      rcases h with h | h | h | h
      · exact n5 h
      · exact n6 h
      · exact n7 h
      · exact n8 h)]

theorem LineEffect_gotoDone_status (l : List Nat) (t : Nat) (DirIdx : Fin 2)
    (Status : EFI_STATUS) (cfg : MenderEnvPair) (s : EFI_STATUS) (c : MenderEnvPair)
    (h : LineEffect l t DirIdx Status cfg = .gotoDone s c) : s = EFI_INVALID_PARAMETER := by
  obtain ⟨r, hr, hok⟩ := LineEffect_update l t DirIdx Status
  rw [hr cfg] at h
  cases r with
  | outOfBounds => simp [StepUpdate.inst] at h
  | next s1 u1 => simp [StepUpdate.inst] at h
  | gotoDone s1 u1 =>
    simp only [StepUpdate.inst, LineStep.gotoDone.injEq] at h
    rw [← h.1]
    exact hok.2

theorem ParseFrom_unknown (DirIdx : Fin 2) (last u : List Nat) (hlast : IsLine last)
    (h61 : 61 ∈ u) (hkey : LineKey u ∉ KnownKeys) (ls : List (List Nat)) :
    (∀ l ∈ ls, IsLine l) → (u ∈ ls ∨ u = last) →
      ∀ (Status : EFI_STATUS) (cfg : MenderEnvPair) (Status1 : EFI_STATUS)
        (cfg1 : MenderEnvPair),
        ParseFrom (TextOf ls last ++ [0]) DirIdx Status cfg = .done (Status1, cfg1) →
        EFI_ERROR Status1 = true := by
  induction ls with
  | nil =>
    intro _ hu Status cfg Status1 cfg1 h
    have hul : u = last := by
      rcases hu with hu | hu
      · simp at hu
      · exact hu
    subst hul
    simp only [TextOf] at h
    rw [ParseFrom_last u DirIdx Status cfg hlast h61,
      LineEffect_unknown u 0 DirIdx Status cfg h61 hkey] at h
    simp only [Outcome.done.injEq, Prod.mk.injEq] at h
    rw [← h.1]
    rfl
  | cons l ls ih =>
    intro hls hu Status cfg Status1 cfg1 h
    have hl : IsLine l := hls l (List.mem_cons_self _ _)
    have hrest : ∀ x ∈ ls, IsLine x := fun x hx => hls x (List.mem_cons_of_mem _ hx)
    simp only [TextOf, List.append_assoc, List.cons_append] at h
    rw [ParseFrom_line l _ DirIdx Status cfg hl] at h
    cases hl2 : LineEffect l 10 DirIdx Status cfg with
    | outOfBounds => simp [hl2] at h
    | gotoDone s c =>
      simp only [hl2, Outcome.done.injEq, Prod.mk.injEq] at h
      rw [← h.1, LineEffect_gotoDone_status l 10 DirIdx Status cfg s c hl2]
      rfl
    | next s c =>
      simp only [hl2] at h
      by_cases hul : u = l
      · subst hul
        rw [LineEffect_unknown u 10 DirIdx Status cfg h61 hkey] at hl2
        simp only [LineStep.next.injEq] at hl2
        exact ParseFrom_sticky _ DirIdx s c Status1 cfg1 (by rw [← hl2.1]; rfl) h
      · have hu2 : u ∈ ls ∨ u = last := by
          rcases hu with hu | hu
          · rcases List.mem_cons.mp hu with h1 | h1
            · exact absurd h1 hul
            · exact Or.inl h1
          · exact Or.inr hu
        exact ih hrest hu2 s c Status1 cfg1 h

/-- Unknown keys where the scan stays inside the text: a text, made of the
lines `ls` and the last line `last`, that holds a line with `=` whose key is
none of the eight known keys never makes `LoadMenderConfig` return a status
that is not an error, whatever lines come before or after it; and the parse
does return, with an error status, when the last line holds an `=`. -/
theorem LoadMenderConfig_unknown_key (ls : List (List Nat)) (last u : List Nat)
    (DirIdx : Fin 2) (cfg : MenderEnvPair) (hls : ∀ l ∈ ls, IsLine l) (hlast : IsLine last)
    (hu : u ∈ ls ∨ u = last) (h61 : 61 ∈ u) (hkey : LineKey u ∉ KnownKeys) :
    (∀ (Status : EFI_STATUS) (cfg1 : MenderEnvPair),
      LoadMenderConfig (TextOf ls last ++ [0]) DirIdx cfg = .done (Status, cfg1) →
      EFI_ERROR Status = true) ∧
    (61 ∈ last → ∃ (Status : EFI_STATUS) (cfg1 : MenderEnvPair),
      LoadMenderConfig (TextOf ls last ++ [0]) DirIdx cfg = .done (Status, cfg1) ∧
      EFI_ERROR Status = true) := by
  have h1 : ∀ (Status : EFI_STATUS) (cfg1 : MenderEnvPair),
      LoadMenderConfig (TextOf ls last ++ [0]) DirIdx cfg = .done (Status, cfg1) →
      EFI_ERROR Status = true := by
    intro Status cfg1 h
    rw [LoadMenderConfig_eq_ParseFrom] at h
    exact ParseFrom_unknown DirIdx last u hlast h61 hkey ls hls hu EFI_SUCCESS cfg Status cfg1 h
  refine ⟨h1, ?_⟩
  intro hl61
  obtain ⟨Status, cfg1, h⟩ := ParseFrom_returns DirIdx last hlast hl61 ls hls EFI_SUCCESS cfg
  rw [← LoadMenderConfig_eq_ParseFrom] at h
  exact ⟨Status, cfg1, h, h1 Status cfg1 h⟩

set_option maxRecDepth 1000000 in
/-- A sample text with an unknown key: `bootcount=1`, `foo=1`, `editing=1` has
the unknown key `foo` in its second line and the parse returns
`EFI_INVALID_PARAMETER`. -/
theorem LoadMenderConfig_unknown_key_witness :
    (∀ l ∈ [ascii "bootcount=1", ascii "foo=1"], IsLine l) ∧ IsLine (ascii "editing=1") ∧
    61 ∈ ascii "foo=1" ∧ LineKey (ascii "foo=1") ∉ KnownKeys ∧
    LoadMenderConfig (TextOf [ascii "bootcount=1", ascii "foo=1"] (ascii "editing=1") ++ [0]) 0
      MenderEnvPair.zero = .done (EFI_INVALID_PARAMETER, ⟨⟨1, 0, 0, 1, 0⟩, ⟨0, 0, 0, 0, 0⟩⟩) ∧
    EFI_ERROR EFI_INVALID_PARAMETER = true :=
  ⟨by decide, by decide, by decide, by decide, by decide,
    (LoadMenderConfig_unknown_key [ascii "bootcount=1", ascii "foo=1"] (ascii "editing=1")
      (ascii "foo=1") 0 MenderEnvPair.zero (by decide) (by decide)
      (Or.inl (by decide)) (by decide) (by decide)).1 EFI_INVALID_PARAMETER
      ⟨⟨1, 0, 0, 1, 0⟩, ⟨0, 0, 0, 0, 0⟩⟩ (by decide)⟩

theorem field_key_facts (f : MenderField) :
    61 ∉ ascii f.key ∧ 10 ∉ ascii f.key ∧ 0 ∉ ascii f.key := by
  cases f <;> decide

theorem Numeral_mem (ds : List Nat) (hd : ∀ d ∈ ds, d < 10) :
    ∀ x ∈ Numeral ds, 48 ≤ x ∧ x ≤ 57 := by
  intro x hx
  unfold Numeral at hx
  obtain ⟨d, hdm, hdx⟩ := List.mem_map.mp hx
  have := hd d hdm
  omega

theorem DecimalDigits_numeral (t : Nat) (ht : t = 10 ∨ t = 0) :
    ∀ (ds : List Nat), (∀ d ∈ ds, d < 10) → ∀ acc : Nat,
      DecimalDigits (Numeral ds ++ [t]) acc =
        some (ds.foldl (fun a d => a * 10 + d) acc) := by
  have hnd : ¬ (48 ≤ t ∧ t ≤ 57) := by
    rcases ht with h | h <;> rw [h] <;> omega
  intro ds
  induction ds with
  | nil =>
    intro _ acc
    simp only [Numeral, List.map_nil, List.nil_append, DecimalDigits, if_neg hnd,
      List.foldl_nil]
  | cons d r ih =>
    intro hd acc
    have hd10 : d < 10 := hd d (List.mem_cons_self _ _)
    have hr : ∀ x ∈ r, x < 10 := fun x hx => hd x (List.mem_cons_of_mem _ hx)
    have hdig : 48 ≤ d + 48 ∧ d + 48 ≤ 57 := by omega
    have ih2 := ih hr (acc * 10 + d)
    simp only [Numeral] at ih2
    simp only [Numeral, List.map_cons, List.cons_append, DecimalDigits, if_pos hdig,
      List.foldl_cons, Nat.add_sub_cancel]
    exact ih2

theorem AsciiStrDecimalToUintn_numeral (t : Nat) (ht : t = 10 ∨ t = 0) (ds : List Nat)
    (hd : ∀ d ∈ ds, d < 10) (hv : NumeralValue ds ≤ MAX_UINTN) :
    AsciiStrDecimalToUintn (Numeral ds ++ [t]) 0 = some (NumeralValue ds) := by
  have hnp : ¬ (t = 32 ∨ t = 9) := by
    rcases ht with h | h <;> rw [h] <;> omega
  have hdd := DecimalDigits_numeral t ht ds hd 0
  have hsat : ¬ NumeralValue ds > MAX_UINTN := by omega
  unfold AsciiStrDecimalToUintn
  rw [List.drop_zero]
  cases ds with
  | nil =>
    simp only [Numeral, List.map_nil, List.nil_append] at hdd ⊢
    simp only [SkipPad, if_neg hnp, hdd]
    simp [NumeralValue, MAX_UINTN]
  | cons d r =>
    have hd10 : d < 10 := hd d (List.mem_cons_self _ _)
    have hnpd : ¬ (d + 48 = 32 ∨ d + 48 = 9) := by omega
    simp only [Numeral, List.map_cons, List.cons_append] at hdd ⊢
    simp only [SkipPad, if_neg hnpd, List.append_eq, hdd]
    simp only [NumeralValue] at hsat
    simp only [NumeralValue, if_neg hsat]

theorem MenderAssign.line_facts (a : MenderAssign) (ha : ∀ d ∈ a.digits, d < 10) :
    IsLine a.line ∧ 61 ∈ a.line ∧ LineKey a.line = ascii a.field.key ∧
      ScanIdx a.line = (ascii a.field.key).length := by
  obtain ⟨k61, k10, k0⟩ := field_key_facts a.field
  have hnum := Numeral_mem a.digits ha
  unfold MenderAssign.line
  refine ⟨⟨?_, ?_⟩, by simp, LineKey_key _ _ k61, ScanIdx_key _ _ k61⟩
  · intro h
    rcases List.mem_append.mp h with h1 | h1
    · exact k10 h1
    · rcases List.mem_cons.mp h1 with h2 | h2
      · omega
      · have := hnum 10 h2
        omega
  · intro h
    rcases List.mem_append.mp h with h1 | h1
    · exact k0 h1
    · rcases List.mem_cons.mp h1 with h2 | h2
      · omega
      · have := hnum 0 h2
        omega

theorem MenderAssign.line_value (a : MenderAssign) (ha : ∀ d ∈ a.digits, d < 10)
    (hv : a.value ≤ MAX_UINTN) (t : Nat) (ht : t = 10 ∨ t = 0) :
    AsciiStrDecimalToUintn (a.line ++ [t]) (ScanIdx a.line + 1) = some a.value := by
  obtain ⟨_, _, _, hidx⟩ := a.line_facts ha
  have h1 := AsciiStrDecimalToUintn_drop (a.line ++ [t]) (ScanIdx a.line + 1) 0
  rw [Nat.zero_add] at h1
  have hdrop : (a.line ++ [t]).drop (ScanIdx a.line + 1) = Numeral a.digits ++ [t] := by
    rw [hidx]
    unfold MenderAssign.line
    have e1 : ascii a.field.key ++ 61 :: Numeral a.digits ++ [t] =
        (ascii a.field.key ++ [61]) ++ (Numeral a.digits ++ [t]) := by simp
    have e2 : (ascii a.field.key).length + 1 = (ascii a.field.key ++ [61]).length := by simp
    rw [e1, e2, List.drop_left]
  rw [h1, hdrop]
  exact AsciiStrDecimalToUintn_numeral t ht a.digits ha hv

theorem MenderAssign.value_le (a : MenderAssign) (ha : a.Accepted) : a.value < 2 ^ 32 := by
  obtain ⟨f, ds⟩ := a
  have h := ha.2
  cases f <;>
    simp only [MenderField.accepts, Bool.or_eq_true, beq_iff_eq, decide_eq_true_eq,
      MenderRootfsPartA, MenderRootfsPartB] at h <;> omega

theorem LineEffect_accepted (a : MenderAssign) (ha : a.Accepted) (t : Nat)
    (ht : t = 10 ∨ t = 0) (DirIdx : Fin 2) (Status : EFI_STATUS) (cfg : MenderEnvPair) :
    LineEffect a.line t DirIdx Status cfg =
      .next Status (cfg.set DirIdx (a.store (cfg.get DirIdx))) := by
  obtain ⟨_, h61, hkey, _⟩ := a.line_facts ha.1
  have hlt := a.value_le ha
  have hval := a.line_value ha.1 (by unfold MAX_UINTN; omega) t ht
  have hmod : a.value % 2 ^ 32 = a.value := Nat.mod_eq_of_lt hlt
  rw [LineEffect_of_eq a.line t DirIdx Status cfg h61, hkey, hval]
  have hacc := ha.2
  obtain ⟨f, ds⟩ := a
  cases f
  · simp only [MenderField.accepts, Bool.or_eq_true, beq_iff_eq] at hacc
    have h256 : MenderAssign.value ⟨.BootCount, ds⟩ % 2 ^ 32 % 256 =
        MenderAssign.value ⟨.BootCount, ds⟩ := by
      rw [hmod]
      exact Nat.mod_eq_of_lt (by omega)
    simp only [MenderField.key, if_true, h256]
    rw [if_neg (by omega)]
    rfl
  · simp only [MenderField.accepts, Bool.or_eq_true, beq_iff_eq] at hacc
    have n1 : ascii "mender_boot_part" ≠ ascii "bootcount" := by decide
    simp only [MenderField.key, if_neg n1, if_true, hmod]
    rw [if_neg (by
      intro h
      rcases hacc with h1 | h1
      · exact h.1 h1
      · exact h.2 h1)]
    rfl
  · simp only [MenderField.accepts, Bool.or_eq_true, beq_iff_eq] at hacc
    have n1 : ascii "upgrade_available" ≠ ascii "bootcount" := by decide
    have n2 : ascii "upgrade_available" ≠ ascii "mender_boot_part" := by decide
    simp only [MenderField.key, if_neg n1, if_neg n2, if_true, hmod]
    rw [if_neg (by omega)]
    rfl
  · have n1 : ascii "editing" ≠ ascii "bootcount" := by decide
    have n2 : ascii "editing" ≠ ascii "mender_boot_part" := by decide
    have n3 : ascii "editing" ≠ ascii "upgrade_available" := by decide
    simp only [MenderField.key, if_neg n1, if_neg n2, if_neg n3, if_true, hmod]
    rfl

theorem ParseFrom_accepted (DirIdx : Fin 2) (a : MenderAssign) (ha : a.Accepted)
    (as : List MenderAssign) :
    (∀ x ∈ as, x.Accepted) → ∀ (Status : EFI_STATUS) (cfg : MenderEnvPair),
      ParseFrom (TextOf (as.map MenderAssign.line) a.line ++ [0]) DirIdx Status cfg =
        .done (Status, cfg.set DirIdx
          ((as ++ [a]).foldl (fun c x => x.store c) (cfg.get DirIdx))) := by
  induction as with
  | nil =>
    intro _ Status cfg
    obtain ⟨hline, h61, _, _⟩ := a.line_facts ha.1
    simp only [List.map_nil, TextOf, List.nil_append, List.foldl_cons, List.foldl_nil]
    rw [ParseFrom_last a.line DirIdx Status cfg hline h61,
      LineEffect_accepted a ha 0 (Or.inr rfl) DirIdx Status cfg]
  | cons x as ih =>
    intro has Status cfg
    have hx : x.Accepted := has x (List.mem_cons_self _ _)
    have hrest : ∀ y ∈ as, y.Accepted := fun y hy => has y (List.mem_cons_of_mem _ hy)
    obtain ⟨hline, _, _, _⟩ := x.line_facts hx.1
    simp only [List.map_cons, TextOf, List.append_assoc, List.cons_append, List.foldl_cons]
    rw [ParseFrom_line x.line _ DirIdx Status cfg hline,
      LineEffect_accepted x hx 10 (Or.inl rfl) DirIdx Status cfg]
    simp only []
    have h := ih hrest Status (cfg.set DirIdx (x.store (cfg.get DirIdx)))
    simp only [List.append_assoc] at h
    rw [h, MenderEnvPair.get_set_self, MenderEnvPair.set_set]

set_option maxRecDepth 1000000 in
/-- C12 as stated fails: the value of `editing=4294967296` does not fit the 32
bits of the field; the line is accepted without error and `Editing` is set to
0, not to the value written. -/
theorem LoadMenderConfig_editing_overflow :
    LoadMenderConfig (ascii "editing=4294967296" ++ [0]) 0
      ⟨⟨0, 0, 0, 7, 0⟩, ⟨0, 0, 0, 0, 0⟩⟩ =
      .done (EFI_SUCCESS, ⟨⟨0, 0, 0, 0, 0⟩, ⟨0, 0, 0, 0, 0⟩⟩) := by
  decide

/-- C12, amended: a line with a recognized key and an accepted value
(`bootcount` 0 or 1, `mender_boot_part` 2 or 3, `upgrade_available` 0 or 1,
`editing` any value below 2^32) sets exactly the matching field of copy
`DirIdx` to that value and keeps the status; and for a text made only of such
lines, separated by line feeds and with no line feed behind the last one,
`LoadMenderConfig` returns success and each field holds the value of the last
line that assigned it. -/
theorem LoadMenderConfig_accepted_lines (as : List MenderAssign) (a : MenderAssign)
    (DirIdx : Fin 2) (cfg : MenderEnvPair) (has : ∀ x ∈ as, x.Accepted) (ha : a.Accepted) :
    (∀ (t : Nat), t = 10 ∨ t = 0 → ∀ (Status : EFI_STATUS) (c : MenderEnvPair),
      LineEffect a.line t DirIdx Status c =
        .next Status (c.set DirIdx (a.field.store a.value (c.get DirIdx)))) ∧
    LoadMenderConfig (TextOf (as.map MenderAssign.line) a.line ++ [0]) DirIdx cfg =
      .done (EFI_SUCCESS, cfg.set DirIdx
        ((as ++ [a]).foldl (fun c x => x.field.store x.value c) (cfg.get DirIdx))) := by
  refine ⟨fun t ht Status c => LineEffect_accepted a ha t ht DirIdx Status c, ?_⟩
  rw [LoadMenderConfig_eq_ParseFrom]
  exact ParseFrom_accepted DirIdx a ha as has EFI_SUCCESS cfg

set_option maxRecDepth 1000000 in
/-- C12, amended, at a sample: the text `bootcount=1`, `mender_boot_part=3`,
`editing=12`, `bootcount=0` is parsed with success; `BootCount` holds the value
of the last line that assigned it. -/
theorem LoadMenderConfig_accepted_lines_witness :
    (∀ x ∈ [MenderAssign.mk .BootCount [1], MenderAssign.mk .MenderBootPart [3],
      MenderAssign.mk .Editing [1, 2]], x.Accepted) ∧
    (MenderAssign.mk .BootCount [0]).Accepted ∧
    TextOf ([MenderAssign.mk .BootCount [1], MenderAssign.mk .MenderBootPart [3],
      MenderAssign.mk .Editing [1, 2]].map MenderAssign.line)
      (MenderAssign.mk .BootCount [0]).line =
      ascii "bootcount=1\nmender_boot_part=3\nediting=12\nbootcount=0" ∧
    LoadMenderConfig (TextOf ([MenderAssign.mk .BootCount [1],
      MenderAssign.mk .MenderBootPart [3], MenderAssign.mk .Editing [1, 2]].map
        MenderAssign.line) (MenderAssign.mk .BootCount [0]).line ++ [0]) 1
      MenderEnvPair.zero =
      .done (EFI_SUCCESS, MenderEnvPair.zero.set 1
        (([MenderAssign.mk .BootCount [1], MenderAssign.mk .MenderBootPart [3],
          MenderAssign.mk .Editing [1, 2]] ++ [MenderAssign.mk .BootCount [0]]).foldl
          (fun c x => x.field.store x.value c) (MenderEnvPair.zero.get 1))) ∧
    MenderEnvPair.zero.set 1
        (([MenderAssign.mk .BootCount [1], MenderAssign.mk .MenderBootPart [3],
          MenderAssign.mk .Editing [1, 2]] ++ [MenderAssign.mk .BootCount [0]]).foldl
          (fun c x => x.field.store x.value c) (MenderEnvPair.zero.get 1)) =
      ⟨⟨0, 0, 0, 0, 0⟩, ⟨0, 3, 0, 12, 0⟩⟩ :=
  ⟨by decide, by decide, by decide,
    (LoadMenderConfig_accepted_lines [MenderAssign.mk .BootCount [1],
      MenderAssign.mk .MenderBootPart [3], MenderAssign.mk .Editing [1, 2]]
      (MenderAssign.mk .BootCount [0]) 1 MenderEnvPair.zero (by decide) (by decide)).2,
    by decide⟩

/-! ## Text scheme: every text is a sequence of lines -/

theorem text_decomposition (t : List Nat) (h0 : 0 ∉ t) :
    ∃ (ls : List (List Nat)) (last : List Nat),
      t = TextOf ls last ∧ (∀ l ∈ ls, IsLine l) ∧ IsLine last := by
  induction t with
  | nil => exact ⟨[], [], rfl, fun l hl => by simp at hl, by simp [IsLine]⟩
  | cons c r ih =>
    have hc0 : c ≠ 0 := fun h => h0 (by rw [h]; exact List.mem_cons_self _ _)
    obtain ⟨ls, last, ht, hls, hlast⟩ := ih (fun h => h0 (List.mem_cons_of_mem _ h))
    by_cases hc : c = 10
    · refine ⟨[] :: ls, last, ?_, ?_, hlast⟩
      · simp only [TextOf, List.nil_append, hc, ht]
      · intro l hl
        rcases List.mem_cons.mp hl with h1 | h1
        · rw [h1]
          simp [IsLine]
        · exact hls l h1
    · have hcons : ∀ l : List Nat, IsLine l → IsLine (c :: l) := by
        intro l hl
        constructor
        · intro h
          rcases List.mem_cons.mp h with h1 | h1
          · exact hc h1.symm
          · exact hl.1 h1
        · intro h
          rcases List.mem_cons.mp h with h1 | h1
          · exact hc0 h1.symm
          · exact hl.2 h1
      cases ls with
      | nil =>
        refine ⟨[], c :: last, ?_, fun l hl => by simp at hl, hcons last hlast⟩
        simp only [TextOf] at ht ⊢
        rw [ht]
      | cons l1 ls1 =>
        refine ⟨(c :: l1) :: ls1, last, ?_, ?_, hlast⟩
        · simp only [TextOf, List.cons_append] at ht ⊢
          rw [ht]
        · intro l hl
          rcases List.mem_cons.mp hl with h1 | h1
          · rw [h1]
            exact hcons l1 (hls l1 (List.mem_cons_self _ _))
          · exact hls l (List.mem_cons_of_mem _ h1)

end AbSupport
